import Mathlib

/-!
# The web compile driver (`CLI/src/CompileWeb.cpp`)

A shallow embedding of the driver: the format registry `getCompileFormat`, the
option loop and pipeline of `compileWebMain`, the tokenizer `splitArgs` and the
boundary function `exportCompile`, followed by the properties proved of them.

Conventions of the embedding.

* A C string (`const char*`) is the list of its characters before the
  terminating NUL; a `std::string` is the list of its characters. One `Char`
  stands for one C `char`.
* `int` values are `Int`s; where C arithmetic can leave the 32-bit range the
  result is reduced with `wrapInt`.
* The parser, the compiler and the bytecode builder are outside this file of the
  repository: they are the fields of the structure `Luau`, and every function
  that reaches them takes that structure as its first argument.
* The process-wide variable `globalOptions` is passed in and returned
  explicitly. Its three hooks are pointers into `argv` strings that the driver
  does not own: a pointer is null, points to a string that is still alive, or
  dangles (`CharPtr`).
* Where a property is about allocation, the functions are given once more with
  the C heap as an explicit state (`compileWebMainOn`, `exportCompileOn`); what
  the language leaves to the library and the machine is the parameter
  `Runtime`.
* The option tokens of a call of `compileWebMain` are `argv[1]`, `argv[2]`, ...;
  `argv[0]` is the program-name slot of the `main` convention, which the option
  loop never examines. A statement about a token list `toks` is therefore a
  statement about the call with `argv = prog :: toks`.
* A loop without a structural bound (`splitArgs`) takes fuel and yields `none`
  only when the fuel is used up.
-/

namespace CompileWeb

/-- A C string: the characters before the terminating NUL. -/
abbrev CStr := List Char

/-! ## C library functions used by the driver -/

/-- The C `strcmp`: zero when both strings are equal, otherwise negative or
positive after the first differing character (compared as unsigned). -/
def strcmp : CStr → CStr → Int
  | [], [] => 0
  | [], _ :: _ => -1
  | _ :: _, [] => 1
  | a :: as, b :: bs =>
    if a = b then strcmp as bs else if a.toNat < b.toNat then -1 else 1

/-- The C `strncmp`: as `strcmp`, over at most the first `n` characters. -/
def strncmp : CStr → CStr → Nat → Int
  | _, _, 0 => 0
  | [], [], _ + 1 => 0
  | [], _ :: _, _ + 1 => -1
  | _ :: _, [], _ + 1 => 1
  | a :: as, b :: bs, n + 1 =>
    if a = b then strncmp as bs n else if a.toNat < b.toNat then -1 else 1

/-- Conversion of an integer to a 32-bit two's complement `int`. -/
def wrapInt (x : Int) : Int := (x + 2147483648) % 4294967296 - 2147483648

/-- The C `isspace` in the "C" locale. -/
def isspace (c : Char) : Bool :=
  c = ' ' || c = '\t' || c = '\n' || c = '\x0b' || c = '\x0c' || c = '\r'

/-- The C `isdigit`. -/
def isdigit (c : Char) : Bool := decide ('0'.toNat ≤ c.toNat) && decide (c.toNat ≤ '9'.toNat)

/-- The digit loop of `atoi`: `acc` is the value of the digits read so far. -/
def atoiDigits : CStr → Int → Int
  | [], acc => acc
  | c :: s, acc => if isdigit c then atoiDigits s (10 * acc + (c.toNat - '0'.toNat : Nat)) else acc

/-- The C library `atoi`: skip white space, read an optional sign and the
longest run of decimal digits, and return their value as an `int`. A string
without leading digits has value `0`. A value that does not fit 32 bits is
reduced modulo `2^32`: the C standard leaves that case open, and this is what
the `int` arithmetic of the digit loop gives in the libc of the WebAssembly
target (musl), as does the conversion of a 64-bit `strtol` result to `int`. -/
def atoi (s : CStr) : Int :=
  match s.dropWhile isspace with
  | '-' :: r => wrapInt (-(atoiDigits r 0))
  | '+' :: r => wrapInt (atoiDigits r 0)
  | r => wrapInt (atoiDigits r 0)

/-! ## Data model -/

/-- The `enum class CompileFormat`. -/
inductive CompileFormat where
  | Text
  | Binary
  | Remarks
  | Codegen
  | CodegenAsm
  | CodegenIr
  | CodegenVerbose
  | CodegenNull
  | Null
  deriving DecidableEq, Repr

/-- The `enum class RecordStats`. -/
inductive RecordStats where
  | None
  | Total
  | File
  | Function
  deriving DecidableEq, Repr

/-- A `const char*` held in an option field: the null pointer, a pointer to a
C string whose storage is alive (shown by the string it points to), or a
pointer whose storage has been destroyed. The driver stores `argv[i] + n` in
such a field, a pointer into a string of the `argv` it was called with, which
it does not own: the pointer is good for as long as the owner of that `argv`
keeps it. -/
inductive CharPtr where
  | null
  | to (text : CStr)
  | dangling
  deriving DecidableEq, Repr

/-- The `struct GlobalOptions`, with the initial values of its single
process-wide instance `globalOptions`. -/
structure GlobalOptions where
  optimizationLevel : Int := 1
  debugLevel : Int := 1
  typeInfoLevel : Int := 0
  vectorLib : CharPtr := CharPtr.null
  vectorCtor : CharPtr := CharPtr.null
  vectorType : CharPtr := CharPtr.null
  deriving DecidableEq, Repr

/-- The fields of `Luau::CompileOptions` that the driver sets. -/
structure CompileOptions where
  optimizationLevel : Int
  debugLevel : Int
  typeInfoLevel : Int
  vectorLib : CharPtr
  vectorCtor : CharPtr
  vectorType : CharPtr
  deriving DecidableEq, Repr

/-- The function `copts`: the compiler options read from `globalOptions`. -/
def copts (globalOptions : GlobalOptions) : CompileOptions :=
  { optimizationLevel := globalOptions.optimizationLevel
    debugLevel := globalOptions.debugLevel
    typeInfoLevel := globalOptions.typeInfoLevel
    vectorLib := globalOptions.vectorLib
    vectorCtor := globalOptions.vectorCtor
    vectorType := globalOptions.vectorType }

/-- The function `getCompileFormat`, branch for branch (the second test of
`"text"` included). -/
def getCompileFormat (name : CStr) : Option CompileFormat :=
  if strcmp name "text".toList = 0 then some CompileFormat.Text
  else if strcmp name "binary".toList = 0 then some CompileFormat.Binary
  else if strcmp name "text".toList = 0 then some CompileFormat.Text
  else if strcmp name "remarks".toList = 0 then some CompileFormat.Remarks
  else if strcmp name "codegen".toList = 0 then some CompileFormat.Codegen
  else if strcmp name "codegenasm".toList = 0 then some CompileFormat.CodegenAsm
  else if strcmp name "codegenir".toList = 0 then some CompileFormat.CodegenIr
  else if strcmp name "codegenverbose".toList = 0 then some CompileFormat.CodegenVerbose
  else if strcmp name "codegennull".toList = 0 then some CompileFormat.CodegenNull
  else if strcmp name "null".toList = 0 then some CompileFormat.Null
  else none

/-! ## The type `double` -/

/-- An IEEE 754 binary64 value. A finite value is `(-1)^neg * mant * 2^exp`,
kept in the form with `mant < 2^53`, `-1074 ≤ exp ≤ 971`, and `2^52 ≤ mant`
unless `exp = -1074` (zero and the subnormal numbers). NaNs are not told
apart. -/
inductive Double where
  | finite (neg : Bool) (mant : Nat) (exp : Int)
  | inf (neg : Bool)
  | nan
  deriving DecidableEq, Repr

/-- The number of binary digits of `m`, by halving, at most `fuel` times. -/
def bitLengthAux : Nat → Nat → Nat
  | 0, _ => 0
  | fuel + 1, m => if m = 0 then 0 else bitLengthAux fuel (m / 2) + 1

/-- The number of binary digits of `m`. -/
def bitLength (m : Nat) : Nat := bitLengthAux m m

/-- The `double` nearest to `(-1)^neg * m * 2^e`, ties to the even mantissa
(the default rounding mode); a magnitude beyond the largest finite value
rounds to infinity. -/
def Double.round (neg : Bool) (m : Nat) (e : Int) : Double :=
  if m = 0 then Double.finite neg 0 (-1074)
  else
    let e1 := max (e + (bitLength m : Nat) - 53) (-1074)
    let q :=
      if e1 ≤ e then m * 2 ^ (e - e1).toNat
      else
        let shift := (e1 - e).toNat
        let q0 := m / 2 ^ shift
        let r := m % 2 ^ shift
        let half := 2 ^ (shift - 1)
        if r > half ∨ (r = half ∧ q0 % 2 = 1) then q0 + 1 else q0
    let e2 := if q = 2 ^ 53 then e1 + 1 else e1
    let q2 := if q = 2 ^ 53 then 2 ^ 52 else q
    if e2 > 971 then Double.inf neg else Double.finite neg q2 e2

/-- The sum of two `double`s: the exact sum, rounded. An exact sum of zero is
`+0` unless both operands are negative; infinities of opposite sign give
NaN. -/
def Double.add : Double → Double → Double
  | Double.nan, _ => Double.nan
  | _, Double.nan => Double.nan
  | Double.inf s, Double.inf t => if s = t then Double.inf s else Double.nan
  | Double.inf s, Double.finite _ _ _ => Double.inf s
  | Double.finite _ _ _, Double.inf t => Double.inf t
  | Double.finite s1 m1 e1, Double.finite s2 m2 e2 =>
    let e := min e1 e2
    let v1 : Int :=
      if s1 then -((m1 * 2 ^ (e1 - e).toNat : Nat) : Int) else (m1 * 2 ^ (e1 - e).toNat : Nat)
    let v2 : Int :=
      if s2 then -((m2 * 2 ^ (e2 - e).toNat : Nat) : Int) else (m2 * 2 ^ (e2 - e).toNat : Nat)
    if v1 + v2 = 0 then Double.finite (s1 && s2) 0 (-1074)
    else Double.round (decide (v1 + v2 < 0)) (v1 + v2).natAbs e

/-- The `double` `0.0`. -/
def Double.zero : Double := Double.finite false 0 (-1074)

/-- The width of `size_t`: 32 bits on the WebAssembly target of this driver. -/
def sizeBits : Nat := 32

/-- Addition of two `size_t` values. -/
def sizeAdd (a b : Nat) : Nat := (a + b) % 2 ^ sizeBits

/-- The `struct CompileStats`; `CompileStats stats = {}` is `{}` here. -/
structure CompileStats where
  lines : Nat := 0
  bytecode : Nat := 0
  bytecodeInstructionCount : Nat := 0
  codegen : Nat := 0
  readTime : Double := Double.zero
  miscTime : Double := Double.zero
  parseTime : Double := Double.zero
  compileTime : Double := Double.zero
  codegenTime : Double := Double.zero
  deriving DecidableEq, Repr

/-- The operator `CompileStats::operator+=`: the value of `*this` after
`*this += that`. -/
def CompileStats.addAssign (this that : CompileStats) : CompileStats :=
  { lines := sizeAdd this.lines that.lines
    bytecode := sizeAdd this.bytecode that.bytecode
    bytecodeInstructionCount :=
      sizeAdd this.bytecodeInstructionCount that.bytecodeInstructionCount
    codegen := sizeAdd this.codegen that.codegen
    readTime := Double.add this.readTime that.readTime
    miscTime := Double.add this.miscTime that.miscTime
    parseTime := Double.add this.parseTime that.parseTime
    compileTime := Double.add this.compileTime that.compileTime
    codegenTime := Double.add this.codegenTime that.codegenTime }

/-- The operator `CompileStats::operator+`: a copy of `*this`, `+=` on the
copy, the copy returned. -/
def CompileStats.add (this other : CompileStats) : CompileStats :=
  let result := this
  result.addAssign other

/-! ## The external collaborators

`Luau/Parser.h`, `Luau/Compiler.h` and `Luau/BytecodeBuilder.h` are not part of
this file; what the driver uses of them is taken as a parameter. -/

/-- A `Luau::Position`: 0-based line and column, both `unsigned int`. -/
structure Position where
  line : Nat
  column : Nat
  deriving DecidableEq, Repr

/-- A `Luau::Location`; the driver reads only its `begin`. -/
structure Location where
  begin : Position
  deriving DecidableEq, Repr

/-- A `Luau::ParseError`: `getLocation()` and `what()`. -/
structure ParseError where
  location : Location
  message : CStr
  deriving DecidableEq, Repr

/-- A `Luau::CompileError`: `getLocation()` and `what()`. -/
structure CompileError where
  location : Location
  message : CStr
  deriving DecidableEq, Repr

/-- A `Luau::ParseResult` over a syntax tree of type `Ast`. -/
structure ParseResult (Ast : Type) where
  root : Ast
  lines : Nat
  errors : List ParseError

/-- The bits of `Luau::BytecodeBuilder::DumpFlags` that the driver names. -/
inductive DumpFlags where
  | Dump_Code
  | Dump_Source
  | Dump_Locals
  | Dump_Remarks
  | Dump_Types
  deriving DecidableEq, Repr

/-- The parser, the compiler and the bytecode builder, as the driver calls
them. `Bcb` is the state of a `Luau::BytecodeBuilder`; `compileOrThrow`
returns the filled builder or the `CompileError` it throws. -/
structure Luau (Ast Bcb : Type) where
  parse : CStr → ParseResult Ast
  newBuilder : Bcb
  setDumpFlags : Bcb → List DumpFlags → Bcb
  setDumpSource : Bcb → CStr → Bcb
  compileOrThrow : Bcb → ParseResult Ast → CompileOptions → Except CompileError Bcb
  getBytecode : Bcb → List Char
  getTotalInstructionCount : Bcb → Nat
  dumpEverything : Bcb → List Char
  dumpSourceRemarks : Bcb → List Char

/-- One call of `compileWebMain` into the parser or the compiler. -/
inductive Call where
  | parse (sourceCode : CStr)
  | compileOrThrow (options : CompileOptions)
  deriving DecidableEq, Repr

/-! ## Formatted output -/

/-- The decimal digit `d` as a character. -/
def digitChar (d : Nat) : Char := Char.ofNat ('0'.toNat + d)

/-- The decimal digits of `n` in front of `acc`, most significant first. -/
def formatNatAux : Nat → Nat → List Char → List Char
  | 0, _, acc => acc
  | fuel + 1, n, acc =>
    if n < 10 then digitChar n :: acc
    else formatNatAux fuel (n / 10) (digitChar (n % 10) :: acc)

/-- The decimal numeral of a natural number. -/
def formatNat (n : Nat) : List Char := formatNatAux (n + 1) n []

/-- What `printf` writes for `%d`: the decimal numeral of an `int`. -/
def formatInt (x : Int) : List Char :=
  if x < 0 then '-' :: formatNat x.natAbs else formatNat x.natAbs

/-- The argument `position + 1` of a `%d`: the sum is `unsigned int`
arithmetic and `%d` reads it as an `int`. -/
def oneBased (position : Nat) : Int := wrapInt (((position + 1) % 4294967296 : Nat) : Int)

/-- The content that `snprintf(buf, size, ...)` leaves in `buf` when the
formatted text is `text`: at most `size - 1` characters. -/
def snprintf (size : Nat) (text : List Char) : List Char := text.take (size - 1)

/-- The `snprintf` call in the `catch (Luau::ParseErrors&)` block. -/
def syntaxErrorLine (error : ParseError) : List Char :=
  snprintf 256
    ("SyntaxError at line ".toList ++ formatInt (oneBased error.location.begin.line) ++
      ", column ".toList ++ formatInt (oneBased error.location.begin.column) ++
      ": ".toList ++ error.message ++ "\n".toList)

/-- The `snprintf` call in the `catch (Luau::CompileError&)` block. -/
def compileErrorLine (e : CompileError) : List Char :=
  snprintf 256
    ("CompileError at line ".toList ++ formatInt (oneBased e.location.begin.line) ++
      ", column ".toList ++ formatInt (oneBased e.location.begin.column) ++
      ": ".toList ++ e.message ++ "\n".toList)

/-- The function `report`: the text that its `fprintf` writes to `stderr`. -/
def report (name : CStr) (location : Location) (type : CStr) (message : CStr) : List Char :=
  name ++ "(".toList ++ formatInt (oneBased location.begin.line) ++ ",".toList ++
    formatInt (oneBased location.begin.column) ++ "): ".toList ++ type ++ ": ".toList ++
    message ++ "\n".toList

/-- The overload `reportError(const char*, const Luau::ParseError&)`. -/
def reportError.ofParseError (name : CStr) (error : ParseError) : List Char :=
  report name error.location "SyntaxError".toList error.message

/-- The overload `reportError(const char*, const Luau::CompileError&)`. -/
def reportError.ofCompileError (name : CStr) (error : CompileError) : List Char :=
  report name error.location "CompileError".toList error.message

/-! ## `compileWebMain` -/

/-- The variables that the option loop of `compileWebMain` reads and writes:
the global `globalOptions` and the locals `compileFormat`, `recordStats`,
`statsFile` and `bytecodeSummary`, the locals with their initial values. -/
structure OptionState where
  globalOptions : GlobalOptions
  compileFormat : CompileFormat := CompileFormat.Text
  recordStats : RecordStats := RecordStats.None
  statsFile : List Char := "stats.json".toList
  bytecodeSummary : Bool := false
  deriving DecidableEq, Repr

/-- The character `s[i]` of a C string; the terminator at `i = strlen(s)`. -/
def charAt (s : CStr) (i : Nat) : Char := s.getD i '\x00'

/-- One iteration of the option loop on `argv[i] = arg`: the chain of tests in
source order. `Except.error` is a `return` with the returned string,
`Except.ok` is the state at the end of the iteration. -/
def optionStep (st : OptionState) (arg : CStr) : Except (List Char) OptionState :=
  if strcmp arg "-h".toList = 0 ∨ strcmp arg "--help".toList = 0 then
    Except.error "Help requested".toList
  else if strncmp arg "-O".toList 2 = 0 then
    let level := atoi (arg.drop 2)
    if level < 0 ∨ level > 2 then
      Except.error "Error: Optimization level must be between 0 and 2 inclusive.".toList
    else
      Except.ok { st with globalOptions := { st.globalOptions with optimizationLevel := level } }
  else if strncmp arg "-g".toList 2 = 0 then
    let level := atoi (arg.drop 2)
    if level < 0 ∨ level > 2 then
      Except.error "Error: Debug level must be between 0 and 2 inclusive.".toList
    else
      Except.ok { st with globalOptions := { st.globalOptions with debugLevel := level } }
  else if strncmp arg "-t".toList 2 = 0 then
    let level := atoi (arg.drop 2)
    if level < 0 ∨ level > 1 then
      Except.error "Error: Type info level must be between 0 and 1 inclusive.".toList
    else
      Except.ok { st with globalOptions := { st.globalOptions with typeInfoLevel := level } }
  else if strncmp arg "--target=".toList 9 = 0 then
    Except.ok st
  else if strcmp arg "--timetrace".toList = 0 then
    Except.ok st
  else if strncmp arg "--record-stats=".toList 15 = 0 then
    let value := arg.drop 15
    if strcmp value "total".toList = 0 then
      Except.ok { st with recordStats := RecordStats.Total }
    else if strcmp value "file".toList = 0 then
      Except.ok { st with recordStats := RecordStats.File }
    else if strcmp value "function".toList = 0 then
      Except.ok { st with recordStats := RecordStats.Function }
    else
      Except.error "Error: unknown 'granularity' for '--record-stats'.".toList
  else if strncmp arg "--bytecode-summary".toList 18 = 0 then
    Except.ok { st with bytecodeSummary := true }
  else if strncmp arg "--stats-file=".toList 13 = 0 then
    let statsFile := arg.drop 13
    if statsFile.length = 0 then
      Except.error "Error: filename missing for '--stats-file'.".toList
    else
      Except.ok { st with statsFile := statsFile }
  else if strncmp arg "--fflags=".toList 9 = 0 then
    Except.ok st
  else if strncmp arg "--vector-lib=".toList 13 = 0 then
    Except.ok { st with globalOptions := { st.globalOptions with vectorLib := CharPtr.to (arg.drop 13) } }
  else if strncmp arg "--vector-ctor=".toList 14 = 0 then
    Except.ok { st with globalOptions := { st.globalOptions with vectorCtor := CharPtr.to (arg.drop 14) } }
  else if strncmp arg "--vector-type=".toList 14 = 0 then
    Except.ok { st with globalOptions := { st.globalOptions with vectorType := CharPtr.to (arg.drop 14) } }
  else
    match (if charAt arg 0 = '-' ∧ charAt arg 1 = '-' then getCompileFormat (arg.drop 2)
           else none) with
    | some format => Except.ok { st with compileFormat := format }
    | none =>
      if charAt arg 0 = '-' then
        Except.error ("Error: Unrecognized option '".toList ++ arg ++ "'.".toList)
      else
        Except.ok st

/-- The option loop `for (int i = 1; i < argc; i++)` over the arguments still
to scan: the state when the loop ends and the string of the `return` that
ended it, if one did. -/
def optionLoop : List CStr → OptionState → OptionState × Option (List Char)
  | [], st => (st, none)
  | arg :: rest, st =>
    match optionStep st arg with
    | Except.error message => (st, some message)
    | Except.ok st1 => optionLoop rest st1

/-- What one call of `compileWebMain` leaves behind: the returned string, the
value of the global `globalOptions` after the call, the local `stats` at the
`return`, and the calls made into the parser and the compiler, in order. -/
structure Outcome where
  output : List Char
  globalOptions : GlobalOptions
  stats : CompileStats := {}
  calls : List Call := []

/-- The dump settings that `compileWebMain` gives the bytecode builder before
parsing, by format. -/
def configureBuilder {Ast Bcb : Type} (luau : Luau Ast Bcb) (compileFormat : CompileFormat)
    (sourceCode : CStr) : Bcb :=
  let bcb := luau.newBuilder
  if compileFormat = CompileFormat.Text then
    luau.setDumpSource
      (luau.setDumpFlags bcb
        [DumpFlags.Dump_Code, DumpFlags.Dump_Source, DumpFlags.Dump_Locals,
          DumpFlags.Dump_Remarks, DumpFlags.Dump_Types])
      sourceCode
  else if compileFormat = CompileFormat.Remarks then
    luau.setDumpSource
      (luau.setDumpFlags bcb [DumpFlags.Dump_Source, DumpFlags.Dump_Remarks]) sourceCode
  else if compileFormat = CompileFormat.Codegen ∨ compileFormat = CompileFormat.CodegenAsm ∨
      compileFormat = CompileFormat.CodegenIr ∨ compileFormat = CompileFormat.CodegenVerbose then
    luau.setDumpSource
      (luau.setDumpFlags bcb
        [DumpFlags.Dump_Code, DumpFlags.Dump_Source, DumpFlags.Dump_Locals,
          DumpFlags.Dump_Remarks])
      sourceCode
  else bcb

/-- The `switch (compileFormat)` that fills `output` after a successful
compilation. -/
def formatOutput {Ast Bcb : Type} (luau : Luau Ast Bcb) (compileFormat : CompileFormat)
    (bcb : Bcb) : List Char :=
  match compileFormat with
  | CompileFormat.Text => luau.dumpEverything bcb
  | CompileFormat.Remarks => luau.dumpSourceRemarks bcb
  | CompileFormat.Binary => luau.getBytecode bcb
  | CompileFormat.Codegen => "Codegen not implemented".toList
  | CompileFormat.CodegenAsm => "Codegen not implemented".toList
  | CompileFormat.CodegenIr => "Codegen not implemented".toList
  | CompileFormat.CodegenVerbose => "Codegen not implemented".toList
  | CompileFormat.CodegenNull => []
  | CompileFormat.Null => []

/-- The part of `compileWebMain` after the option loop, run in the state `st`
in which the loop ended: the check of `bytecodeSummary` against `recordStats`
and the `try` block with its two `catch` clauses. -/
def compileWithOptions {Ast Bcb : Type} (luau : Luau Ast Bcb) (st : OptionState)
    (sourceCode : CStr) : Outcome :=
  if st.bytecodeSummary = true ∧ st.recordStats ≠ RecordStats.Function then
    { output := "'Error: Required '--record-stats=function' for '--bytecode-summary'.".toList
      globalOptions := st.globalOptions }
  else
    let bcb := configureBuilder luau st.compileFormat sourceCode
    let result := luau.parse sourceCode
    if ¬ result.errors.isEmpty then
      { output := result.errors.foldl (fun err error => err ++ syntaxErrorLine error) []
        globalOptions := st.globalOptions
        calls := [Call.parse sourceCode] }
    else
      let stats : CompileStats := { lines := sizeAdd 0 result.lines }
      match luau.compileOrThrow bcb result (copts st.globalOptions) with
      | Except.error e =>
        { output := compileErrorLine e
          globalOptions := st.globalOptions
          stats := stats
          calls := [Call.parse sourceCode, Call.compileOrThrow (copts st.globalOptions)] }
      | Except.ok bcb1 =>
        { output := formatOutput luau st.compileFormat bcb1
          globalOptions := st.globalOptions
          stats :=
            { stats with
              bytecode := sizeAdd stats.bytecode (luau.getBytecode bcb1).length
              bytecodeInstructionCount := luau.getTotalInstructionCount bcb1 }
          calls := [Call.parse sourceCode, Call.compileOrThrow (copts st.globalOptions)] }

/-- The function `compileWebMain(argc, argv, sourceCode)` with
`argc = argv.length`, run with the global `globalOptions` holding the given
value. The option loop starts at `argv[1]`; a `return` inside the loop ends
the call, otherwise the rest of the body runs in the state the loop leaves. -/
def compileWebMain {Ast Bcb : Type} (luau : Luau Ast Bcb) (globalOptions : GlobalOptions)
    (argv : List CStr) (sourceCode : CStr) : Outcome :=
  match optionLoop (argv.drop 1) { globalOptions := globalOptions } with
  | (st, some message) => { output := message, globalOptions := st.globalOptions }
  | (st, none) => compileWithOptions luau st sourceCode

/-! ## `splitArgs` and `exportCompile` -/

/-- The loop `while (start < input.size() && input[start] == ' ') ++start;`:
the value of `start` after it. `none` only when the fuel, one unit per test of
the condition, is used up. -/
def skipSpaces (input : List Char) : Nat → Nat → Option Nat
  | 0, _ => none
  | fuel + 1, start =>
    if start < input.length ∧ charAt input start = ' ' then skipSpaces input fuel (start + 1)
    else some start

/-- The loop `while (end < input.size() && input[end] != ' ') ++end;`: the
value of `end` after it. `none` only when the fuel is used up. -/
def scanToken (input : List Char) : Nat → Nat → Option Nat
  | 0, _ => none
  | fuel + 1, stop =>
    if stop < input.length ∧ charAt input stop ≠ ' ' then scanToken input fuel (stop + 1)
    else some stop

/-- The method `input.substr(pos, count)`. -/
def substr (input : List Char) (pos count : Nat) : List Char := (input.drop pos).take count

/-- The outer loop `while (end < input.size())` of `splitArgs` from the state
`start`, `end` (here `stop`), `args`: the vector at the `return`. `none` only
when the fuel, one unit per test of the loop condition, is used up. -/
def splitLoop (input : List Char) : Nat → Nat → Nat → List CStr → Option (List CStr)
  | 0, _, _, _ => none
  | fuel + 1, start, stop, args =>
    if stop < input.length then
      match skipSpaces input (input.length + 1) start with
      | none => none
      | some start1 =>
        if start1 ≥ input.length then some args
        else
          match scanToken input (input.length + 1) start1 with
          | none => none
          | some stop1 =>
            splitLoop input fuel stop1 stop1 (args ++ [substr input start1 (stop1 - start1)])
    else some args

/-- The function `splitArgs`; `none` would mean that its loops do not come to
an end within `input.length + 1` rounds. -/
def splitArgs (input : List Char) : Option (List CStr) :=
  splitLoop input (input.length + 1) 0 0 []

/-- The C `strdup` of `s.c_str()`: the characters before the first NUL. -/
def strdup (s : List Char) : CStr := s.takeWhile (fun c => c ≠ '\x00')

/-- The pointer in a hook field once the strings of `argv` are destroyed.
`stored` is the field as the option loop leaves it when it starts from the null
pointer: it is non-null exactly when the loop has stored a pointer into `argv`
there, and such a pointer dangles from then on; a field the loop has not
assigned holds what it held. -/
def CharPtr.afterArgs (stored current : CharPtr) : CharPtr :=
  if stored = CharPtr.null then current else CharPtr.dangling

/-- The value of `globalOptions` once the strings of `argv` are destroyed,
from its value when the `compileWebMain` call on `argv` has returned. -/
def GlobalOptions.afterArgs (argv : List CStr) (globalOptions : GlobalOptions) :
    GlobalOptions :=
  let stored := (optionLoop (argv.drop 1) { globalOptions := {} }).1.globalOptions
  { globalOptions with
    vectorLib := CharPtr.afterArgs stored.vectorLib globalOptions.vectorLib
    vectorCtor := CharPtr.afterArgs stored.vectorCtor globalOptions.vectorCtor
    vectorType := CharPtr.afterArgs stored.vectorType globalOptions.vectorType }

/-- The function `exportCompile(input, sourceCode)`: the outcome of the
`compileWebMain` call on the vector of `splitArgs`, with the returned buffer,
the `strdup` copy of the result, as `output`. The strings that `argv` points
to belong to the local `args`, which is destroyed at the `return`: the hooks
that the call has stored in `globalOptions` dangle afterwards. -/
def exportCompile {Ast Bcb : Type} (luau : Luau Ast Bcb) (globalOptions : GlobalOptions)
    (input : CStr) (sourceCode : CStr) : Option Outcome :=
  match splitArgs input with
  | none => none
  | some args =>
    let argv := args
    let result := compileWebMain luau globalOptions argv sourceCode
    some { result with
      output := strdup result.output
      globalOptions := result.globalOptions.afterArgs argv }

/-! ## The result buffer on the C heap

`exportCompile` and `compileWebMain` once more, with the heap made explicit.
The owners of heap storage in these functions are `std::string` and
`std::vector` objects: each is followed from its construction to its
destruction, with every call of `malloc` and `free` the library makes for it.
The objects of the parser, the compiler and the bytecode builder, and the
exception objects, are outside this file: they acquire and release their
storage inside their own constructors and destructors, within the `try` block
of `compileWebMain`, and are not followed. -/

/-- What a block of the C heap holds. -/
inductive Block where
  | cstr (text : CStr)
  | buffer (capacity : Nat)
  | array (capacity : Nat)
  deriving DecidableEq, Repr

/-- The C heap: the blocks obtained from `malloc` and not yet freed, each with
its address, and the number of calls of `malloc` and of `free` (on a pointer
that is not null) so far. Address `0` is the null pointer. `Block.cstr` is a
block made by `strdup`, with the characters it holds; `Block.buffer` is the
character buffer of a `std::string` and `Block.array` the element buffer of a
`std::vector`, each with its capacity. -/
structure Heap where
  blocks : List (Nat × Block) := []
  mallocs : Nat := 0
  frees : Nat := 0
  deriving DecidableEq, Repr

/-- What the language leaves to the C++ library and to the machine:
`ssoCapacity` is the longest string a `std::string` keeps inside the object
itself, without a buffer on the heap; `stringGrowth old needed` is the
capacity the library asks for when a string of capacity `old` has to hold
`needed` characters; `vectorGrowth old` is the capacity it asks for when a
full vector of capacity `old` gets one more element; `grants n` tells whether
the call of `malloc` after `n` earlier calls succeeds. -/
structure Runtime where
  ssoCapacity : Nat
  stringGrowth : Nat → Nat → Nat
  vectorGrowth : Nat → Nat
  grants : Nat → Bool

/-- The largest address in a list of blocks. -/
def Heap.top : List (Nat × Block) → Nat
  | [] => 0
  | b :: bs => max b.1 (Heap.top bs)

/-- The C `malloc`: the address of a new block, one that no live block has
(here the one above all live blocks), or the null pointer when the request is
not granted; and the heap after the call. -/
def Heap.malloc (heap : Heap) (rt : Runtime) (block : Block) : Nat × Heap :=
  if rt.grants heap.mallocs then
    let ptr := Heap.top heap.blocks + 1
    (ptr, { heap with blocks := (ptr, block) :: heap.blocks, mallocs := heap.mallocs + 1 })
  else
    (0, { heap with mallocs := heap.mallocs + 1 })

/-- The C `free`: nothing for the null pointer, otherwise the block at `ptr`
is no longer live. -/
def Heap.free (heap : Heap) (ptr : Nat) : Heap :=
  if ptr = 0 then heap
  else { heap with blocks := heap.blocks.filter (fun b => b.1 ≠ ptr), frees := heap.frees + 1 }

/-- The `operator new` behind the containers of the library: `malloc`, and
`std::bad_alloc` when it yields the null pointer. Nothing in the driver catches
that exception: `none` stands for a call that it ends. -/
def Heap.allocate (heap : Heap) (rt : Runtime) (block : Block) : Option (Nat × Heap) :=
  let r := heap.malloc rt block
  if r.1 = 0 then none else some r

/-- The C `strdup` of `s.c_str()`: a block from `malloc` with the characters
of `s` before the first NUL, or the null pointer. -/
def Heap.strdup (heap : Heap) (rt : Runtime) (s : List Char) : Nat × Heap :=
  heap.malloc rt (Block.cstr (CompileWeb.strdup s))

/-- A `std::string` object: its characters, its capacity, and the address of
its buffer on the heap, `0` while the characters are kept inside the object. -/
structure StdString where
  text : List Char
  capacity : Nat
  buffer : Nat
  deriving DecidableEq, Repr

/-- The empty `std::string` of the default constructor. -/
def StdString.empty (rt : Runtime) : StdString :=
  { text := [], capacity := rt.ssoCapacity, buffer := 0 }

/-- The string after it is given new content (`operator=`, `assign`, and
`append` through `StdString.append`): in place when the capacity suffices,
otherwise in a new buffer, after which the old one is freed. -/
def StdString.assign (s : StdString) (rt : Runtime) (text : List Char) (heap : Heap) :
    Option (StdString × Heap) :=
  if text.length ≤ s.capacity then some ({ s with text := text }, heap)
  else
    let capacity := max text.length (rt.stringGrowth s.capacity text.length)
    match heap.allocate rt (Block.buffer capacity) with
    | none => none
    | some (buffer, heap1) =>
      some ({ text := text, capacity := capacity, buffer := buffer }, heap1.free s.buffer)

/-- The constructor `std::string(text)`. -/
def StdString.make (rt : Runtime) (text : List Char) (heap : Heap) :
    Option (StdString × Heap) :=
  if text.length ≤ rt.ssoCapacity then
    some ({ text := text, capacity := rt.ssoCapacity, buffer := 0 }, heap)
  else
    let capacity := max text.length (rt.stringGrowth 0 text.length)
    match heap.allocate rt (Block.buffer capacity) with
    | none => none
    | some (buffer, heap1) => some ({ text := text, capacity := capacity, buffer := buffer }, heap1)

/-- The operators `+=` and `+` with a string on the left: the characters are
appended to it. -/
def StdString.append (s : StdString) (rt : Runtime) (more : List Char) (heap : Heap) :
    Option (StdString × Heap) :=
  s.assign rt (s.text ++ more) heap

/-- The destructor of `std::string`. -/
def StdString.destroy (s : StdString) (heap : Heap) : Heap := heap.free s.buffer

/-- A `std::vector` object: its elements, its capacity and the address of its
element buffer, `0` while it has none. -/
structure StdVector (α : Type) where
  items : List α := []
  capacity : Nat := 0
  buffer : Nat := 0

/-- The method `push_back`: into the spare room when there is some, otherwise
into a new, larger buffer, to which the elements are moved and after which the
old buffer is freed. -/
def StdVector.push_back {α : Type} (v : StdVector α) (rt : Runtime) (x : α) (heap : Heap) :
    Option (StdVector α × Heap) :=
  if v.items.length < v.capacity then some ({ v with items := v.items ++ [x] }, heap)
  else
    let capacity := max (v.capacity + 1) (rt.vectorGrowth v.capacity)
    match heap.allocate rt (Block.array capacity) with
    | none => none
    | some (buffer, heap1) =>
      some ({ items := v.items ++ [x], capacity := capacity, buffer := buffer },
        heap1.free v.buffer)

/-- The destructors of the strings of a list, first to last. -/
def destroyStrings : List StdString → Heap → Heap
  | [], heap => heap
  | s :: rest, heap => destroyStrings rest (s.destroy heap)

/-- The destructor of `std::vector<std::string>`: the elements are destroyed
and the buffer is freed. -/
def StdVector.destroyStrings (v : StdVector StdString) (heap : Heap) : Heap :=
  (CompileWeb.destroyStrings v.items heap).free v.buffer

/-- The destructor of `std::vector<char*>`: the buffer is freed. -/
def StdVector.destroyPointers (v : StdVector CStr) (heap : Heap) : Heap :=
  heap.free v.buffer

/-- The heap side of `splitArgs`: for every token, in order, the temporary of
`input.substr(start, end - start)` is made and `push_back` moves it into
`args`. -/
def pushTokens (rt : Runtime) :
    List CStr → StdVector StdString → Heap → Option (StdVector StdString × Heap)
  | [], args, heap => some (args, heap)
  | token :: rest, args, heap =>
    match StdString.make rt token heap with
    | none => none
    | some (temp, heap1) =>
      match args.push_back rt temp heap1 with
      | none => none
      | some (args1, heap2) => pushTokens rt rest args1 heap2

/-- The function `splitArgs` with the heap made explicit: the vector it
returns and the heap after the call. The tokens are those of `splitArgs`. -/
def splitArgsOn (rt : Runtime) (input : List Char) (heap : Heap) :
    Option (StdVector StdString × Heap) :=
  match splitArgs input with
  | none => none
  | some tokens => pushTokens rt tokens {} heap

/-- The loop `for (auto& s : args) argv.push_back(const_cast<char*>(s.c_str()))`;
a pointer of `argv` is shown by the string it points to. -/
def pushPointers (rt : Runtime) :
    List StdString → StdVector CStr → Heap → Option (StdVector CStr × Heap)
  | [], argv, heap => some (argv, heap)
  | s :: rest, argv, heap =>
    match argv.push_back rt s.text heap with
    | none => none
    | some (argv1, heap1) => pushPointers rt rest argv1 heap1

/-- The string that a `return` inside the option loop returns, on the heap:
`std::string("Error: Unrecognized option '") + argv[i] + "'."` is built by two
appends to a temporary; every other `return` of the loop constructs the
string from a literal. -/
def returnedMessage (rt : Runtime) (arg message : List Char) (heap : Heap) :
    Option (StdString × Heap) :=
  if message = "Error: Unrecognized option '".toList ++ arg ++ "'.".toList then
    match StdString.make rt "Error: Unrecognized option '".toList heap with
    | none => none
    | some (temp, heap1) =>
      match temp.append rt arg heap1 with
      | none => none
      | some (temp1, heap2) => temp1.append rt "'.".toList heap2
  else StdString.make rt message heap

/-- The option loop with the heap made explicit: besides the state in which
the loop ends, the returned string when a `return` ended it, the local
`statsFile` and the heap. The iterations are those of `optionStep`; the one
statement of the loop that writes to a string is `statsFile = argv[i] + 13`,
which leaves the string as it is in every iteration that does not run it. -/
def optionLoopOn (rt : Runtime) :
    List CStr → OptionState → StdString → Heap →
      Option (OptionState × Option StdString × StdString × Heap)
  | [], st, statsFile, heap => some (st, none, statsFile, heap)
  | arg :: rest, st, statsFile, heap =>
    match optionStep st arg with
    | Except.error message =>
      match returnedMessage rt arg message heap with
      | none => none
      | some (result, heap1) => some (st, some result, statsFile, heap1)
    | Except.ok st1 =>
      match statsFile.assign rt st1.statsFile heap with
      | none => none
      | some (statsFile1, heap1) => optionLoopOn rt rest st1 statsFile1 heap1

/-- The `switch (compileFormat)` with the heap made explicit: `output` after
it. `dumpEverything` and `dumpSourceRemarks` return a string that is moved
into `output`; the bytecode is copied with `assign`; the literal is
assigned. -/
def formatOutputOn {Ast Bcb : Type} (rt : Runtime) (luau : Luau Ast Bcb)
    (compileFormat : CompileFormat) (bcb : Bcb) (output : StdString) (heap : Heap) :
    Option (StdString × Heap) :=
  match compileFormat with
  | CompileFormat.Text =>
    match StdString.make rt (luau.dumpEverything bcb) heap with
    | none => none
    | some (temp, heap1) => some (temp, output.destroy heap1)
  | CompileFormat.Remarks =>
    match StdString.make rt (luau.dumpSourceRemarks bcb) heap with
    | none => none
    | some (temp, heap1) => some (temp, output.destroy heap1)
  | CompileFormat.Binary => output.assign rt (luau.getBytecode bcb) heap
  | CompileFormat.Codegen => output.assign rt "Codegen not implemented".toList heap
  | CompileFormat.CodegenAsm => output.assign rt "Codegen not implemented".toList heap
  | CompileFormat.CodegenIr => output.assign rt "Codegen not implemented".toList heap
  | CompileFormat.CodegenVerbose => output.assign rt "Codegen not implemented".toList heap
  | CompileFormat.CodegenNull => some (output, heap)
  | CompileFormat.Null => some (output, heap)

/-- The loop `for (auto& error : e.getErrors()) err += buf;` on the
heap. -/
def appendLines (rt : Runtime) : List (List Char) → StdString → Heap → Option (StdString × Heap)
  | [], err, heap => some (err, heap)
  | line :: rest, err, heap =>
    match err.append rt line heap with
    | none => none
    | some (err1, heap1) => appendLines rt rest err1 heap1

/-- The part of `compileWebMain` after the option loop with the heap made
explicit: the returned string, the heap when it is returned and the outcome.
The storage of the parser, the compiler and the builder is theirs: their
objects are local to the `try` block and release it when the block is left. -/
def compileWithOptionsOn {Ast Bcb : Type} (rt : Runtime) (luau : Luau Ast Bcb)
    (st : OptionState) (sourceCode : CStr) (heap : Heap) :
    Option (StdString × Heap × Outcome) :=
  if st.bytecodeSummary = true ∧ st.recordStats ≠ RecordStats.Function then
    match StdString.make rt
        "'Error: Required '--record-stats=function' for '--bytecode-summary'.".toList heap with
    | none => none
    | some (result, heap1) => some (result, heap1, compileWithOptions luau st sourceCode)
  else
    let output := StdString.empty rt
    let bcb := configureBuilder luau st.compileFormat sourceCode
    let result := luau.parse sourceCode
    if ¬ result.errors.isEmpty then
      match appendLines rt (result.errors.map syntaxErrorLine) (StdString.empty rt) heap with
      | none => none
      | some (err, heap1) =>
        some (err, output.destroy heap1, compileWithOptions luau st sourceCode)
    else
      match luau.compileOrThrow bcb result (copts st.globalOptions) with
      | Except.error e =>
        match StdString.make rt (compileErrorLine e) heap with
        | none => none
        | some (message, heap1) =>
          some (message, output.destroy heap1, compileWithOptions luau st sourceCode)
      | Except.ok bcb1 =>
        match formatOutputOn rt luau st.compileFormat bcb1 output heap with
        | none => none
        | some (output1, heap1) => some (output1, heap1, compileWithOptions luau st sourceCode)

/-- The function `compileWebMain` with the heap made explicit: the returned
string, the heap when it is returned and the outcome. The local `statsFile`
is constructed first and destroyed at every `return`. -/
def compileWebMainOn {Ast Bcb : Type} (rt : Runtime) (luau : Luau Ast Bcb)
    (globalOptions : GlobalOptions) (argv : List CStr) (sourceCode : CStr) (heap : Heap) :
    Option (StdString × Heap × Outcome) :=
  match StdString.make rt "stats.json".toList heap with
  | none => none
  | some (statsFile, heap1) =>
    match optionLoopOn rt (argv.drop 1) { globalOptions := globalOptions } statsFile heap1 with
    | none => none
    | some (st, some result, statsFile1, heap2) =>
      some (result, statsFile1.destroy heap2,
        { output := result.text, globalOptions := st.globalOptions })
    | some (st, none, statsFile1, heap2) =>
      match compileWithOptionsOn rt luau st sourceCode heap2 with
      | none => none
      | some (result, heap3, outcome) => some (result, statsFile1.destroy heap3, outcome)

/-- The function `exportCompile` with the heap made explicit: the returned
pointer, the heap after the call and the outcome. The argument of `splitArgs`
is a temporary `std::string` made from `input`; `args`, `argv` and `result`
are local objects, destroyed at the `return` in the reverse order of their
construction, after `strdup` has copied the result. -/
def exportCompileOn {Ast Bcb : Type} (rt : Runtime) (luau : Luau Ast Bcb)
    (globalOptions : GlobalOptions) (heap : Heap) (input : CStr) (sourceCode : CStr) :
    Option (Nat × Heap × Outcome) :=
  match StdString.make rt input heap with
  | none => none
  | some (temp, heap1) =>
    match splitArgsOn rt temp.text heap1 with
    | none => none
    | some (args, heap2) =>
      let heap3 := temp.destroy heap2
      match pushPointers rt args.items {} heap3 with
      | none => none
      | some (argv, heap4) =>
        match compileWebMainOn rt luau globalOptions argv.items sourceCode heap4 with
        | none => none
        | some (result, heap5, outcome) =>
          let cstr := heap5.strdup rt result.text
          let heap6 := result.destroy cstr.2
          let heap7 := argv.destroyPointers heap6
          let heap8 := args.destroyStrings heap7
          some (cstr.1, heap8,
            { outcome with
              output := strdup outcome.output
              globalOptions := outcome.globalOptions.afterArgs argv.items })

/-- The function `freeCompileResult`. -/
def freeCompileResult (heap : Heap) (ptr : Nat) : Heap := heap.free ptr

/-! ## Reference definitions used in the statements -/

/-- The tokens joined with single spaces. -/
def joinArgs : List CStr → CStr
  | [] => []
  | [t] => t
  | t :: u :: ts => t ++ ' ' :: joinArgs (u :: ts)

/-- The value of the last `--record-stats=` token of a token list, if the list
has such a token. -/
def effectiveGranularity : List CStr → Option CStr
  | [] => none
  | t :: ts =>
    match effectiveGranularity ts with
    | some value => some value
    | none => if "--record-stats=".toList <+: t then some (t.drop 15) else none

/-- The tokens that one of the tests of the option chain accepts for
processing: exactly `-h`, `--help` or `--timetrace`; a token that begins with
`-O`, `-g`, `-t`, `--target=`, `--record-stats=`, `--bytecode-summary`,
`--stats-file=`, `--fflags=`, `--vector-lib=`, `--vector-ctor=` or
`--vector-type=`; or `--` followed by a format name. -/
def matchesOptionTest (t : CStr) : Prop :=
  t = "-h".toList ∨ t = "--help".toList ∨ t = "--timetrace".toList ∨
    "-O".toList <+: t ∨ "-g".toList <+: t ∨ "-t".toList <+: t ∨
    "--target=".toList <+: t ∨ "--record-stats=".toList <+: t ∨
    "--bytecode-summary".toList <+: t ∨ "--stats-file=".toList <+: t ∨
    "--fflags=".toList <+: t ∨ "--vector-lib=".toList <+: t ∨
    "--vector-ctor=".toList <+: t ∨ "--vector-type=".toList <+: t ∨
    ("--".toList <+: t ∧ (getCompileFormat (t.drop 2)).isSome = true)

instance (t : CStr) : Decidable (matchesOptionTest t) := by
  unfold matchesOptionTest
  infer_instance

/-- The tokens whose branch of the option chain assigns a field of
`globalOptions`: those that begin with `-O`, `-g`, `-t`, `--vector-lib=`,
`--vector-ctor=` or `--vector-type=`. -/
def setsGlobalOption (t : CStr) : Prop :=
  "-O".toList <+: t ∨ "-g".toList <+: t ∨ "-t".toList <+: t ∨
    "--vector-lib=".toList <+: t ∨ "--vector-ctor=".toList <+: t ∨
    "--vector-type=".toList <+: t

instance (t : CStr) : Decidable (setsGlobalOption t) := by
  unfold setsGlobalOption
  infer_instance

/-- Two values of `globalOptions` agree on every field that no token of the
list assigns: a field may differ only when some token begins with the flag of
that field. -/
def agreeWhereUnset (toks : List CStr) (g1 g2 : GlobalOptions) : Prop :=
  ((∀ u ∈ toks, ¬ "-O".toList <+: u) → g1.optimizationLevel = g2.optimizationLevel) ∧
    ((∀ u ∈ toks, ¬ "-g".toList <+: u) → g1.debugLevel = g2.debugLevel) ∧
    ((∀ u ∈ toks, ¬ "-t".toList <+: u) → g1.typeInfoLevel = g2.typeInfoLevel) ∧
    ((∀ u ∈ toks, ¬ "--vector-lib=".toList <+: u) → g1.vectorLib = g2.vectorLib) ∧
    ((∀ u ∈ toks, ¬ "--vector-ctor=".toList <+: u) → g1.vectorCtor = g2.vectorCtor) ∧
    ((∀ u ∈ toks, ¬ "--vector-type=".toList <+: u) → g1.vectorType = g2.vectorType)

instance (toks : List CStr) (g1 g2 : GlobalOptions) : Decidable (agreeWhereUnset toks g1 g2) := by
  unfold agreeWhereUnset
  infer_instance

/-- The hooks of `globalOptions` that no token of the list assigns are good
pointers: each is null or points to a string that is still alive. -/
def hooksAlive (toks : List CStr) (g : GlobalOptions) : Prop :=
  ((∀ u ∈ toks, ¬ "--vector-lib=".toList <+: u) → g.vectorLib ≠ CharPtr.dangling) ∧
    ((∀ u ∈ toks, ¬ "--vector-ctor=".toList <+: u) → g.vectorCtor ≠ CharPtr.dangling) ∧
    ((∀ u ∈ toks, ¬ "--vector-type=".toList <+: u) → g.vectorType ≠ CharPtr.dangling)

instance (toks : List CStr) (g : GlobalOptions) : Decidable (hooksAlive toks g) := by
  unfold hooksAlive
  infer_instance

/-- A parser, compiler and builder that accept every source and produce empty
bytecode: a concrete instance on which the driver can be run. -/
def trivialLuau : Luau Unit Unit where
  parse := fun _ => { root := (), lines := 1, errors := [] }
  newBuilder := ()
  setDumpFlags := fun _ _ => ()
  setDumpSource := fun _ _ => ()
  compileOrThrow := fun _ _ _ => Except.ok ()
  getBytecode := fun _ => []
  getTotalInstructionCount := fun _ => 0
  dumpEverything := fun _ => []
  dumpSourceRemarks := fun _ => []

/-- A compiler that records the optimization level it is given, with a dump
that prints it: an instance on which the output shows the compiler options. -/
def levelEchoLuau : Luau Unit Int where
  parse := fun _ => { root := (), lines := 1, errors := [] }
  newBuilder := 0
  setDumpFlags := fun bcb _ => bcb
  setDumpSource := fun bcb _ => bcb
  compileOrThrow := fun _ _ options => Except.ok options.optimizationLevel
  getBytecode := fun _ => []
  getTotalInstructionCount := fun _ => 0
  dumpEverything := fun bcb => formatInt bcb
  dumpSourceRemarks := fun _ => []

/-- The instance `trivialLuau` with a parser that returns the given syntax
errors. -/
def syntaxErrorLuau (errors : List ParseError) : Luau Unit Unit :=
  { trivialLuau with parse := fun _ => { root := (), lines := 1, errors := errors } }

/-- The instance `trivialLuau` with a compiler that throws the given error. -/
def compileErrorLuau (e : CompileError) : Luau Unit Unit :=
  { trivialLuau with compileOrThrow := fun _ _ _ => Except.error e }

/-- The instance `trivialLuau` with a compiler that produces the given
bytecode. -/
def bytecodeLuau (bytecode : List Char) : Luau Unit Unit :=
  { trivialLuau with getBytecode := fun _ => bytecode }

/-- The tokens `toks` are, in order, the maximal runs of non-space characters
of `input`: `input` is a run of spaces, the first token, and a rest that is
empty or begins with a space and holds the other tokens in the same way. -/
def IsRunsOf : List Char → List CStr → Prop
  | input, [] => ∀ c ∈ input, c = ' '
  | input, t :: ts =>
    ∃ sp rest, input = sp ++ t ++ rest ∧ (∀ c ∈ sp, c = ' ') ∧ t ≠ [] ∧ ' ' ∉ t ∧
      (∀ c ∈ rest.head?, c = ' ') ∧ IsRunsOf rest ts

/-- The text of the format `"SyntaxError at line %d, column %d: %s\n"` for a
syntax error, before `snprintf` cuts it to the buffer. -/
def syntaxErrorText (error : ParseError) : List Char :=
  "SyntaxError at line ".toList ++ formatInt (oneBased error.location.begin.line) ++
    ", column ".toList ++ formatInt (oneBased error.location.begin.column) ++
    ": ".toList ++ error.message ++ "\n".toList

/-- The text of the format `"CompileError at line %d, column %d: %s\n"` for a
compile error, before `snprintf` cuts it to the buffer. -/
def compileErrorText (e : CompileError) : List Char :=
  "CompileError at line ".toList ++ formatInt (oneBased e.location.begin.line) ++
    ", column ".toList ++ formatInt (oneBased e.location.begin.column) ++
    ": ".toList ++ e.message ++ "\n".toList

/-- The words "begins with optional white space, an optional sign and a decimal
digit", read literally: the string is a run of white-space characters, then
nothing or one sign, then a digit, then anything. -/
def BeginsWithNumber (r : CStr) : Prop :=
  ∃ (ws sign : List Char) (d : Char) (rest : List Char),
    r = ws ++ sign ++ d :: rest ∧ (∀ c ∈ ws, isspace c = true) ∧
      (sign = [] ∨ sign = ['-'] ∨ sign = ['+']) ∧ isdigit d = true

/-- A test for `BeginsWithNumber`: skip the white space and look at the next
one or two characters. -/
def numberStart (r : CStr) : Bool :=
  match r.dropWhile isspace with
  | [] => false
  | [c] => isdigit c
  | c :: d :: _ => isdigit c || ((c = '-' || c = '+') && isdigit d)

/-- The block that a string owns on the heap, if it owns one. -/
def StdString.owned (s : StdString) : List (Nat × Block) :=
  if s.buffer = 0 then [] else [(s.buffer, Block.buffer s.capacity)]

/-- The blocks that the strings of a list own. -/
def ownedByStrings : List StdString → List (Nat × Block)
  | [] => []
  | s :: rest => s.owned ++ ownedByStrings rest

/-- The element buffer that a vector owns on the heap, if it owns one. -/
def StdVector.ownedBuffer {α : Type} (v : StdVector α) : List (Nat × Block) :=
  if v.buffer = 0 then [] else [(v.buffer, Block.array v.capacity)]

/-- The heap consists of the blocks `base` and, in front of them, of the
blocks `owned` in some order, where the blocks of `owned` have addresses of
their own, all of them above those of `base`. -/
def Heap.Framed (base : List (Nat × Block)) (heap : Heap) (owned : List (Nat × Block)) : Prop :=
  ∃ fresh : List (Nat × Block), heap.blocks = fresh ++ base ∧ fresh.Perm owned ∧
    (fresh.map Prod.fst).Nodup ∧ ∀ b ∈ fresh, Heap.top base < b.1

/-- The library parameters of a common implementation on a machine that
grants every request: strings of up to 15 characters are kept in the object, a
string that outgrows its capacity at least doubles it, and a full vector
doubles its capacity. -/
def roomyRuntime : Runtime where
  ssoCapacity := 15
  stringGrowth := fun old needed => if needed < 2 * old then 2 * old else needed
  vectorGrowth := fun old => 2 * old
  grants := fun _ => true

/-! ## Properties -/

theorem strcmp_eq_zero_iff (a b : CStr) : strcmp a b = 0 ↔ a = b := by
  induction a generalizing b with
  | nil => cases b <;> simp [strcmp]
  | cons x xs ih =>
    cases b with
    | nil => simp [strcmp]
    | cons y ys =>
      by_cases hxy : x = y
      · simp [strcmp, hxy, ih]
      · by_cases hlt : x.toNat < y.toNat <;> simp [strcmp, hxy, hlt]

/-- C1: `getCompileFormat` returns each of the nine formats exactly on its own
name, compared case-sensitively and in full, and returns no value on every
other string. -/
theorem getCompileFormat_exact (s : CStr) :
    (getCompileFormat s = some CompileFormat.Text ↔ s = "text".toList) ∧
    (getCompileFormat s = some CompileFormat.Binary ↔ s = "binary".toList) ∧
    (getCompileFormat s = some CompileFormat.Remarks ↔ s = "remarks".toList) ∧
    (getCompileFormat s = some CompileFormat.Codegen ↔ s = "codegen".toList) ∧
    (getCompileFormat s = some CompileFormat.CodegenAsm ↔ s = "codegenasm".toList) ∧
    (getCompileFormat s = some CompileFormat.CodegenIr ↔ s = "codegenir".toList) ∧
    (getCompileFormat s = some CompileFormat.CodegenVerbose ↔ s = "codegenverbose".toList) ∧
    (getCompileFormat s = some CompileFormat.CodegenNull ↔ s = "codegennull".toList) ∧
    (getCompileFormat s = some CompileFormat.Null ↔ s = "null".toList) ∧
    (getCompileFormat s = none ↔
      s ∉ ["text".toList, "binary".toList, "remarks".toList, "codegen".toList,
        "codegenasm".toList, "codegenir".toList, "codegenverbose".toList,
        "codegennull".toList, "null".toList]) := by
  simp only [getCompileFormat, strcmp_eq_zero_iff]
  split_ifs with h1 h2 h3 h4 h5 h6 h7 h8 h9 <;>
    first
    | (subst_vars; decide)
    | simp_all

theorem strncmp_eq_zero_iff (a p : CStr) (n : Nat) (h : p.length = n) :
    strncmp a p n = 0 ↔ p <+: a := by
  induction p generalizing a n with
  | nil => subst h; simp [strncmp]
  | cons y ps ih =>
    cases n with
    | zero => simp at h
    | succ m =>
      have hm : ps.length = m := by simpa using h
      cases a with
      | nil => simp [strncmp]
      | cons x xs =>
        by_cases hxy : x = y
        · subst hxy
          simp [strncmp, ih xs m hm, List.cons_prefix_cons]
        · have hyx : ¬ y = x := fun e => hxy e.symm
          by_cases hlt : x.toNat < y.toNat <;>
            simp [strncmp, hxy, hyx, hlt, List.cons_prefix_cons]

theorem wrapInt_of_int (n : Int) (hlo : -2147483648 ≤ n) (hhi : n ≤ 2147483647) :
    wrapInt n = n := by
  unfold wrapInt
  omega

theorem digitChar_spec (d : Nat) (h : d < 10) :
    isdigit (digitChar d) = true ∧ (digitChar d).toNat - '0'.toNat = d := by
  interval_cases d <;> decide

theorem atoiDigits_formatNatAux (fuel : Nat) :
    ∀ (n : Nat) (acc : List Char), n < fuel →
      atoiDigits (formatNatAux fuel n acc) 0 = atoiDigits acc (n : Int) := by
  induction fuel with
  | zero => intro n acc h; omega
  | succ f ih =>
    intro n acc h
    unfold formatNatAux
    by_cases h10 : n < 10
    · obtain ⟨hd, hv⟩ := digitChar_spec n h10
      simp only [h10, if_true, atoiDigits, hd, hv]
      congr 1
      omega
    · have hlt : n / 10 < f := by omega
      obtain ⟨hd, hv⟩ := digitChar_spec (n % 10) (Nat.mod_lt _ (by decide))
      rw [if_neg h10, ih (n / 10) _ hlt]
      simp only [atoiDigits, hd, if_true, hv]
      congr 1
      omega

theorem formatNatAux_head (fuel : Nat) :
    ∀ (n : Nat) (acc : List Char), n < fuel →
      ∃ c r, formatNatAux fuel n acc = c :: r ∧ isdigit c = true := by
  induction fuel with
  | zero => intro n acc h; omega
  | succ f ih =>
    intro n acc h
    unfold formatNatAux
    by_cases h10 : n < 10
    · exact ⟨digitChar n, acc, by simp [h10], (digitChar_spec n h10).1⟩
    · rw [if_neg h10]
      exact ih (n / 10) _ (by omega)

theorem isdigit_not_special (c : Char) (h : isdigit c = true) :
    isspace c = false ∧ c ≠ '-' ∧ c ≠ '+' := by
  refine ⟨?_, ?_, ?_⟩
  · simp only [isdigit, Bool.and_eq_true, decide_eq_true_eq] at h
    have h1 : c ≠ ' ' := by rintro rfl; revert h; decide
    have h2 : c ≠ '\t' := by rintro rfl; revert h; decide
    have h3 : c ≠ '\n' := by rintro rfl; revert h; decide
    have h4 : c ≠ '\x0b' := by rintro rfl; revert h; decide
    have h5 : c ≠ '\x0c' := by rintro rfl; revert h; decide
    have h6 : c ≠ '\r' := by rintro rfl; revert h; decide
    simp [isspace, h1, h2, h3, h4, h5, h6]
  · rintro rfl; revert h; decide
  · rintro rfl; revert h; decide

theorem atoi_digit_head (c : Char) (r : List Char) (h : isdigit c = true) :
    atoi (c :: r) = wrapInt (atoiDigits (c :: r) 0) := by
  obtain ⟨hs, hm, hp⟩ := isdigit_not_special c h
  unfold atoi
  rw [List.dropWhile_cons_of_neg (by simp [hs])]
  split
  · rename_i heq; simp at heq; exact absurd heq.1 hm
  · rename_i heq; simp at heq; exact absurd heq.1 hp
  · rfl

theorem atoi_formatInt (n : Int) : atoi (formatInt n) = wrapInt n := by
  unfold formatInt
  by_cases hneg : n < 0
  · rw [if_pos hneg]
    have hv := atoiDigits_formatNatAux (n.natAbs + 1) n.natAbs [] (by omega)
    unfold atoi
    rw [List.dropWhile_cons_of_neg (by decide)]
    simp only [formatNat, hv, atoiDigits]
    congr 1
    omega
  · rw [if_neg hneg]
    obtain ⟨c, r, hcr, hd⟩ := formatNatAux_head (n.natAbs + 1) n.natAbs [] (by omega)
    have hv := atoiDigits_formatNatAux (n.natAbs + 1) n.natAbs [] (by omega)
    unfold formatNat
    rw [hcr, atoi_digit_head c r hd, ← hcr, hv]
    simp only [atoiDigits]
    congr 1
    omega

theorem optionStep_O (st : OptionState) (r : CStr) :
    optionStep st ("-O".toList ++ r) =
      if atoi r < 0 ∨ atoi r > 2 then
        Except.error "Error: Optimization level must be between 0 and 2 inclusive.".toList
      else
        Except.ok { st with globalOptions := { st.globalOptions with optimizationLevel := atoi r } } := by
  simp [optionStep, strcmp, strncmp]

theorem optionStep_g (st : OptionState) (r : CStr) :
    optionStep st ("-g".toList ++ r) =
      if atoi r < 0 ∨ atoi r > 2 then
        Except.error "Error: Debug level must be between 0 and 2 inclusive.".toList
      else
        Except.ok { st with globalOptions := { st.globalOptions with debugLevel := atoi r } } := by
  simp [optionStep, strcmp, strncmp]

theorem optionLoop_append (p q : List CStr) :
    ∀ (st st1 : OptionState), optionLoop p st = (st1, none) →
      optionLoop (p ++ q) st = optionLoop q st1 := by
  induction p with
  | nil => intro st st1 h; simp [optionLoop] at h; simp [h]
  | cons a p ih =>
    intro st st1 h
    simp only [optionLoop, List.cons_append] at h ⊢
    cases hstep : optionStep st a with
    | error e => simp [hstep] at h
    | ok st2 =>
      simp only [hstep] at h ⊢
      exact ih st2 st1 h

theorem optionLoop_stop (p s : List CStr) (t : CStr) (st st1 : OptionState) (e : List Char)
    (hp : optionLoop p st = (st1, none)) (ht : optionStep st1 t = Except.error e) :
    optionLoop (p ++ t :: s) st = (st1, some e) := by
  rw [optionLoop_append p (t :: s) st st1 hp]
  simp [optionLoop, ht]

theorem compileWebMain_stop {Ast Bcb : Type} (luau : Luau Ast Bcb) (g : GlobalOptions)
    (prog : CStr) (p s : List CStr) (t : CStr) (st1 : OptionState) (e : List Char)
    (sourceCode : CStr)
    (hp : optionLoop p { globalOptions := g } = (st1, none))
    (ht : optionStep st1 t = Except.error e) :
    compileWebMain luau g (prog :: (p ++ t :: s)) sourceCode =
      { output := e, globalOptions := st1.globalOptions } := by
  simp only [compileWebMain, List.drop_succ_cons, List.drop_zero,
    optionLoop_stop p s t _ st1 e hp ht]

theorem compileWithOptions_reads_state {Ast Bcb : Type} (luau : Luau Ast Bcb)
    (st : OptionState) (sourceCode : CStr) :
    (compileWithOptions luau st sourceCode).globalOptions = st.globalOptions ∧
      ∀ o, Call.compileOrThrow o ∈ (compileWithOptions luau st sourceCode).calls →
        o = copts st.globalOptions := by
  unfold compileWithOptions
  by_cases h1 : st.bytecodeSummary = true ∧ st.recordStats ≠ RecordStats.Function
  · rw [if_pos h1]
    simp
  · rw [if_neg h1]
    by_cases h2 : ¬ (luau.parse sourceCode).errors.isEmpty
    · simp only [h2, not_false_eq_true, if_true]
      simp
    · simp only [h2, if_false]
      split <;> simp

theorem compileWithOptions_rejected {Ast Bcb : Type} (luau : Luau Ast Bcb)
    (st : OptionState) (sourceCode : CStr)
    (h : st.bytecodeSummary = true ∧ st.recordStats ≠ RecordStats.Function) :
    compileWithOptions luau st sourceCode =
      { output := "'Error: Required '--record-stats=function' for '--bytecode-summary'.".toList
        globalOptions := st.globalOptions } := by
  unfold compileWithOptions
  rw [if_pos h]

theorem compileWithOptions_parses_first {Ast Bcb : Type} (luau : Luau Ast Bcb)
    (st : OptionState) (sourceCode : CStr)
    (h : ¬ (st.bytecodeSummary = true ∧ st.recordStats ≠ RecordStats.Function)) :
    (compileWithOptions luau st sourceCode).calls.head? = some (Call.parse sourceCode) := by
  unfold compileWithOptions
  rw [if_neg h]
  by_cases h2 : ¬ (luau.parse sourceCode).errors.isEmpty
  · simp only [h2, not_false_eq_true, if_true]
    simp
  · simp only [h2, if_false]
    split <;> simp

theorem compileWebMain_scanned {Ast Bcb : Type} (luau : Luau Ast Bcb) (g : GlobalOptions)
    (prog : CStr) (toks : List CStr) (st : OptionState) (sourceCode : CStr)
    (hscan : optionLoop toks { globalOptions := g } = (st, none)) :
    compileWebMain luau g (prog :: toks) sourceCode = compileWithOptions luau st sourceCode := by
  simp only [compileWebMain, List.drop_succ_cons, List.drop_zero, hscan]

theorem compileWebMain_reads_loop_state {Ast Bcb : Type} (luau : Luau Ast Bcb)
    (g : GlobalOptions) (argv : List CStr) (sourceCode : CStr) :
    (compileWebMain luau g argv sourceCode).globalOptions =
        (optionLoop (argv.drop 1) { globalOptions := g }).1.globalOptions ∧
      ∀ o, Call.compileOrThrow o ∈ (compileWebMain luau g argv sourceCode).calls →
        o = copts (optionLoop (argv.drop 1) { globalOptions := g }).1.globalOptions := by
  unfold compileWebMain
  generalize optionLoop (argv.drop 1) { globalOptions := g } = res
  obtain ⟨st, r⟩ := res
  cases r with
  | some message => simp
  | none => exact compileWithOptions_reads_state luau st sourceCode

/-- C2, as stated, fails: the decimal numeral of `4294967296` lies outside
`[0,2]`, yet `-O4294967296` is accepted, `atoi` yields `0`, and the parser and
the compiler run with optimization level `0`. -/
theorem level_flag_overflow_accepted :
    ¬ ((0 : Int) ≤ 4294967296 ∧ (4294967296 : Int) ≤ 2) ∧
      "-O".toList ++ formatInt 4294967296 = "-O4294967296".toList ∧
      optionStep { globalOptions := {} } ("-O".toList ++ formatInt 4294967296) =
        Except.ok { globalOptions := { optimizationLevel := 0 } } ∧
      (compileWebMain trivialLuau {} ["luau-compile".toList, "-O".toList ++ formatInt 4294967296]
          []).calls =
        [Call.parse [], Call.compileOrThrow (copts { optimizationLevel := 0 })] := by
  refine ⟨by decide, by rfl, by rfl, by rfl⟩

/-- C2 (amended): for every integer `n` that fits a 32-bit `int`, written in
decimal: when `0 ≤ n ≤ 2` the tokens `-O<n>` and `-g<n>` are accepted and set
the optimization (resp. debug) level to `n`, which is the level every later
compiler call of that invocation receives when the token comes last; when `n`
is outside `[0,2]`, `compileWebMain` returns the level error of the flag as
soon as the scan reaches the token, without calling the parser or the
compiler. -/
theorem level_flag_range (n : Int) (hlo : -2147483648 ≤ n) (hhi : n ≤ 2147483647) :
    (0 ≤ n ∧ n ≤ 2 →
      (∀ st : OptionState,
        optionStep st ("-O".toList ++ formatInt n) =
            Except.ok { st with
              globalOptions := { st.globalOptions with optimizationLevel := n } } ∧
          optionStep st ("-g".toList ++ formatInt n) =
            Except.ok { st with globalOptions := { st.globalOptions with debugLevel := n } }) ∧
      (∀ {Ast Bcb : Type} (luau : Luau Ast Bcb) (g : GlobalOptions) (prog : CStr)
          (p : List CStr) (st1 : OptionState) (sourceCode : CStr),
        optionLoop p { globalOptions := g } = (st1, none) →
          (∀ o, Call.compileOrThrow o ∈
              (compileWebMain luau g (prog :: (p ++ ["-O".toList ++ formatInt n]))
                sourceCode).calls → o.optimizationLevel = n) ∧
          (∀ o, Call.compileOrThrow o ∈
              (compileWebMain luau g (prog :: (p ++ ["-g".toList ++ formatInt n]))
                sourceCode).calls → o.debugLevel = n))) ∧
    (¬ (0 ≤ n ∧ n ≤ 2) →
      ∀ {Ast Bcb : Type} (luau : Luau Ast Bcb) (g : GlobalOptions) (prog : CStr)
        (p s : List CStr) (st1 : OptionState) (sourceCode : CStr),
        optionLoop p { globalOptions := g } = (st1, none) →
          compileWebMain luau g (prog :: (p ++ ("-O".toList ++ formatInt n) :: s)) sourceCode =
              { output := "Error: Optimization level must be between 0 and 2 inclusive.".toList
                globalOptions := st1.globalOptions
                stats := {}
                calls := [] } ∧
            compileWebMain luau g (prog :: (p ++ ("-g".toList ++ formatInt n) :: s)) sourceCode =
              { output := "Error: Debug level must be between 0 and 2 inclusive.".toList
                globalOptions := st1.globalOptions
                stats := {}
                calls := [] }) := by
  have hat : atoi (formatInt n) = n := by rw [atoi_formatInt, wrapInt_of_int n hlo hhi]
  constructor
  · intro hin
    have hc : ¬ (n < 0 ∨ n > 2) := by omega
    have hO : ∀ st : OptionState, optionStep st ("-O".toList ++ formatInt n) =
        Except.ok { st with
          globalOptions := { st.globalOptions with optimizationLevel := n } } := by
      intro st; rw [optionStep_O, hat, if_neg hc]
    have hg : ∀ st : OptionState, optionStep st ("-g".toList ++ formatInt n) =
        Except.ok { st with globalOptions := { st.globalOptions with debugLevel := n } } := by
      intro st; rw [optionStep_g, hat, if_neg hc]
    refine ⟨fun st => ⟨hO st, hg st⟩, ?_⟩
    intro Ast Bcb luau g prog p st1 sourceCode hp
    constructor
    · intro o ho
      have h := (compileWebMain_reads_loop_state luau g _ sourceCode).2 o ho
      simp only [List.drop_succ_cons, List.drop_zero, optionLoop_append p _ _ st1 hp,
        optionLoop, hO] at h
      rw [h]; rfl
    · intro o ho
      have h := (compileWebMain_reads_loop_state luau g _ sourceCode).2 o ho
      simp only [List.drop_succ_cons, List.drop_zero, optionLoop_append p _ _ st1 hp,
        optionLoop, hg] at h
      rw [h]; rfl
  · intro hout Ast Bcb luau g prog p s st1 sourceCode hp
    have hc : n < 0 ∨ n > 2 := by omega
    constructor
    · exact compileWebMain_stop luau g prog p s _ st1 _ sourceCode hp
        (by rw [optionStep_O, hat, if_pos hc])
    · exact compileWebMain_stop luau g prog p s _ st1 _ sourceCode hp
        (by rw [optionStep_g, hat, if_pos hc])

theorem level_flag_range_witness :
    optionStep { globalOptions := {} } ("-O".toList ++ formatInt 2) =
        Except.ok { globalOptions := { optimizationLevel := 2 } } ∧
      compileWebMain trivialLuau {}
          ("luau-compile".toList :: ([] ++ ("-g".toList ++ formatInt (-1)) :: [])) [] =
        { output := "Error: Debug level must be between 0 and 2 inclusive.".toList
          globalOptions := {} } :=
  ⟨(((level_flag_range 2 (by decide) (by decide)).1 ⟨by decide, by decide⟩).1
      { globalOptions := {} }).1,
    ((level_flag_range (-1) (by decide) (by decide)).2 (by decide) trivialLuau {}
      "luau-compile".toList [] [] { globalOptions := {} } [] rfl).2⟩

/-- The tests of the option chain, read as statements about the token. -/
theorem optionStep_tests (t : CStr) :
    (strncmp t "-O".toList 2 = 0 ↔ "-O".toList <+: t) ∧
    (strncmp t "-g".toList 2 = 0 ↔ "-g".toList <+: t) ∧
    (strncmp t "-t".toList 2 = 0 ↔ "-t".toList <+: t) ∧
    (strncmp t "--target=".toList 9 = 0 ↔ "--target=".toList <+: t) ∧
    (strncmp t "--record-stats=".toList 15 = 0 ↔ "--record-stats=".toList <+: t) ∧
    (strncmp t "--bytecode-summary".toList 18 = 0 ↔ "--bytecode-summary".toList <+: t) ∧
    (strncmp t "--stats-file=".toList 13 = 0 ↔ "--stats-file=".toList <+: t) ∧
    (strncmp t "--fflags=".toList 9 = 0 ↔ "--fflags=".toList <+: t) ∧
    (strncmp t "--vector-lib=".toList 13 = 0 ↔ "--vector-lib=".toList <+: t) ∧
    (strncmp t "--vector-ctor=".toList 14 = 0 ↔ "--vector-ctor=".toList <+: t) ∧
    (strncmp t "--vector-type=".toList 14 = 0 ↔ "--vector-type=".toList <+: t) :=
  ⟨strncmp_eq_zero_iff t _ 2 rfl, strncmp_eq_zero_iff t _ 2 rfl, strncmp_eq_zero_iff t _ 2 rfl,
    strncmp_eq_zero_iff t _ 9 rfl, strncmp_eq_zero_iff t _ 15 rfl,
    strncmp_eq_zero_iff t _ 18 rfl, strncmp_eq_zero_iff t _ 13 rfl,
    strncmp_eq_zero_iff t _ 9 rfl, strncmp_eq_zero_iff t _ 13 rfl,
    strncmp_eq_zero_iff t _ 14 rfl, strncmp_eq_zero_iff t _ 14 rfl⟩

/-- The effect of one iteration of the option loop is fixed by the token: the
iteration returns the same string in every state, or it leaves every state
unchanged, or it makes the one assignment of the branch whose test the token
passes. -/
theorem optionStep_uniform (t : CStr) :
    (∃ e, ∀ st : OptionState, optionStep st t = Except.error e) ∨
    (¬ setsGlobalOption t ∧ ∀ st : OptionState, optionStep st t = Except.ok st) ∨
    ("-O".toList <+: t ∧ ∀ st : OptionState, optionStep st t = Except.ok { st with
      globalOptions := { st.globalOptions with optimizationLevel := atoi (t.drop 2) } }) ∨
    ("-g".toList <+: t ∧ ∀ st : OptionState, optionStep st t = Except.ok { st with
      globalOptions := { st.globalOptions with debugLevel := atoi (t.drop 2) } }) ∨
    ("-t".toList <+: t ∧ ∀ st : OptionState, optionStep st t = Except.ok { st with
      globalOptions := { st.globalOptions with typeInfoLevel := atoi (t.drop 2) } }) ∨
    ("--record-stats=".toList <+: t ∧ ∃ r,
      (∀ st : OptionState, optionStep st t = Except.ok { st with recordStats := r }) ∧
      (r = RecordStats.Function ↔ t.drop 15 = "function".toList)) ∨
    ("--bytecode-summary".toList <+: t ∧ ¬ "--record-stats=".toList <+: t ∧
      ∀ st : OptionState, optionStep st t = Except.ok { st with bytecodeSummary := true }) ∨
    ("--stats-file=".toList <+: t ∧
      ∀ st : OptionState, optionStep st t = Except.ok { st with statsFile := t.drop 13 }) ∨
    ("--vector-lib=".toList <+: t ∧ ∀ st : OptionState, optionStep st t = Except.ok { st with
      globalOptions := { st.globalOptions with vectorLib := CharPtr.to (t.drop 13) } }) ∨
    ("--vector-ctor=".toList <+: t ∧ ∀ st : OptionState, optionStep st t = Except.ok { st with
      globalOptions := { st.globalOptions with vectorCtor := CharPtr.to (t.drop 14) } }) ∨
    ("--vector-type=".toList <+: t ∧ ∀ st : OptionState, optionStep st t = Except.ok { st with
      globalOptions := { st.globalOptions with vectorType := CharPtr.to (t.drop 14) } }) ∨
    (∃ format, "--".toList <+: t ∧ getCompileFormat (t.drop 2) = some format ∧
      ¬ "--record-stats=".toList <+: t ∧ ¬ "--bytecode-summary".toList <+: t ∧
      ¬ setsGlobalOption t ∧
      ∀ st : OptionState, optionStep st t = Except.ok { st with compileFormat := format }) := by
  obtain ⟨e1, e2, e3, e4, e5, e6, e7, e8, e9, e10, e11⟩ := optionStep_tests t
  unfold optionStep
  simp only [strcmp_eq_zero_iff, e1, e2, e3, e4, e5, e6, e7, e8, e9, e10, e11]
  by_cases c1 : t = "-h".toList ∨ t = "--help".toList
  · exact Or.inl ⟨_, fun st => by rw [if_pos c1]⟩
  simp only [if_neg c1]
  by_cases c2 : "-O".toList <+: t
  · simp only [if_pos c2]
    by_cases c : atoi (t.drop 2) < 0 ∨ atoi (t.drop 2) > 2
    · exact Or.inl ⟨_, fun st => by rw [if_pos c]⟩
    · exact Or.inr (Or.inr (Or.inl ⟨c2, fun st => by rw [if_neg c]⟩))
  simp only [if_neg c2]
  by_cases c3 : "-g".toList <+: t
  · simp only [if_pos c3]
    by_cases c : atoi (t.drop 2) < 0 ∨ atoi (t.drop 2) > 2
    · exact Or.inl ⟨_, fun st => by rw [if_pos c]⟩
    · exact Or.inr (Or.inr (Or.inr (Or.inl ⟨c3, fun st => by rw [if_neg c]⟩)))
  simp only [if_neg c3]
  by_cases c4 : "-t".toList <+: t
  · simp only [if_pos c4]
    by_cases c : atoi (t.drop 2) < 0 ∨ atoi (t.drop 2) > 1
    · exact Or.inl ⟨_, fun st => by rw [if_pos c]⟩
    · exact Or.inr (Or.inr (Or.inr (Or.inr (Or.inl ⟨c4, fun st => by rw [if_neg c]⟩))))
  simp only [if_neg c4]
  by_cases c5 : "--target=".toList <+: t
  · refine Or.inr (Or.inl ⟨?_, fun st => by rw [if_pos c5]⟩)
    obtain ⟨r, rfl⟩ := c5
    simp [setsGlobalOption]
  simp only [if_neg c5]
  by_cases c6 : t = "--timetrace".toList
  · refine Or.inr (Or.inl ⟨?_, fun st => by rw [if_pos c6]⟩)
    subst c6
    decide
  simp only [if_neg c6]
  by_cases c7 : "--record-stats=".toList <+: t
  · simp only [if_pos c7]
    by_cases v1 : t.drop 15 = "total".toList
    · exact Or.inr (Or.inr (Or.inr (Or.inr (Or.inr (Or.inl
        ⟨c7, _, fun st => by rw [if_pos v1], by rw [v1]; decide⟩)))))
    by_cases v2 : t.drop 15 = "file".toList
    · exact Or.inr (Or.inr (Or.inr (Or.inr (Or.inr (Or.inl
        ⟨c7, _, fun st => by rw [if_neg v1, if_pos v2], by rw [v2]; decide⟩)))))
    by_cases v3 : t.drop 15 = "function".toList
    · exact Or.inr (Or.inr (Or.inr (Or.inr (Or.inr (Or.inl
        ⟨c7, _, fun st => by rw [if_neg v1, if_neg v2, if_pos v3], by simp [v3]⟩)))))
    · exact Or.inl ⟨_, fun st => by rw [if_neg v1, if_neg v2, if_neg v3]⟩
  simp only [if_neg c7]
  by_cases c8 : "--bytecode-summary".toList <+: t
  · exact Or.inr (Or.inr (Or.inr (Or.inr (Or.inr (Or.inr (Or.inl
      ⟨c8, c7, fun st => by rw [if_pos c8]⟩))))))
  simp only [if_neg c8]
  by_cases c9 : "--stats-file=".toList <+: t
  · simp only [if_pos c9]
    by_cases c : (t.drop 13).length = 0
    · exact Or.inl ⟨_, fun st => by rw [if_pos c]⟩
    · exact Or.inr (Or.inr (Or.inr (Or.inr (Or.inr (Or.inr (Or.inr (Or.inl
        ⟨c9, fun st => by rw [if_neg c]⟩)))))))
  simp only [if_neg c9]
  by_cases c10 : "--fflags=".toList <+: t
  · refine Or.inr (Or.inl ⟨?_, fun st => by rw [if_pos c10]⟩)
    obtain ⟨r, rfl⟩ := c10
    simp [setsGlobalOption]
  simp only [if_neg c10]
  by_cases c11 : "--vector-lib=".toList <+: t
  · exact Or.inr (Or.inr (Or.inr (Or.inr (Or.inr (Or.inr (Or.inr (Or.inr (Or.inl
      ⟨c11, fun st => by rw [if_pos c11]⟩))))))))
  simp only [if_neg c11]
  by_cases c12 : "--vector-ctor=".toList <+: t
  · exact Or.inr (Or.inr (Or.inr (Or.inr (Or.inr (Or.inr (Or.inr (Or.inr (Or.inr (Or.inl
      ⟨c12, fun st => by rw [if_pos c12]⟩)))))))))
  simp only [if_neg c12]
  by_cases c13 : "--vector-type=".toList <+: t
  · exact Or.inr (Or.inr (Or.inr (Or.inr (Or.inr (Or.inr (Or.inr (Or.inr (Or.inr (Or.inr
      (Or.inl ⟨c13, fun st => by rw [if_pos c13]⟩))))))))))
  simp only [if_neg c13]
  have hsets : ¬ setsGlobalOption t := by
    simp only [setsGlobalOption, not_or]
    exact ⟨c2, c3, c4, c11, c12, c13⟩
  by_cases c14 : charAt t 0 = '-' ∧ charAt t 1 = '-'
  · simp only [if_pos c14]
    cases hf : getCompileFormat (t.drop 2) with
    | some format =>
      refine Or.inr (Or.inr (Or.inr (Or.inr (Or.inr (Or.inr (Or.inr (Or.inr (Or.inr (Or.inr
        (Or.inr ⟨format, ?_, rfl, c7, c8, hsets, fun st => rfl⟩))))))))))
      match t, c14 with
      | a :: b :: r, c14 =>
        simp only [charAt, List.getD_cons_zero, List.getD_cons_succ] at c14
        rw [c14.1, c14.2]
        exact List.prefix_append _ _
      | [a], c14 => simp [charAt] at c14
      | [], c14 => simp [charAt] at c14
    | none =>
      exact Or.inl ⟨"Error: Unrecognized option '".toList ++ t ++ "'.".toList,
        fun st => by simp only [c14.1, if_true]⟩
  · simp only [if_neg c14]
    by_cases c15 : charAt t 0 = '-'
    · exact Or.inl ⟨_, fun st => by rw [if_pos c15]⟩
    · exact Or.inr (Or.inl ⟨hsets, fun st => by rw [if_neg c15]⟩)

/-- Inversion of a successful iteration of the option loop: the state is
unchanged or it is changed by exactly one branch, whose test holds of the
token. -/
theorem optionStep_ok_inv (st st1 : OptionState) (t : CStr)
    (h : optionStep st t = Except.ok st1) :
    st1 = st ∨
    ("-O".toList <+: t ∧ st1 = { st with
      globalOptions := { st.globalOptions with optimizationLevel := atoi (t.drop 2) } }) ∨
    ("-g".toList <+: t ∧ st1 = { st with
      globalOptions := { st.globalOptions with debugLevel := atoi (t.drop 2) } }) ∨
    ("-t".toList <+: t ∧ st1 = { st with
      globalOptions := { st.globalOptions with typeInfoLevel := atoi (t.drop 2) } }) ∨
    ("--record-stats=".toList <+: t ∧ ∃ r, st1 = { st with recordStats := r } ∧
      (r = RecordStats.Function ↔ t.drop 15 = "function".toList)) ∨
    ("--bytecode-summary".toList <+: t ∧ ¬ "--record-stats=".toList <+: t ∧
      st1 = { st with bytecodeSummary := true }) ∨
    ("--stats-file=".toList <+: t ∧ st1 = { st with statsFile := t.drop 13 }) ∨
    ("--vector-lib=".toList <+: t ∧ st1 = { st with
      globalOptions := { st.globalOptions with vectorLib := CharPtr.to (t.drop 13) } }) ∨
    ("--vector-ctor=".toList <+: t ∧ st1 = { st with
      globalOptions := { st.globalOptions with vectorCtor := CharPtr.to (t.drop 14) } }) ∨
    ("--vector-type=".toList <+: t ∧ st1 = { st with
      globalOptions := { st.globalOptions with vectorType := CharPtr.to (t.drop 14) } }) ∨
    (∃ format, "--".toList <+: t ∧ getCompileFormat (t.drop 2) = some format ∧
      ¬ "--record-stats=".toList <+: t ∧ ¬ "--bytecode-summary".toList <+: t ∧
      st1 = { st with compileFormat := format }) := by
  rcases optionStep_uniform t with ⟨e, u⟩ | ⟨_, u⟩ | ⟨c, u⟩ | ⟨c, u⟩ | ⟨c, u⟩ | ⟨c, r, u, hr⟩ |
    ⟨c, c7, u⟩ | ⟨c, u⟩ | ⟨c, u⟩ | ⟨c, u⟩ | ⟨c, u⟩ | ⟨f, c, hf, c7, c8, _, u⟩
  all_goals rw [u st] at h
  · cases h
  all_goals injection h with h
  · exact Or.inl h.symm
  · exact Or.inr (Or.inl ⟨c, h.symm⟩)
  · exact Or.inr (Or.inr (Or.inl ⟨c, h.symm⟩))
  · exact Or.inr (Or.inr (Or.inr (Or.inl ⟨c, h.symm⟩)))
  · exact Or.inr (Or.inr (Or.inr (Or.inr (Or.inl ⟨c, r, h.symm, hr⟩))))
  · exact Or.inr (Or.inr (Or.inr (Or.inr (Or.inr (Or.inl ⟨c, c7, h.symm⟩)))))
  · exact Or.inr (Or.inr (Or.inr (Or.inr (Or.inr (Or.inr (Or.inl ⟨c, h.symm⟩))))))
  · exact Or.inr (Or.inr (Or.inr (Or.inr (Or.inr (Or.inr (Or.inr (Or.inl ⟨c, h.symm⟩)))))))
  · exact Or.inr (Or.inr (Or.inr (Or.inr (Or.inr (Or.inr (Or.inr (Or.inr
      (Or.inl ⟨c, h.symm⟩))))))))
  · exact Or.inr (Or.inr (Or.inr (Or.inr (Or.inr (Or.inr (Or.inr (Or.inr (Or.inr
      (Or.inl ⟨c, h.symm⟩)))))))))
  · exact Or.inr (Or.inr (Or.inr (Or.inr (Or.inr (Or.inr (Or.inr (Or.inr (Or.inr
      (Or.inr ⟨f, c, hf, c7, c8, h.symm⟩)))))))))

theorem optionStep_bytecode_summary (st : OptionState) (r : CStr) :
    optionStep st ("--bytecode-summary".toList ++ r) =
      Except.ok { st with bytecodeSummary := true } := by
  simp [optionStep, strcmp, strncmp]

theorem optionStep_record_stats (st : OptionState) (r : CStr) :
    optionStep st ("--record-stats=".toList ++ r) =
      if r = "total".toList then Except.ok { st with recordStats := RecordStats.Total }
      else if r = "file".toList then Except.ok { st with recordStats := RecordStats.File }
      else if r = "function".toList then
        Except.ok { st with recordStats := RecordStats.Function }
      else Except.error "Error: unknown 'granularity' for '--record-stats'.".toList := by
  simp [optionStep, strcmp, strncmp, strcmp_eq_zero_iff]

theorem optionStep_bytecodeSummary_iff (st st1 : OptionState) (t : CStr)
    (h : optionStep st t = Except.ok st1) :
    st1.bytecodeSummary = true ↔
      st.bytecodeSummary = true ∨ "--bytecode-summary".toList <+: t := by
  by_cases hb : "--bytecode-summary".toList <+: t
  · obtain ⟨r, rfl⟩ := hb
    rw [optionStep_bytecode_summary] at h
    injection h with h
    subst h
    simp
  · rcases optionStep_ok_inv st st1 t h with h | ⟨_, h⟩ | ⟨_, h⟩ | ⟨_, h⟩ | ⟨_, r, h, _⟩ |
      ⟨hc, _⟩ | ⟨_, h⟩ | ⟨_, h⟩ | ⟨_, h⟩ | ⟨_, h⟩ | ⟨f, _, _, _, _, h⟩
    all_goals first
      | exact absurd hc hb
      | (subst h; exact ⟨Or.inl, fun o => o.resolve_right hb⟩)

theorem optionStep_recordStats_iff (st st1 : OptionState) (t : CStr)
    (h : optionStep st t = Except.ok st1) :
    (st1.recordStats = RecordStats.Function ↔
      if "--record-stats=".toList <+: t then t.drop 15 = "function".toList
      else st.recordStats = RecordStats.Function) := by
  by_cases hr : "--record-stats=".toList <+: t
  · rw [if_pos hr]
    obtain ⟨r, rfl⟩ := hr
    rw [optionStep_record_stats] at h
    have hd : List.drop 15 ("--record-stats=".toList ++ r) = r := by
      rw [List.drop_append_of_le_length (by decide)]
      rfl
    rw [hd]
    split_ifs at h with v1 v2 v3
    · injection h with h; subst h; subst v1; simp
    · injection h with h; subst h; subst v2; simp
    · injection h with h; subst h; simp [v3]
  · rw [if_neg hr]
    rcases optionStep_ok_inv st st1 t h with h | ⟨_, h⟩ | ⟨_, h⟩ | ⟨_, h⟩ | ⟨hc, _⟩ |
      ⟨_, _, h⟩ | ⟨_, h⟩ | ⟨_, h⟩ | ⟨_, h⟩ | ⟨_, h⟩ | ⟨f, _, _, _, _, h⟩
    all_goals first
      | exact absurd hc hr
      | (subst h; rfl)

theorem optionLoop_bytecodeSummary (toks : List CStr) :
    ∀ (st0 st : OptionState), optionLoop toks st0 = (st, none) →
      (st.bytecodeSummary = true ↔
        st0.bytecodeSummary = true ∨ ∃ t ∈ toks, "--bytecode-summary".toList <+: t) := by
  induction toks with
  | nil => intro st0 st h; simp [optionLoop] at h; simp [h]
  | cons t ts ih =>
    intro st0 st h
    simp only [optionLoop] at h
    cases hstep : optionStep st0 t with
    | error e => simp [hstep] at h
    | ok st1 =>
      simp only [hstep] at h
      rw [ih st1 st h, optionStep_bytecodeSummary_iff st0 st1 t hstep]
      simp [or_assoc]

theorem optionLoop_recordStats (toks : List CStr) :
    ∀ (st0 st : OptionState), optionLoop toks st0 = (st, none) →
      (st.recordStats = RecordStats.Function ↔
        match effectiveGranularity toks with
        | some value => value = "function".toList
        | none => st0.recordStats = RecordStats.Function) := by
  induction toks with
  | nil => intro st0 st h; simp [optionLoop] at h; simp [h, effectiveGranularity]
  | cons t ts ih =>
    intro st0 st h
    simp only [optionLoop] at h
    cases hstep : optionStep st0 t with
    | error e => simp [hstep] at h
    | ok st1 =>
      simp only [hstep] at h
      have hE : effectiveGranularity (t :: ts) =
          (match effectiveGranularity ts with
            | some value => some value
            | none => if "--record-stats=".toList <+: t then some (t.drop 15) else none) := rfl
      rw [ih st1 st h, hE]
      cases effectiveGranularity ts with
      | some v => exact Iff.rfl
      | none =>
        simp only
        rw [optionStep_recordStats_iff st0 st1 t hstep]
        split_ifs <;> exact Iff.rfl

/-- The check after the option loop, in terms of the tokens that the loop has
processed: a token that passes the `--bytecode-summary` test and the value of
the last `--record-stats=` token. -/
theorem configuration_error_iff {Ast Bcb : Type} (luau : Luau Ast Bcb) (g : GlobalOptions)
    (prog : CStr) (toks : List CStr) (sourceCode : CStr) (st : OptionState)
    (hscan : optionLoop toks { globalOptions := g } = (st, none)) :
    ((compileWebMain luau g (prog :: toks) sourceCode).output =
          "'Error: Required '--record-stats=function' for '--bytecode-summary'.".toList ∧
        (compileWebMain luau g (prog :: toks) sourceCode).calls = []) ↔
      ((∃ t ∈ toks, "--bytecode-summary".toList <+: t) ∧
        effectiveGranularity toks ≠ some "function".toList) := by
  have hb := optionLoop_bytecodeSummary toks _ st hscan
  have hr := optionLoop_recordStats toks _ st hscan
  have hcond : (st.bytecodeSummary = true ∧ st.recordStats ≠ RecordStats.Function) ↔
      ((∃ t ∈ toks, "--bytecode-summary".toList <+: t) ∧
        effectiveGranularity toks ≠ some "function".toList) := by
    rw [hb, Ne, hr]
    cases effectiveGranularity toks with
    | some v => simp
    | none => simp
  rw [← hcond, compileWebMain_scanned luau g prog toks st sourceCode hscan]
  by_cases hc : st.bytecodeSummary = true ∧ st.recordStats ≠ RecordStats.Function
  · rw [compileWithOptions_rejected luau st sourceCode hc]
    exact ⟨fun _ => hc, fun _ => ⟨rfl, rfl⟩⟩
  · refine ⟨fun hout => ?_, fun h => absurd h hc⟩
    have hcall := compileWithOptions_parses_first luau st sourceCode hc
    rw [hout.2] at hcall
    simp at hcall

/-- C3: for every token list that the option loop scans to its end (no token
makes it return: no invalid token and no help flag) and in which the
bytecode-summary flag is written as in the option table (a token that begins
with `--bytecode-summary` is exactly `--bytecode-summary`), `compileWebMain`
returns the configuration error, with no call of the parser or the compiler,
if and only if the list contains `--bytecode-summary` and the value of the last
`--record-stats=` token (none when there is no such token) is not `function`.
So `--bytecode-summary` with `--record-stats=total`, in either order, or with
no stats flag is rejected, and with `--record-stats=function`, in either order,
it is accepted and the source is parsed. -/
theorem bytecode_summary_invariant {Ast Bcb : Type} (luau : Luau Ast Bcb) (g : GlobalOptions)
    (prog : CStr) (toks : List CStr) (sourceCode : CStr) (st : OptionState)
    (hscan : optionLoop toks { globalOptions := g } = (st, none))
    (hexact : ∀ t ∈ toks, "--bytecode-summary".toList <+: t → t = "--bytecode-summary".toList) :
    (((compileWebMain luau g (prog :: toks) sourceCode).output =
            "'Error: Required '--record-stats=function' for '--bytecode-summary'.".toList ∧
          (compileWebMain luau g (prog :: toks) sourceCode).calls = []) ↔
        ("--bytecode-summary".toList ∈ toks ∧
          effectiveGranularity toks ≠ some "function".toList)) ∧
      (∀ rejected ∈ [["--bytecode-summary".toList, "--record-stats=total".toList],
          ["--record-stats=total".toList, "--bytecode-summary".toList],
          ["--bytecode-summary".toList]],
        compileWebMain luau g (prog :: rejected) sourceCode =
          { output :=
              "'Error: Required '--record-stats=function' for '--bytecode-summary'.".toList
            globalOptions := g
            stats := {}
            calls := [] }) ∧
      (∀ accepted ∈ [["--bytecode-summary".toList, "--record-stats=function".toList],
          ["--record-stats=function".toList, "--bytecode-summary".toList]],
        compileWebMain luau g (prog :: accepted) sourceCode =
            compileWithOptions luau
              { globalOptions := g, recordStats := RecordStats.Function, bytecodeSummary := true }
              sourceCode ∧
          (compileWebMain luau g (prog :: accepted) sourceCode).calls.head? =
            some (Call.parse sourceCode)) := by
  refine ⟨?_, ?_, ?_⟩
  · rw [configuration_error_iff luau g prog toks sourceCode st hscan]
    constructor
    · rintro ⟨⟨t, ht, hpre⟩, hg⟩
      have heq := hexact t ht hpre
      rw [heq] at ht
      exact ⟨ht, hg⟩
    · rintro ⟨hmem, hg⟩
      exact ⟨⟨_, hmem, List.prefix_refl _⟩, hg⟩
  · intro rejected hmem
    simp only [List.mem_cons, List.mem_singleton, List.not_mem_nil, or_false] at hmem
    rcases hmem with rfl | rfl | rfl <;> rfl
  · intro accepted hmem
    have hfirst := compileWithOptions_parses_first luau
      { globalOptions := g, recordStats := RecordStats.Function, bytecodeSummary := true }
      sourceCode (by simp)
    simp only [List.mem_cons, List.mem_singleton, List.not_mem_nil, or_false] at hmem
    rcases hmem with rfl | rfl
    · exact ⟨rfl, hfirst⟩
    · exact ⟨rfl, hfirst⟩

theorem bytecode_summary_invariant_witness :
    (((compileWebMain trivialLuau {}
              ("luau-compile".toList ::
                ["--record-stats=file".toList, "-O2".toList, "--bytecode-summary".toList])
              []).output =
            "'Error: Required '--record-stats=function' for '--bytecode-summary'.".toList ∧
          (compileWebMain trivialLuau {}
              ("luau-compile".toList ::
                ["--record-stats=file".toList, "-O2".toList, "--bytecode-summary".toList])
              []).calls = []) ↔
        ("--bytecode-summary".toList ∈
            ["--record-stats=file".toList, "-O2".toList, "--bytecode-summary".toList] ∧
          effectiveGranularity
              ["--record-stats=file".toList, "-O2".toList, "--bytecode-summary".toList] ≠
            some "function".toList)) ∧
      ("--bytecode-summary".toList ∈
          ["--record-stats=file".toList, "-O2".toList, "--bytecode-summary".toList] ∧
        effectiveGranularity
            ["--record-stats=file".toList, "-O2".toList, "--bytecode-summary".toList] ≠
          some "function".toList) :=
  ⟨(bytecode_summary_invariant trivialLuau {} "luau-compile".toList
      ["--record-stats=file".toList, "-O2".toList, "--bytecode-summary".toList] []
      { globalOptions := { optimizationLevel := 2 }, recordStats := RecordStats.File,
        bytecodeSummary := true } (by rfl) (by decide)).1,
    by decide⟩

theorem optionStep_unrecognized (st : OptionState) (t : CStr) (hdash : "-".toList <+: t)
    (hno : ¬ matchesOptionTest t) :
    optionStep st t =
      Except.error ("Error: Unrecognized option '".toList ++ t ++ "'.".toList) := by
  obtain ⟨e1, e2, e3, e4, e5, e6, e7, e8, e9, e10, e11⟩ := optionStep_tests t
  simp only [matchesOptionTest, not_or] at hno
  obtain ⟨n1, n2, n3, n4, n5, n6, n7, n8, n9, n10, n11, n12, n13, n14, n15⟩ := hno
  have h0 : charAt t 0 = '-' := by
    obtain ⟨r, rfl⟩ := hdash
    rfl
  have hfmt : (if charAt t 0 = '-' ∧ charAt t 1 = '-' then getCompileFormat (t.drop 2)
      else none) = none := by
    by_cases c : charAt t 0 = '-' ∧ charAt t 1 = '-'
    · rw [if_pos c]
      have hpre : "--".toList <+: t := by
        match t, c with
        | a :: b :: r, c =>
          simp only [charAt, List.getD_cons_zero, List.getD_cons_succ] at c
          rw [c.1, c.2]
          exact List.prefix_append _ _
        | [a], c => simp [charAt] at c
        | [], c => simp [charAt] at c
      cases hg : getCompileFormat (t.drop 2) with
      | none => rfl
      | some f => exact absurd ⟨hpre, by rw [hg]; rfl⟩ n15
    · rw [if_neg c]
  unfold optionStep
  simp only [strcmp_eq_zero_iff, e1, e2, e3, e4, e5, e6, e7, e8, e9, e10, e11]
  rw [if_neg (not_or.mpr ⟨n1, n2⟩), if_neg n4, if_neg n5, if_neg n6, if_neg n7, if_neg n3,
    if_neg n8, if_neg n9, if_neg n10, if_neg n11, if_neg n12, if_neg n13, if_neg n14, hfmt]
  simp only [h0, if_true]

/-- C4, as stated, fails: `-Omax` begins with `-`, is not `-O` followed by
an integer (nor any other form of the table), and is the first token, yet
`compileWebMain` does not return the unrecognized-option error: it accepts the
token with level `0` and goes on to parse and compile. -/
theorem lenient_level_flag_not_rejected :
    (∀ n : Int, "-Omax".toList ≠ "-O".toList ++ formatInt n) ∧
      (compileWebMain trivialLuau {} ["luau-compile".toList, "-Omax".toList] []).output ≠
        "Error: Unrecognized option '-Omax'.".toList ∧
      (compileWebMain trivialLuau {} ["luau-compile".toList, "-Omax".toList] []).calls =
        [Call.parse [], Call.compileOrThrow (copts { optimizationLevel := 0 })] := by
  refine ⟨?_, by decide, by rfl⟩
  intro n hn
  have hm : formatInt n = "max".toList := by
    have hn2 : "-O".toList ++ "max".toList = "-O".toList ++ formatInt n := hn
    exact (List.append_cancel_left hn2).symm
  unfold formatInt at hm
  split_ifs at hm
  · cases hm
  · obtain ⟨c, r, hcr, hd⟩ := formatNatAux_head (n.natAbs + 1) n.natAbs [] (by omega)
    unfold formatNat at hm
    rw [hcr] at hm
    injection hm with hc _
    subst hc
    revert hd
    decide

/-- C4 (amended): for every token `t` that begins with `-` and that none of
the tests of the option chain matches (exactly `-h`, `--help`, `--timetrace`;
the prefixes `-O`, `-g`, `-t`, `--target=`, `--record-stats=`,
`--bytecode-summary`, `--stats-file=`, `--fflags=`, `--vector-lib=`,
`--vector-ctor=`, `--vector-type=`; `--` followed by a format name), and for
every token list in which the tokens before `t` are scanned without a return,
`compileWebMain` returns exactly `Error: Unrecognized option '<t>'.`, without
calling the parser or the compiler. -/
theorem unrecognized_option_rejected {Ast Bcb : Type} (luau : Luau Ast Bcb)
    (g : GlobalOptions) (prog : CStr) (p s : List CStr) (t : CStr) (st1 : OptionState)
    (sourceCode : CStr)
    (hp : optionLoop p { globalOptions := g } = (st1, none))
    (hdash : "-".toList <+: t) (hno : ¬ matchesOptionTest t) :
    compileWebMain luau g (prog :: (p ++ t :: s)) sourceCode =
      { output := "Error: Unrecognized option '".toList ++ t ++ "'.".toList
        globalOptions := st1.globalOptions
        stats := {}
        calls := [] } :=
  compileWebMain_stop luau g prog p s t st1 _ sourceCode hp
    (optionStep_unrecognized st1 t hdash hno)

theorem unrecognized_option_rejected_witness :
    compileWebMain trivialLuau {}
        ("luau-compile".toList :: (["-O2".toList] ++ "--frobnicate".toList :: ["-g0".toList]))
        [] =
      { output := "Error: Unrecognized option '".toList ++ "--frobnicate".toList ++ "'.".toList
        globalOptions := { optimizationLevel := 2 }
        stats := {}
        calls := [] } :=
  unrecognized_option_rejected trivialLuau {} "luau-compile".toList ["-O2".toList]
    ["-g0".toList] "--frobnicate".toList { globalOptions := { optimizationLevel := 2 } } []
    (by rfl) (by decide) (by decide)

/-- The string with which an iteration returns depends on the token alone. -/
theorem optionStep_error_of_token (st st0 : OptionState) (t : CStr) (e : List Char)
    (h : optionStep st t = Except.error e) : optionStep st0 t = Except.error e := by
  rcases optionStep_uniform t with ⟨e0, u⟩ | ⟨_, u⟩ | ⟨_, u⟩ | ⟨_, u⟩ | ⟨_, u⟩ | ⟨_, r, u, _⟩ |
    ⟨_, _, u⟩ | ⟨_, u⟩ | ⟨_, u⟩ | ⟨_, u⟩ | ⟨_, u⟩ | ⟨f, _, _, _, _, _, u⟩
  · rw [u st] at h
    rw [u st0, ← h]
  all_goals (rw [u st] at h; cases h)

/-- C6: option parsing is fail-fast. When the tokens of `p` are scanned
without a return and the next token `t` makes the loop return the string `e`
(which depends on `t` alone), `compileWebMain` returns `e` with the option
state reached after `p`, calls neither the parser nor the compiler, and the
tokens after `t` play no part: any two suffixes give the same outcome. -/
theorem option_parsing_fail_fast {Ast Bcb : Type} (luau : Luau Ast Bcb) (g : GlobalOptions)
    (prog : CStr) (p : List CStr) (t : CStr) (st1 : OptionState) (e : List Char)
    (sourceCode : CStr)
    (hp : optionLoop p { globalOptions := g } = (st1, none))
    (ht : optionStep st1 t = Except.error e) :
    (∀ st : OptionState, optionStep st t = Except.error e) ∧
      ∀ s1 s2 : List CStr,
        compileWebMain luau g (prog :: (p ++ t :: s1)) sourceCode =
            { output := e, globalOptions := st1.globalOptions, stats := {}, calls := [] } ∧
          compileWebMain luau g (prog :: (p ++ t :: s1)) sourceCode =
            compileWebMain luau g (prog :: (p ++ t :: s2)) sourceCode := by
  refine ⟨fun st => optionStep_error_of_token st1 st t e ht, fun s1 s2 => ?_⟩
  rw [compileWebMain_stop luau g prog p s1 t st1 e sourceCode hp ht,
    compileWebMain_stop luau g prog p s2 t st1 e sourceCode hp ht]
  exact ⟨rfl, rfl⟩

theorem option_parsing_fail_fast_witness :
    (∀ st : OptionState, optionStep st "-g7".toList =
        Except.error "Error: Debug level must be between 0 and 2 inclusive.".toList) ∧
      ∀ s1 s2 : List CStr,
        compileWebMain trivialLuau {} ("luau-compile".toList ::
              (["-O2".toList] ++ "-g7".toList :: s1)) [] =
            { output := "Error: Debug level must be between 0 and 2 inclusive.".toList
              globalOptions := { optimizationLevel := 2 }
              stats := {}
              calls := [] } ∧
          compileWebMain trivialLuau {} ("luau-compile".toList ::
              (["-O2".toList] ++ "-g7".toList :: s1)) [] =
            compileWebMain trivialLuau {} ("luau-compile".toList ::
              (["-O2".toList] ++ "-g7".toList :: s2)) [] :=
  option_parsing_fail_fast trivialLuau {} "luau-compile".toList ["-O2".toList] "-g7".toList
    { globalOptions := { optimizationLevel := 2 } }
    "Error: Debug level must be between 0 and 2 inclusive.".toList [] (by rfl) (by rfl)

theorem optionStep_globalOptions (st st1 : OptionState) (t : CStr)
    (h : optionStep st t = Except.ok st1) (hno : ¬ setsGlobalOption t) :
    st1.globalOptions = st.globalOptions := by
  simp only [setsGlobalOption, not_or] at hno
  obtain ⟨n1, n2, n3, n4, n5, n6⟩ := hno
  rcases optionStep_ok_inv st st1 t h with h | ⟨c, _⟩ | ⟨c, _⟩ | ⟨c, _⟩ | ⟨_, r, h, _⟩ |
    ⟨_, _, h⟩ | ⟨_, h⟩ | ⟨c, _⟩ | ⟨c, _⟩ | ⟨c, _⟩ | ⟨f, _, _, _, _, h⟩
  all_goals first
    | (subst h; rfl)
    | exact absurd c n1
    | exact absurd c n2
    | exact absurd c n3
    | exact absurd c n4
    | exact absurd c n5
    | exact absurd c n6

theorem optionLoop_globalOptions (p : List CStr) :
    ∀ (st0 st : OptionState) (r : Option (List Char)), optionLoop p st0 = (st, r) →
      (∀ u ∈ p, ¬ setsGlobalOption u) → st.globalOptions = st0.globalOptions := by
  induction p with
  | nil =>
    intro st0 st r h _
    simp only [optionLoop, Prod.mk.injEq] at h
    rw [h.1]
  | cons t ts ih =>
    intro st0 st r h hno
    simp only [optionLoop] at h
    cases hstep : optionStep st0 t with
    | error e =>
      simp only [hstep, Prod.mk.injEq] at h
      rw [h.1]
    | ok st1 =>
      simp only [hstep] at h
      rw [ih st1 st r h (fun u hu => hno u (List.mem_cons_of_mem _ hu)),
        optionStep_globalOptions st0 st1 t hstep (hno t (List.mem_cons_self _ _))]

/-- C7, as stated, fails: `-O2 --frobnicate` is rejected with the
unrecognized-option error and no call of the parser, and the option state
after the call has optimization level `2`, not the level `1` it had before. -/
theorem rejected_call_changes_option_state :
    (compileWebMain trivialLuau {}
        ["luau-compile".toList, "-O2".toList, "--frobnicate".toList] []).output =
        "Error: Unrecognized option '--frobnicate'.".toList ∧
      (compileWebMain trivialLuau {}
        ["luau-compile".toList, "-O2".toList, "--frobnicate".toList] []).calls = [] ∧
      (compileWebMain trivialLuau {}
        ["luau-compile".toList, "-O2".toList, "--frobnicate".toList] []).globalOptions =
        { optimizationLevel := 2 } ∧
      (compileWebMain trivialLuau {}
        ["luau-compile".toList, "-O2".toList, "--frobnicate".toList] []).globalOptions ≠
        ({} : GlobalOptions) := by
  refine ⟨by rfl, by rfl, by rfl, by decide⟩

/-- C7 (amended): a rejected argument list leaves the option state that the
tokens scanned before the rejection have set. When the tokens of `p` are
scanned without a return and the next token `t` is rejected, the offending
token and the tokens after it change nothing: the option state after the call
is the one the call on `p` alone leaves; and when the bytecode-summary check
rejects a list scanned to its end, the state is the one its tokens have set.
In both cases the state is the same as before the call when none of the
scanned tokens begins with `-O`, `-g`, `-t`, `--vector-lib=`, `--vector-ctor=`
or `--vector-type=`. -/
theorem rejected_call_option_state {Ast Bcb : Type} (luau : Luau Ast Bcb)
    (g : GlobalOptions) (prog : CStr) (sourceCode : CStr) :
    (∀ (p s : List CStr) (t : CStr) (st1 : OptionState) (e : List Char),
      optionLoop p { globalOptions := g } = (st1, none) →
      optionStep st1 t = Except.error e →
        (compileWebMain luau g (prog :: (p ++ t :: s)) sourceCode).globalOptions =
            st1.globalOptions ∧
          (compileWebMain luau g (prog :: p) sourceCode).globalOptions = st1.globalOptions ∧
          ((∀ u ∈ p, ¬ setsGlobalOption u) →
            (compileWebMain luau g (prog :: (p ++ t :: s)) sourceCode).globalOptions = g)) ∧
    (∀ (toks : List CStr) (st : OptionState),
      optionLoop toks { globalOptions := g } = (st, none) →
      (st.bytecodeSummary = true ∧ st.recordStats ≠ RecordStats.Function) →
        compileWebMain luau g (prog :: toks) sourceCode =
            { output :=
                "'Error: Required '--record-stats=function' for '--bytecode-summary'.".toList
              globalOptions := st.globalOptions
              stats := {}
              calls := [] } ∧
          ((∀ u ∈ toks, ¬ setsGlobalOption u) →
            (compileWebMain luau g (prog :: toks) sourceCode).globalOptions = g)) := by
  constructor
  · intro p s t st1 e hp ht
    have hstop := compileWebMain_stop luau g prog p s t st1 e sourceCode hp ht
    have hsame : (compileWebMain luau g (prog :: p) sourceCode).globalOptions =
        st1.globalOptions := by
      rw [(compileWebMain_reads_loop_state luau g (prog :: p) sourceCode).1]
      simp only [List.drop_succ_cons, List.drop_zero, hp]
    refine ⟨by rw [hstop], hsame, fun hno => ?_⟩
    rw [hstop]
    exact optionLoop_globalOptions p _ st1 none hp hno
  · intro toks st hscan hinv
    have hout : compileWebMain luau g (prog :: toks) sourceCode =
        { output :=
            "'Error: Required '--record-stats=function' for '--bytecode-summary'.".toList
          globalOptions := st.globalOptions } := by
      rw [compileWebMain_scanned luau g prog toks st sourceCode hscan,
        compileWithOptions_rejected luau st sourceCode hinv]
    refine ⟨hout, fun hno => ?_⟩
    rw [hout]
    exact optionLoop_globalOptions toks _ st none hscan hno

theorem rejected_call_option_state_witness :
    (compileWebMain trivialLuau {}
          ("luau-compile".toList :: (["--binary".toList] ++ "-O3".toList :: ["-g0".toList]))
          []).globalOptions = ({} : GlobalOptions) ∧
      (compileWebMain trivialLuau {}
          ("luau-compile".toList :: ["--bytecode-summary".toList]) []).globalOptions =
        ({} : GlobalOptions) :=
  ⟨((rejected_call_option_state trivialLuau {} "luau-compile".toList []).1
      ["--binary".toList] ["-g0".toList] "-O3".toList
      { globalOptions := {}, compileFormat := CompileFormat.Binary }
      "Error: Optimization level must be between 0 and 2 inclusive.".toList
      (by rfl) (by rfl)).2.2 (by decide),
    ((rejected_call_option_state trivialLuau {} "luau-compile".toList []).2
      ["--bytecode-summary".toList] { globalOptions := {}, bytecodeSummary := true }
      (by rfl) (by decide)).2 (by decide)⟩

theorem agreeWhereUnset_tail (t : CStr) (ts : List CStr) (g1 g2 : GlobalOptions)
    (h : agreeWhereUnset (t :: ts) g1 g2) (hno : ¬ setsGlobalOption t) :
    agreeWhereUnset ts g1 g2 := by
  simp only [setsGlobalOption, not_or] at hno
  obtain ⟨n1, n2, n3, n4, n5, n6⟩ := hno
  obtain ⟨h1, h2, h3, h4, h5, h6⟩ := h
  exact ⟨fun hts => h1 (List.forall_mem_cons.mpr ⟨n1, hts⟩),
    fun hts => h2 (List.forall_mem_cons.mpr ⟨n2, hts⟩),
    fun hts => h3 (List.forall_mem_cons.mpr ⟨n3, hts⟩),
    fun hts => h4 (List.forall_mem_cons.mpr ⟨n4, hts⟩),
    fun hts => h5 (List.forall_mem_cons.mpr ⟨n5, hts⟩),
    fun hts => h6 (List.forall_mem_cons.mpr ⟨n6, hts⟩)⟩

theorem agreeWhereUnset_nil (g1 g2 : GlobalOptions) (h : agreeWhereUnset [] g1 g2) :
    g1 = g2 := by
  obtain ⟨h1, h2, h3, h4, h5, h6⟩ := h
  cases g1
  cases g2
  simp only [GlobalOptions.mk.injEq]
  exact ⟨h1 (by simp), h2 (by simp), h3 (by simp), h4 (by simp), h5 (by simp), h6 (by simp)⟩

theorem agreeWhereUnset_O (r : CStr) (ts : List CStr) (g1 g2 : GlobalOptions) (a : Int)
    (h : agreeWhereUnset (("-O".toList ++ r) :: ts) g1 g2) :
    agreeWhereUnset ts { g1 with optimizationLevel := a } { g2 with optimizationLevel := a } := by
  obtain ⟨h1, h2, h3, h4, h5, h6⟩ := h
  exact ⟨fun _ => rfl,
    fun hts => h2 (List.forall_mem_cons.mpr ⟨by simp, hts⟩),
    fun hts => h3 (List.forall_mem_cons.mpr ⟨by simp, hts⟩),
    fun hts => h4 (List.forall_mem_cons.mpr ⟨by simp, hts⟩),
    fun hts => h5 (List.forall_mem_cons.mpr ⟨by simp, hts⟩),
    fun hts => h6 (List.forall_mem_cons.mpr ⟨by simp, hts⟩)⟩

theorem agreeWhereUnset_g (r : CStr) (ts : List CStr) (g1 g2 : GlobalOptions) (a : Int)
    (h : agreeWhereUnset (("-g".toList ++ r) :: ts) g1 g2) :
    agreeWhereUnset ts { g1 with debugLevel := a } { g2 with debugLevel := a } := by
  obtain ⟨h1, h2, h3, h4, h5, h6⟩ := h
  exact ⟨fun hts => h1 (List.forall_mem_cons.mpr ⟨by simp, hts⟩),
    fun _ => rfl,
    fun hts => h3 (List.forall_mem_cons.mpr ⟨by simp, hts⟩),
    fun hts => h4 (List.forall_mem_cons.mpr ⟨by simp, hts⟩),
    fun hts => h5 (List.forall_mem_cons.mpr ⟨by simp, hts⟩),
    fun hts => h6 (List.forall_mem_cons.mpr ⟨by simp, hts⟩)⟩

theorem agreeWhereUnset_t (r : CStr) (ts : List CStr) (g1 g2 : GlobalOptions) (a : Int)
    (h : agreeWhereUnset (("-t".toList ++ r) :: ts) g1 g2) :
    agreeWhereUnset ts { g1 with typeInfoLevel := a } { g2 with typeInfoLevel := a } := by
  obtain ⟨h1, h2, h3, h4, h5, h6⟩ := h
  exact ⟨fun hts => h1 (List.forall_mem_cons.mpr ⟨by simp, hts⟩),
    fun hts => h2 (List.forall_mem_cons.mpr ⟨by simp, hts⟩),
    fun _ => rfl,
    fun hts => h4 (List.forall_mem_cons.mpr ⟨by simp, hts⟩),
    fun hts => h5 (List.forall_mem_cons.mpr ⟨by simp, hts⟩),
    fun hts => h6 (List.forall_mem_cons.mpr ⟨by simp, hts⟩)⟩

theorem agreeWhereUnset_lib (r : CStr) (ts : List CStr) (g1 g2 : GlobalOptions)
    (a : CharPtr) (h : agreeWhereUnset (("--vector-lib=".toList ++ r) :: ts) g1 g2) :
    agreeWhereUnset ts { g1 with vectorLib := a } { g2 with vectorLib := a } := by
  obtain ⟨h1, h2, h3, h4, h5, h6⟩ := h
  exact ⟨fun hts => h1 (List.forall_mem_cons.mpr ⟨by simp, hts⟩),
    fun hts => h2 (List.forall_mem_cons.mpr ⟨by simp, hts⟩),
    fun hts => h3 (List.forall_mem_cons.mpr ⟨by simp, hts⟩),
    fun _ => rfl,
    fun hts => h5 (List.forall_mem_cons.mpr ⟨by simp, hts⟩),
    fun hts => h6 (List.forall_mem_cons.mpr ⟨by simp, hts⟩)⟩

theorem agreeWhereUnset_ctor (r : CStr) (ts : List CStr) (g1 g2 : GlobalOptions)
    (a : CharPtr) (h : agreeWhereUnset (("--vector-ctor=".toList ++ r) :: ts) g1 g2) :
    agreeWhereUnset ts { g1 with vectorCtor := a } { g2 with vectorCtor := a } := by
  obtain ⟨h1, h2, h3, h4, h5, h6⟩ := h
  exact ⟨fun hts => h1 (List.forall_mem_cons.mpr ⟨by simp, hts⟩),
    fun hts => h2 (List.forall_mem_cons.mpr ⟨by simp, hts⟩),
    fun hts => h3 (List.forall_mem_cons.mpr ⟨by simp, hts⟩),
    fun hts => h4 (List.forall_mem_cons.mpr ⟨by simp, hts⟩),
    fun _ => rfl,
    fun hts => h6 (List.forall_mem_cons.mpr ⟨by simp, hts⟩)⟩

theorem agreeWhereUnset_type (r : CStr) (ts : List CStr) (g1 g2 : GlobalOptions)
    (a : CharPtr) (h : agreeWhereUnset (("--vector-type=".toList ++ r) :: ts) g1 g2) :
    agreeWhereUnset ts { g1 with vectorType := a } { g2 with vectorType := a } := by
  obtain ⟨h1, h2, h3, h4, h5, h6⟩ := h
  exact ⟨fun hts => h1 (List.forall_mem_cons.mpr ⟨by simp, hts⟩),
    fun hts => h2 (List.forall_mem_cons.mpr ⟨by simp, hts⟩),
    fun hts => h3 (List.forall_mem_cons.mpr ⟨by simp, hts⟩),
    fun hts => h4 (List.forall_mem_cons.mpr ⟨by simp, hts⟩),
    fun hts => h5 (List.forall_mem_cons.mpr ⟨by simp, hts⟩),
    fun _ => rfl⟩

/-- Two runs of the option loop from states with the same locals and with
option states that agree where the tokens set nothing: both end with the same
locals and the same return, and, when the loop runs to its end, with the same
option state. -/
theorem optionLoop_rel (toks : List CStr) :
    ∀ (l : OptionState) (g1 g2 : GlobalOptions), agreeWhereUnset toks g1 g2 →
      ∃ (l1 : OptionState) (k1 k2 : GlobalOptions) (r : Option (List Char)),
        optionLoop toks { l with globalOptions := g1 } = ({ l1 with globalOptions := k1 }, r) ∧
        optionLoop toks { l with globalOptions := g2 } = ({ l1 with globalOptions := k2 }, r) ∧
        (r = none → k1 = k2) := by
  induction toks with
  | nil =>
    intro l g1 g2 h
    exact ⟨l, g1, g2, none, rfl, rfl, fun _ => agreeWhereUnset_nil g1 g2 h⟩
  | cons t ts ih =>
    intro l g1 g2 h
    rcases optionStep_uniform t with ⟨e, u⟩ | ⟨hs, u⟩ | ⟨c, u⟩ | ⟨c, u⟩ | ⟨c, u⟩ |
      ⟨c, r, u, _⟩ | ⟨c, _, u⟩ | ⟨c, u⟩ | ⟨c, u⟩ | ⟨c, u⟩ | ⟨c, u⟩ | ⟨f, c, _, _, _, hs, u⟩
    · refine ⟨l, g1, g2, some e, ?_, ?_, fun hr => by cases hr⟩ <;> simp only [optionLoop, u]
    · simp only [optionLoop, u]
      exact ih l g1 g2 (agreeWhereUnset_tail t ts g1 g2 h hs)
    · obtain ⟨r, rfl⟩ := c
      simp only [optionLoop, u]
      exact ih l _ _ (agreeWhereUnset_O r ts g1 g2 _ h)
    · obtain ⟨r, rfl⟩ := c
      simp only [optionLoop, u]
      exact ih l _ _ (agreeWhereUnset_g r ts g1 g2 _ h)
    · obtain ⟨r, rfl⟩ := c
      simp only [optionLoop, u]
      exact ih l _ _ (agreeWhereUnset_t r ts g1 g2 _ h)
    · simp only [optionLoop, u]
      refine ih { l with recordStats := r } g1 g2 (agreeWhereUnset_tail t ts g1 g2 h ?_)
      obtain ⟨r, rfl⟩ := c
      simp [setsGlobalOption]
    · simp only [optionLoop, u]
      refine ih { l with bytecodeSummary := true } g1 g2
        (agreeWhereUnset_tail t ts g1 g2 h ?_)
      obtain ⟨r, rfl⟩ := c
      simp [setsGlobalOption]
    · simp only [optionLoop, u]
      refine ih { l with statsFile := t.drop 13 } g1 g2
        (agreeWhereUnset_tail t ts g1 g2 h ?_)
      obtain ⟨r, rfl⟩ := c
      simp [setsGlobalOption]
    · obtain ⟨r, rfl⟩ := c
      simp only [optionLoop, u]
      exact ih l _ _ (agreeWhereUnset_lib r ts g1 g2 _ h)
    · obtain ⟨r, rfl⟩ := c
      simp only [optionLoop, u]
      exact ih l _ _ (agreeWhereUnset_ctor r ts g1 g2 _ h)
    · obtain ⟨r, rfl⟩ := c
      simp only [optionLoop, u]
      exact ih l _ _ (agreeWhereUnset_type r ts g1 g2 _ h)
    · simp only [optionLoop, u]
      exact ih { l with compileFormat := f } g1 g2 (agreeWhereUnset_tail t ts g1 g2 h hs)

/-- C8, as stated, fails: the option state that the call with `-O2 -g0`
leaves is `{2, 0}`; the same invocation (no options, empty source) run after
that call and run from the initial state hands the compiler different options
and returns different strings. -/
theorem option_state_leaks_between_calls :
    (compileWebMain levelEchoLuau {} ["luau-compile".toList, "-O2".toList, "-g0".toList]
        []).globalOptions = { optimizationLevel := 2, debugLevel := 0 } ∧
      (compileWebMain levelEchoLuau { optimizationLevel := 2, debugLevel := 0 }
        ["luau-compile".toList] []).calls =
        [Call.parse [], Call.compileOrThrow (copts { optimizationLevel := 2, debugLevel := 0 })] ∧
      (compileWebMain levelEchoLuau {} ["luau-compile".toList] []).calls =
        [Call.parse [], Call.compileOrThrow (copts {})] ∧
      copts { optimizationLevel := 2, debugLevel := 0 } ≠ copts {} ∧
      (compileWebMain levelEchoLuau { optimizationLevel := 2, debugLevel := 0 }
        ["luau-compile".toList] []).output = "2".toList ∧
      (compileWebMain levelEchoLuau {} ["luau-compile".toList] []).output = "1".toList := by
  refine ⟨by rfl, by rfl, by rfl, by decide, by rfl, by rfl⟩

theorem hooksAlive_tail (t : CStr) (ts : List CStr) (g : GlobalOptions)
    (h : hooksAlive (t :: ts) g)
    (hno : ¬ "--vector-lib=".toList <+: t ∧ ¬ "--vector-ctor=".toList <+: t ∧
      ¬ "--vector-type=".toList <+: t) :
    hooksAlive ts g := by
  obtain ⟨n1, n2, n3⟩ := hno
  obtain ⟨h1, h2, h3⟩ := h
  exact ⟨fun hts => h1 (List.forall_mem_cons.mpr ⟨n1, hts⟩),
    fun hts => h2 (List.forall_mem_cons.mpr ⟨n2, hts⟩),
    fun hts => h3 (List.forall_mem_cons.mpr ⟨n3, hts⟩)⟩

/-- The option loop stores no dangling pointer: when the hooks that the tokens
leave unset are good pointers, so are all three hooks at the end of the scan. -/
theorem optionLoop_alive (toks : List CStr) :
    ∀ (st st1 : OptionState), hooksAlive toks st.globalOptions →
      optionLoop toks st = (st1, none) →
      st1.globalOptions.vectorLib ≠ CharPtr.dangling ∧
        st1.globalOptions.vectorCtor ≠ CharPtr.dangling ∧
        st1.globalOptions.vectorType ≠ CharPtr.dangling := by
  induction toks with
  | nil =>
    intro st st1 h hl
    simp only [optionLoop, Prod.mk.injEq, and_true] at hl
    subst hl
    exact ⟨h.1 (by simp), h.2.1 (by simp), h.2.2 (by simp)⟩
  | cons t ts ih =>
    intro st st1 h hl
    rcases optionStep_uniform t with ⟨e, u⟩ | ⟨hs, u⟩ | ⟨c, u⟩ | ⟨c, u⟩ | ⟨c, u⟩ |
      ⟨c, r, u, _⟩ | ⟨c, _, u⟩ | ⟨c, u⟩ | ⟨c, u⟩ | ⟨c, u⟩ | ⟨c, u⟩ | ⟨f, c, _, _, _, hs, u⟩
    · simp [optionLoop, u] at hl
    · simp only [optionLoop, u] at hl
      simp only [setsGlobalOption, not_or] at hs
      exact ih st st1 (hooksAlive_tail t ts _ h ⟨hs.2.2.2.1, hs.2.2.2.2.1, hs.2.2.2.2.2⟩) hl
    · simp only [optionLoop, u] at hl
      refine ih _ st1 ?_ hl
      refine hooksAlive_tail t ts st.globalOptions h ?_
      obtain ⟨r, rfl⟩ := c
      simp
    · simp only [optionLoop, u] at hl
      refine ih _ st1 ?_ hl
      refine hooksAlive_tail t ts st.globalOptions h ?_
      obtain ⟨r, rfl⟩ := c
      simp
    · simp only [optionLoop, u] at hl
      refine ih _ st1 ?_ hl
      refine hooksAlive_tail t ts st.globalOptions h ?_
      obtain ⟨r, rfl⟩ := c
      simp
    · simp only [optionLoop, u] at hl
      refine ih _ st1 ?_ hl
      refine hooksAlive_tail t ts st.globalOptions h ?_
      obtain ⟨r, rfl⟩ := c
      simp
    · simp only [optionLoop, u] at hl
      refine ih _ st1 ?_ hl
      refine hooksAlive_tail t ts st.globalOptions h ?_
      obtain ⟨r, rfl⟩ := c
      simp
    · simp only [optionLoop, u] at hl
      refine ih _ st1 ?_ hl
      refine hooksAlive_tail t ts st.globalOptions h ?_
      obtain ⟨r, rfl⟩ := c
      simp
    · simp only [optionLoop, u] at hl
      refine ih _ st1 ?_ hl
      obtain ⟨r, rfl⟩ := c
      obtain ⟨h1, h2, h3⟩ := h
      exact ⟨fun _ => by simp,
        fun hts => h2 (List.forall_mem_cons.mpr ⟨by simp, hts⟩),
        fun hts => h3 (List.forall_mem_cons.mpr ⟨by simp, hts⟩)⟩
    · simp only [optionLoop, u] at hl
      refine ih _ st1 ?_ hl
      obtain ⟨r, rfl⟩ := c
      obtain ⟨h1, h2, h3⟩ := h
      exact ⟨fun hts => h1 (List.forall_mem_cons.mpr ⟨by simp, hts⟩),
        fun _ => by simp,
        fun hts => h3 (List.forall_mem_cons.mpr ⟨by simp, hts⟩)⟩
    · simp only [optionLoop, u] at hl
      refine ih _ st1 ?_ hl
      obtain ⟨r, rfl⟩ := c
      obtain ⟨h1, h2, h3⟩ := h
      exact ⟨fun hts => h1 (List.forall_mem_cons.mpr ⟨by simp, hts⟩),
        fun hts => h2 (List.forall_mem_cons.mpr ⟨by simp, hts⟩),
        fun _ => by simp⟩
    · simp only [optionLoop, u] at hl
      simp only [setsGlobalOption, not_or] at hs
      refine ih _ st1 ?_ hl
      exact hooksAlive_tail t ts st.globalOptions h ⟨hs.2.2.2.1, hs.2.2.2.2.1, hs.2.2.2.2.2⟩

/-- C8 (amended): the compiler options that `compileWebMain` derives and the
string it returns are determined by the arguments, the source and those fields
of the prior option state that no argument sets: every `-O`, `-g` or `-t`
token overwrites its level, every `--vector-lib=`, `--vector-ctor=` or
`--vector-type=` token overwrites its hook with a pointer into that token, and
a field without such a token is read as the call finds it. So two runs of the
same invocation from prior option states that agree on the fields the
arguments leave unset, the hooks among them being null or pointers to strings
that are still alive, return the same string, make the same calls with the
same compiler options and collect the same stats, and no compiler call is
handed a dangling pointer. -/
theorem option_state_carries_over {Ast Bcb : Type} (luau : Luau Ast Bcb)
    (g1 g2 : GlobalOptions) (argv : List CStr) (sourceCode : CStr)
    (h : agreeWhereUnset (argv.drop 1) g1 g2) (halive : hooksAlive (argv.drop 1) g1) :
    (compileWebMain luau g1 argv sourceCode).output =
        (compileWebMain luau g2 argv sourceCode).output ∧
      (compileWebMain luau g1 argv sourceCode).calls =
        (compileWebMain luau g2 argv sourceCode).calls ∧
      (compileWebMain luau g1 argv sourceCode).stats =
        (compileWebMain luau g2 argv sourceCode).stats ∧
      (∀ o, Call.compileOrThrow o ∈ (compileWebMain luau g1 argv sourceCode).calls →
        o.vectorLib ≠ CharPtr.dangling ∧ o.vectorCtor ≠ CharPtr.dangling ∧
          o.vectorType ≠ CharPtr.dangling) := by
  obtain ⟨l1, k1, k2, r, h1, h2, hk⟩ :=
    optionLoop_rel (argv.drop 1) { globalOptions := g1 } g1 g2 h
  have h1' : optionLoop (argv.drop 1) { globalOptions := g1 } =
      ({ l1 with globalOptions := k1 }, r) := h1
  have h2' : optionLoop (argv.drop 1) { globalOptions := g2 } =
      ({ l1 with globalOptions := k2 }, r) := h2
  have hcalls : ∀ o, Call.compileOrThrow o ∈ (compileWebMain luau g1 argv sourceCode).calls →
      o.vectorLib ≠ CharPtr.dangling ∧ o.vectorCtor ≠ CharPtr.dangling ∧
        o.vectorType ≠ CharPtr.dangling := by
    intro o ho
    have hread := (compileWebMain_reads_loop_state luau g1 argv sourceCode).2 o ho
    cases r with
    | some message =>
      simp only [compileWebMain, h1'] at ho
      simp at ho
    | none =>
      have ha := optionLoop_alive (argv.drop 1) { globalOptions := g1 } _ halive h1'
      rw [h1'] at hread
      rw [hread]
      exact ha
  refine ⟨?_, ?_, ?_, hcalls⟩
  all_goals
    unfold compileWebMain
    rw [h1', h2']
    cases r with
    | some message => rfl
    | none => rw [hk rfl]

theorem option_state_carries_over_witness :
    (compileWebMain levelEchoLuau
          { optimizationLevel := 2, debugLevel := 0, vectorLib := CharPtr.dangling }
          ["luau-compile".toList, "-O0".toList, "--vector-lib=Vec".toList, "-g1".toList]
          []).output =
        (compileWebMain levelEchoLuau {}
          ["luau-compile".toList, "-O0".toList, "--vector-lib=Vec".toList, "-g1".toList]
          []).output ∧
      (compileWebMain levelEchoLuau
          { optimizationLevel := 2, debugLevel := 0, vectorLib := CharPtr.dangling }
          ["luau-compile".toList, "-O0".toList, "--vector-lib=Vec".toList, "-g1".toList]
          []).calls =
        (compileWebMain levelEchoLuau {}
          ["luau-compile".toList, "-O0".toList, "--vector-lib=Vec".toList, "-g1".toList]
          []).calls ∧
      (compileWebMain levelEchoLuau
          { optimizationLevel := 2, debugLevel := 0, vectorLib := CharPtr.dangling }
          ["luau-compile".toList, "-O0".toList, "--vector-lib=Vec".toList, "-g1".toList]
          []).calls =
        [Call.parse [], Call.compileOrThrow
          { optimizationLevel := 0, debugLevel := 1, typeInfoLevel := 0,
            vectorLib := CharPtr.to "Vec".toList, vectorCtor := CharPtr.null,
            vectorType := CharPtr.null }] :=
  ⟨(option_state_carries_over levelEchoLuau
      { optimizationLevel := 2, debugLevel := 0, vectorLib := CharPtr.dangling } {}
      ["luau-compile".toList, "-O0".toList, "--vector-lib=Vec".toList, "-g1".toList] []
      (by decide) (by decide)).1,
    (option_state_carries_over levelEchoLuau
      { optimizationLevel := 2, debugLevel := 0, vectorLib := CharPtr.dangling } {}
      ["luau-compile".toList, "-O0".toList, "--vector-lib=Vec".toList, "-g1".toList] []
      (by decide) (by decide)).2.1,
    by rfl⟩

/-- What a call of `exportCompile` leaves in the hooks: on the argument string
`luau-compile --vector-lib=Vec -O2` the compiler is handed a pointer to `Vec`,
and after the return the level `2` stays and the hook points into the
destroyed `args`; a later call without that flag hands the dangling pointer to
the compiler. -/
theorem exportCompile_hook_dangles :
    (exportCompile trivialLuau {} "luau-compile --vector-lib=Vec -O2".toList []).map
        (fun result => (result.calls, result.globalOptions)) =
      some ([Call.parse [], Call.compileOrThrow
          (copts { optimizationLevel := 2, vectorLib := CharPtr.to "Vec".toList })],
        { optimizationLevel := 2, vectorLib := CharPtr.dangling }) ∧
      (exportCompile trivialLuau { optimizationLevel := 2, vectorLib := CharPtr.dangling }
          "luau-compile".toList []).map (fun result => result.calls) =
        some [Call.parse [], Call.compileOrThrow
          (copts { optimizationLevel := 2, vectorLib := CharPtr.dangling })] := by
  refine ⟨by rfl, by rfl⟩

/-! ### The hooks after `exportCompile` -/

/-- Two runs of the option loop over the same tokens treat a hook alike: both
leave it as they found it, or both store the same pointer into a token. -/
theorem optionLoop_hooks (toks : List CStr) :
    ∀ (st1 st2 : OptionState),
      (((optionLoop toks st1).1.globalOptions.vectorLib = st1.globalOptions.vectorLib ∧
          (optionLoop toks st2).1.globalOptions.vectorLib = st2.globalOptions.vectorLib) ∨
        ∃ text, (optionLoop toks st1).1.globalOptions.vectorLib = CharPtr.to text ∧
          (optionLoop toks st2).1.globalOptions.vectorLib = CharPtr.to text) ∧
      (((optionLoop toks st1).1.globalOptions.vectorCtor = st1.globalOptions.vectorCtor ∧
          (optionLoop toks st2).1.globalOptions.vectorCtor = st2.globalOptions.vectorCtor) ∨
        ∃ text, (optionLoop toks st1).1.globalOptions.vectorCtor = CharPtr.to text ∧
          (optionLoop toks st2).1.globalOptions.vectorCtor = CharPtr.to text) ∧
      (((optionLoop toks st1).1.globalOptions.vectorType = st1.globalOptions.vectorType ∧
          (optionLoop toks st2).1.globalOptions.vectorType = st2.globalOptions.vectorType) ∨
        ∃ text, (optionLoop toks st1).1.globalOptions.vectorType = CharPtr.to text ∧
          (optionLoop toks st2).1.globalOptions.vectorType = CharPtr.to text) := by
  induction toks with
  | nil => intro st1 st2; exact ⟨Or.inl ⟨rfl, rfl⟩, Or.inl ⟨rfl, rfl⟩, Or.inl ⟨rfl, rfl⟩⟩
  | cons t ts ih =>
    intro st1 st2
    have hstored : ∀ {a b : CharPtr} (x : CStr),
        ((a = CharPtr.to x ∧ b = CharPtr.to x) ∨ ∃ text, a = CharPtr.to text ∧ b = CharPtr.to text) →
        ∃ text, a = CharPtr.to text ∧ b = CharPtr.to text := by
      intro a b x h
      rcases h with ⟨ha, hb⟩ | h
      · exact ⟨x, ha, hb⟩
      · exact h
    rcases optionStep_uniform t with ⟨e, u⟩ | ⟨hs, u⟩ | ⟨c, u⟩ | ⟨c, u⟩ | ⟨c, u⟩ |
      ⟨c, r, u, _⟩ | ⟨c, _, u⟩ | ⟨c, u⟩ | ⟨c, u⟩ | ⟨c, u⟩ | ⟨c, u⟩ | ⟨f, c, _, _, _, hs, u⟩
    · simp [optionLoop, u]
    · simp only [optionLoop, u]
      exact ih st1 st2
    · simp only [optionLoop, u]
      exact ih _ _
    · simp only [optionLoop, u]
      exact ih _ _
    · simp only [optionLoop, u]
      exact ih _ _
    · simp only [optionLoop, u]
      exact ih _ _
    · simp only [optionLoop, u]
      exact ih _ _
    · simp only [optionLoop, u]
      exact ih _ _
    · simp only [optionLoop, u]
      obtain ⟨h1, h2, h3⟩ := ih
        { st1 with globalOptions :=
            { st1.globalOptions with vectorLib := CharPtr.to (t.drop 13) } }
        { st2 with globalOptions :=
            { st2.globalOptions with vectorLib := CharPtr.to (t.drop 13) } }
      exact ⟨Or.inr (hstored _ h1), h2, h3⟩
    · simp only [optionLoop, u]
      obtain ⟨h1, h2, h3⟩ := ih
        { st1 with globalOptions :=
            { st1.globalOptions with vectorCtor := CharPtr.to (t.drop 14) } }
        { st2 with globalOptions :=
            { st2.globalOptions with vectorCtor := CharPtr.to (t.drop 14) } }
      exact ⟨h1, Or.inr (hstored _ h2), h3⟩
    · simp only [optionLoop, u]
      obtain ⟨h1, h2, h3⟩ := ih
        { st1 with globalOptions :=
            { st1.globalOptions with vectorType := CharPtr.to (t.drop 14) } }
        { st2 with globalOptions :=
            { st2.globalOptions with vectorType := CharPtr.to (t.drop 14) } }
      exact ⟨h1, h2, Or.inr (hstored _ h3)⟩
    · simp only [optionLoop, u]
      exact ih _ _

theorem CharPtr.afterArgs_of (current before stored : CharPtr)
    (h : (current = before ∧ stored = CharPtr.null) ∨
      ∃ text, current = CharPtr.to text ∧ stored = CharPtr.to text) :
    (current = before ∧ CharPtr.afterArgs stored current = before) ∨
      ∃ text, current = CharPtr.to text ∧ CharPtr.afterArgs stored current = CharPtr.dangling := by
  rcases h with ⟨h1, h2⟩ | ⟨text, h1, h2⟩
  · left
    rw [h2, h1]
    exact ⟨rfl, rfl⟩
  · right
    refine ⟨text, h1, ?_⟩
    rw [h2]
    rfl

/-- What `exportCompile` leaves in the hooks of `globalOptions`: for each of the
three, either the `compileWebMain` call has left the hook as it found it, and
so it is after the return; or the call has stored a pointer into a token, a good
pointer for as long as the call lasts, and after the return, when `args` is
gone, the hook dangles. The three levels are those that `compileWebMain` has
left. -/
theorem exportCompile_hooks {Ast Bcb : Type} (luau : Luau Ast Bcb) (g : GlobalOptions)
    (input sourceCode : CStr) (args : List CStr) (result : Outcome)
    (hsplit : splitArgs input = some args)
    (h : exportCompile luau g input sourceCode = some result) :
    (((compileWebMain luau g args sourceCode).globalOptions.vectorLib = g.vectorLib ∧
          result.globalOptions.vectorLib = g.vectorLib) ∨
        ∃ text, (compileWebMain luau g args sourceCode).globalOptions.vectorLib =
            CharPtr.to text ∧ result.globalOptions.vectorLib = CharPtr.dangling) ∧
      (((compileWebMain luau g args sourceCode).globalOptions.vectorCtor = g.vectorCtor ∧
          result.globalOptions.vectorCtor = g.vectorCtor) ∨
        ∃ text, (compileWebMain luau g args sourceCode).globalOptions.vectorCtor =
            CharPtr.to text ∧ result.globalOptions.vectorCtor = CharPtr.dangling) ∧
      (((compileWebMain luau g args sourceCode).globalOptions.vectorType = g.vectorType ∧
          result.globalOptions.vectorType = g.vectorType) ∨
        ∃ text, (compileWebMain luau g args sourceCode).globalOptions.vectorType =
            CharPtr.to text ∧ result.globalOptions.vectorType = CharPtr.dangling) ∧
      result.globalOptions.optimizationLevel =
        (compileWebMain luau g args sourceCode).globalOptions.optimizationLevel ∧
      result.globalOptions.debugLevel =
        (compileWebMain luau g args sourceCode).globalOptions.debugLevel ∧
      result.globalOptions.typeInfoLevel =
        (compileWebMain luau g args sourceCode).globalOptions.typeInfoLevel := by
  rw [exportCompile, hsplit] at h
  simp only [Option.some.injEq] at h
  subst h
  obtain ⟨h1, h2, h3⟩ := optionLoop_hooks (args.drop 1) { globalOptions := g }
    { globalOptions := {} }
  have hread := (compileWebMain_reads_loop_state luau g args sourceCode).1
  refine ⟨?_, ?_, ?_, rfl, rfl, rfl⟩
  · refine CharPtr.afterArgs_of _ _ _ ?_
    rw [hread]
    exact h1
  · refine CharPtr.afterArgs_of _ _ _ ?_
    rw [hread]
    exact h2
  · refine CharPtr.afterArgs_of _ _ _ ?_
    rw [hread]
    exact h3

theorem charAt_append_cons (pre rest : List Char) (c : Char) :
    charAt (pre ++ c :: rest) pre.length = c := by
  unfold charAt
  rw [List.getD_eq_getElem?_getD, List.getElem?_append_right (le_refl _)]
  simp

theorem skipSpaces_spec (sp : List Char) :
    ∀ (pre rest : List Char) (fuel : Nat), (∀ c ∈ sp, c = ' ') →
      (∀ c ∈ rest.head?, c ≠ ' ') → sp.length < fuel →
      skipSpaces (pre ++ sp ++ rest) fuel pre.length = some (pre.length + sp.length) := by
  induction sp with
  | nil =>
    intro pre rest fuel _ hrest hfuel
    cases fuel with
    | zero => omega
    | succ f =>
      cases rest with
      | nil => simp [skipSpaces]
      | cons c r =>
        have hc : c ≠ ' ' := hrest c (by simp)
        simp [skipSpaces, charAt_append_cons, hc]
  | cons a sp ih =>
    intro pre rest fuel hsp hrest hfuel
    cases fuel with
    | zero => omega
    | succ f =>
      have ha : a = ' ' := hsp a (List.mem_cons_self _ _)
      subst ha
      have hin : pre ++ ' ' :: sp ++ rest = (pre ++ [' ']) ++ sp ++ rest := by simp
      have hstep : skipSpaces (pre ++ ' ' :: sp ++ rest) (f + 1) pre.length =
          skipSpaces (pre ++ ' ' :: sp ++ rest) f (pre.length + 1) := by
        have hch : charAt (pre ++ ' ' :: sp ++ rest) pre.length = ' ' := by
          have := charAt_append_cons pre (sp ++ rest) ' '
          simpa using this
        have hlt : pre.length < (pre ++ ' ' :: sp ++ rest).length := by
          simp only [List.length_append, List.length_cons]
          omega
        simp only [skipSpaces, hlt, hch, and_self, if_true]
      rw [hstep, hin]
      have := ih (pre ++ [' ']) rest f (fun c hc => hsp c (List.mem_cons_of_mem _ hc)) hrest
        (by simp at hfuel; omega)
      simp only [List.length_append, List.length_singleton] at this
      rw [this]
      simp only [List.length_cons]
      congr 1
      omega

theorem scanToken_spec (tok : List Char) :
    ∀ (pre rest : List Char) (fuel : Nat), ' ' ∉ tok →
      (∀ c ∈ rest.head?, c = ' ') → tok.length < fuel →
      scanToken (pre ++ tok ++ rest) fuel pre.length = some (pre.length + tok.length) := by
  induction tok with
  | nil =>
    intro pre rest fuel _ hrest hfuel
    cases fuel with
    | zero => omega
    | succ f =>
      cases rest with
      | nil => simp [scanToken]
      | cons c r =>
        have hc : c = ' ' := hrest c (by simp)
        simp [scanToken, charAt_append_cons, hc]
  | cons a tok ih =>
    intro pre rest fuel htok hrest hfuel
    cases fuel with
    | zero => omega
    | succ f =>
      have ha : a ≠ ' ' := fun e => htok (by simp [e])
      have hin : pre ++ a :: tok ++ rest = (pre ++ [a]) ++ tok ++ rest := by simp
      have hstep : scanToken (pre ++ a :: tok ++ rest) (f + 1) pre.length =
          scanToken (pre ++ a :: tok ++ rest) f (pre.length + 1) := by
        have hch : charAt (pre ++ a :: tok ++ rest) pre.length = a := by
          have := charAt_append_cons pre (tok ++ rest) a
          simpa using this
        have hlt : pre.length < (pre ++ a :: tok ++ rest).length := by
          simp only [List.length_append, List.length_cons]
          omega
        simp only [scanToken, hlt, hch, ne_eq, ha, not_false_eq_true, and_self, if_true]
      rw [hstep, hin]
      have := ih (pre ++ [a]) rest f (fun hm => htok (List.mem_cons_of_mem _ hm)) hrest
        (by simp at hfuel; omega)
      simp only [List.length_append, List.length_singleton] at this
      rw [this]
      simp only [List.length_cons]
      congr 1
      omega

theorem substr_middle (pre tok rest : List Char) :
    substr (pre ++ tok ++ rest) pre.length (pre.length + tok.length - pre.length) = tok := by
  simp [substr, List.append_assoc]

theorem joinArgs_cons (t : CStr) (ts : List CStr) :
    joinArgs (t :: ts) = t ++ (if ts = [] then [] else ' ' :: joinArgs ts) := by
  cases ts <;> simp [joinArgs]

theorem splitLoop_joinArgs (toks : List CStr) :
    (∀ t ∈ toks, t ≠ [] ∧ ' ' ∉ t) →
    ∀ (pre sp : List Char) (args : List CStr) (fuel : Nat), (∀ c ∈ sp, c = ' ') →
      toks.length < fuel →
      splitLoop (pre ++ sp ++ joinArgs toks) fuel pre.length pre.length args =
        some (args ++ toks) := by
  induction toks with
  | nil =>
    intro _ pre sp args fuel hsp hfuel
    cases fuel with
    | zero => omega
    | succ f =>
      have hskip := skipSpaces_spec sp pre [] ((pre ++ sp ++ []).length + 1) hsp (by simp)
        (by simp only [List.length_append, List.length_nil]; omega)
      simp only [joinArgs, splitLoop, hskip]
      by_cases hlt : pre.length < (pre ++ sp ++ []).length
      · simp [hlt]
      · simp [hlt]
  | cons t ts ih =>
    intro htoks pre sp args fuel hsp hfuel
    cases fuel with
    | zero => omega
    | succ f =>
      obtain ⟨htne, htsp⟩ := htoks t (List.mem_cons_self _ _)
      obtain ⟨a, t1, rfl⟩ := List.exists_cons_of_ne_nil htne
      have ha : a ≠ ' ' := fun e => htsp (by simp [e])
      rw [joinArgs_cons]
      generalize hrest : (if ts = [] then [] else ' ' :: joinArgs ts) = rest
      have hrest_head : ∀ c ∈ rest.head?, c = ' ' := by
        subst hrest
        split_ifs <;> simp
      have hinput : pre ++ sp ++ (a :: t1 ++ rest) = (pre ++ sp) ++ (a :: t1) ++ rest := by
        simp
      have hskip := skipSpaces_spec sp pre (a :: t1 ++ rest)
        ((pre ++ sp ++ (a :: t1 ++ rest)).length + 1) hsp (by simpa using ha)
        (by simp only [List.length_append, List.length_cons]; omega)
      have hscan : scanToken (pre ++ sp ++ (a :: t1 ++ rest))
          ((pre ++ sp ++ (a :: t1 ++ rest)).length + 1) (pre.length + sp.length) =
          some (pre.length + sp.length + (a :: t1).length) := by
        have := scanToken_spec (a :: t1) (pre ++ sp) rest
          ((pre ++ sp ++ (a :: t1 ++ rest)).length + 1) htsp hrest_head
          (by simp only [List.length_append, List.length_cons]; omega)
        rw [← hinput] at this
        simpa only [List.length_append] using this
      have hsub := substr_middle (pre ++ sp) (a :: t1) rest
      rw [← hinput] at hsub
      have hlt : pre.length < (pre ++ sp ++ (a :: t1 ++ rest)).length := by
        simp only [List.length_append, List.length_cons]
        omega
      have hlt2 : ¬ (pre.length + sp.length ≥ (pre ++ sp ++ (a :: t1 ++ rest)).length) := by
        simp only [List.length_append, List.length_cons]
        omega
      simp only [List.length_append] at hsub
      simp only [splitLoop, hlt, if_true, hskip, hlt2, if_false, hscan, hsub]
      have hnext := ih (fun u hu => htoks u (List.mem_cons_of_mem _ hu))
        (pre ++ sp ++ (a :: t1)) (if ts = [] then [] else [' ']) (args ++ [a :: t1]) f
        (by split_ifs <;> simp) (by simp at hfuel; omega)
      have hshape : pre ++ sp ++ (a :: t1) ++ (if ts = [] then [] else [' ']) ++ joinArgs ts =
          pre ++ sp ++ (a :: t1 ++ rest) := by
        subst hrest
        by_cases hts : ts = []
        · subst hts; simp [joinArgs]
        · simp [hts]
      rw [hshape] at hnext
      simp only [List.length_append] at hnext
      rw [hnext]
      simp

theorem length_le_joinArgs (toks : List CStr) (h : ∀ t ∈ toks, t ≠ [] ∧ ' ' ∉ t) :
    toks.length ≤ (joinArgs toks).length := by
  induction toks with
  | nil => simp [joinArgs]
  | cons t ts ih =>
    have hne := (h t (List.mem_cons_self _ _)).1
    have hpos : 0 < t.length := List.length_pos.mpr hne
    have := ih (fun u hu => h u (List.mem_cons_of_mem _ hu))
    rw [joinArgs_cons]
    by_cases hts : ts = []
    · subst hts; simp; omega
    · simp [hts]; omega

/-- C10: `splitArgs` undoes joining with single spaces: for every list of
tokens that are non-empty and contain no space, `splitArgs` applied to the
tokens joined with single spaces returns exactly that list, in the same
order. -/
theorem splitArgs_joinArgs (toks : List CStr) (h : ∀ t ∈ toks, t ≠ [] ∧ ' ' ∉ t) :
    splitArgs (joinArgs toks) = some toks := by
  have hlen := length_le_joinArgs toks h
  have := splitLoop_joinArgs toks h [] [] [] ((joinArgs toks).length + 1) (by simp) (by omega)
  simpa [splitArgs] using this

theorem splitArgs_joinArgs_witness :
    splitArgs (joinArgs ["-O2".toList, "--binary".toList, "-g0".toList]) =
      some ["-O2".toList, "--binary".toList, "-g0".toList] :=
  splitArgs_joinArgs ["-O2".toList, "--binary".toList, "-g0".toList] (by decide)

/-- C9: `exportCompile` hands the vector of `splitArgs` to `compileWebMain` as
`argv`, and the option loop of `compileWebMain` starts at `argv[1]`, so the
first token of the argument string is never examined. On the argument strings
`--frobnicate` and `-O3` the call returns the result of compiling the source
with no option at all, and the parser is called, where the claim asks for
the configuration error of the token. -/
theorem exportCompile_skips_first_token {Ast Bcb : Type} (luau : Luau Ast Bcb)
    (g : GlobalOptions) (sourceCode : CStr) :
    exportCompile luau g "--frobnicate".toList sourceCode =
        some { compileWithOptions luau { globalOptions := g } sourceCode with
          output := strdup (compileWithOptions luau { globalOptions := g } sourceCode).output } ∧
      exportCompile luau g "-O3".toList sourceCode =
        some { compileWithOptions luau { globalOptions := g } sourceCode with
          output := strdup (compileWithOptions luau { globalOptions := g } sourceCode).output } ∧
      (compileWithOptions luau { globalOptions := g } sourceCode).calls.head? =
        some (Call.parse sourceCode) ∧
      (compileWebMain luau g ["luau-compile".toList, "--frobnicate".toList] sourceCode).output =
        "Error: Unrecognized option '--frobnicate'.".toList := by
  refine ⟨by rfl, by rfl, ?_, by rfl⟩
  exact compileWithOptions_parses_first luau _ sourceCode (by simp)

/-! ### The paths of the pipeline -/

theorem foldl_append_flatten {α : Type} (f : α → List Char) (es : List α) :
    ∀ init : List Char,
      es.foldl (fun err error => err ++ f error) init = init ++ (es.map f).flatten := by
  induction es with
  | nil => intro init; simp
  | cons e es ih => intro init; simp [ih]

theorem compileWithOptions_syntax_errors {Ast Bcb : Type} (luau : Luau Ast Bcb)
    (st : OptionState) (sourceCode : CStr)
    (h : ¬ (st.bytecodeSummary = true ∧ st.recordStats ≠ RecordStats.Function))
    (herr : (luau.parse sourceCode).errors ≠ []) :
    compileWithOptions luau st sourceCode =
      { output := ((luau.parse sourceCode).errors.map syntaxErrorLine).flatten
        globalOptions := st.globalOptions
        stats := {}
        calls := [Call.parse sourceCode] } := by
  unfold compileWithOptions
  rw [if_neg h]
  have h2 : ¬ (luau.parse sourceCode).errors.isEmpty = true := by
    simpa [List.isEmpty_iff] using herr
  simp only [h2, not_false_eq_true, if_true]
  rw [foldl_append_flatten]
  rfl

theorem compileWithOptions_compile_error {Ast Bcb : Type} (luau : Luau Ast Bcb)
    (st : OptionState) (sourceCode : CStr) (e : CompileError)
    (h : ¬ (st.bytecodeSummary = true ∧ st.recordStats ≠ RecordStats.Function))
    (herr : (luau.parse sourceCode).errors = [])
    (hc : luau.compileOrThrow (configureBuilder luau st.compileFormat sourceCode)
      (luau.parse sourceCode) (copts st.globalOptions) = Except.error e) :
    compileWithOptions luau st sourceCode =
      { output := compileErrorLine e
        globalOptions := st.globalOptions
        stats := { lines := sizeAdd 0 (luau.parse sourceCode).lines }
        calls := [Call.parse sourceCode, Call.compileOrThrow (copts st.globalOptions)] } := by
  unfold compileWithOptions
  rw [if_neg h]
  have h2 : (luau.parse sourceCode).errors.isEmpty = true := by
    simp [List.isEmpty_iff, herr]
  simp only [h2, not_true_eq_false, if_false, hc]

theorem compileWithOptions_compiled {Ast Bcb : Type} (luau : Luau Ast Bcb)
    (st : OptionState) (sourceCode : CStr) (bcb1 : Bcb)
    (h : ¬ (st.bytecodeSummary = true ∧ st.recordStats ≠ RecordStats.Function))
    (herr : (luau.parse sourceCode).errors = [])
    (hc : luau.compileOrThrow (configureBuilder luau st.compileFormat sourceCode)
      (luau.parse sourceCode) (copts st.globalOptions) = Except.ok bcb1) :
    compileWithOptions luau st sourceCode =
      { output := formatOutput luau st.compileFormat bcb1
        globalOptions := st.globalOptions
        stats :=
          { lines := sizeAdd 0 (luau.parse sourceCode).lines
            bytecode := sizeAdd 0 (luau.getBytecode bcb1).length
            bytecodeInstructionCount := luau.getTotalInstructionCount bcb1 }
        calls := [Call.parse sourceCode, Call.compileOrThrow (copts st.globalOptions)] } := by
  unfold compileWithOptions
  rw [if_neg h]
  have h2 : (luau.parse sourceCode).errors.isEmpty = true := by
    simp [List.isEmpty_iff, herr]
  simp only [h2, not_true_eq_false, if_false, hc]

/-! ### Decimal numerals -/

theorem digitChar_eq (d : Nat) (h : d < 10) : digitChar d = Nat.digitChar d := by
  interval_cases d <;> rfl

theorem formatNatAux_eq_toDigitsCore (fuel : Nat) :
    ∀ (n : Nat) (acc : List Char), formatNatAux fuel n acc = Nat.toDigitsCore 10 fuel n acc := by
  induction fuel with
  | zero => intro n acc; rfl
  | succ f ih =>
    intro n acc
    unfold formatNatAux Nat.toDigitsCore
    by_cases h10 : n < 10
    · have hz : n / 10 = 0 := Nat.div_eq_of_lt h10
      have hm : n % 10 = n := Nat.mod_eq_of_lt h10
      simp only [h10, if_true, hz, hm, digitChar_eq n h10]
    · have hz : ¬ n / 10 = 0 := by omega
      simp only [h10, if_false, hz, ih, digitChar_eq (n % 10) (Nat.mod_lt _ (by decide))]

theorem formatNat_eq_repr (n : Nat) : formatNat n = (Nat.repr n).toList := by
  unfold formatNat
  rw [formatNatAux_eq_toDigitsCore]
  rfl

theorem formatNatAux_digits (fuel : Nat) :
    ∀ (n : Nat) (acc : List Char), ∀ c ∈ formatNatAux fuel n acc, isdigit c = true ∨ c ∈ acc := by
  induction fuel with
  | zero => intro n acc c hc; exact Or.inr hc
  | succ f ih =>
    intro n acc c hc
    unfold formatNatAux at hc
    by_cases h10 : n < 10
    · rw [if_pos h10] at hc
      rcases List.mem_cons.mp hc with rfl | hc
      · exact Or.inl (digitChar_spec n h10).1
      · exact Or.inr hc
    · rw [if_neg h10] at hc
      rcases ih _ _ c hc with hd | hm
      · exact Or.inl hd
      · rcases List.mem_cons.mp hm with rfl | hm
        · exact Or.inl (digitChar_spec (n % 10) (Nat.mod_lt _ (by decide))).1
        · exact Or.inr hm

theorem formatNatAux_length (fuel : Nat) :
    ∀ (n k : Nat) (acc : List Char), n < 10 ^ (k + 1) →
      (formatNatAux fuel n acc).length ≤ k + 1 + acc.length := by
  induction fuel with
  | zero => intro n k acc _; simp [formatNatAux]
  | succ f ih =>
    intro n k acc hn
    unfold formatNatAux
    by_cases h10 : n < 10
    · rw [if_pos h10]
      simp only [List.length_cons]
      omega
    · rw [if_neg h10]
      cases k with
      | zero => simp at hn; omega
      | succ k =>
        have hdiv : n / 10 < 10 ^ (k + 1) := by
          rw [Nat.div_lt_iff_lt_mul (by decide)]
          rw [pow_succ] at hn
          exact hn
        have := ih (n / 10) k (digitChar (n % 10) :: acc) hdiv
        simp only [List.length_cons] at this
        omega

theorem formatInt_no_newline (x : Int) : '\n' ∉ formatInt x := by
  intro hmem
  unfold formatInt formatNat at hmem
  have key : ∀ n : Nat, '\n' ∉ formatNatAux (n + 1) n [] := by
    intro n hn
    rcases formatNatAux_digits (n + 1) n [] '\n' hn with hd | hm
    · revert hd; decide
    · simp at hm
  split_ifs at hmem
  · rcases List.mem_cons.mp hmem with h | h
    · revert h; decide
    · exact key _ h
  · exact key _ hmem

theorem wrapInt_range (x : Int) : -2147483648 ≤ wrapInt x ∧ wrapInt x ≤ 2147483647 := by
  unfold wrapInt
  omega

theorem formatInt_length (x : Int) (hlo : -2147483648 ≤ x) (hhi : x ≤ 2147483647) :
    (formatInt x).length ≤ 11 := by
  have hn : x.natAbs < 10 ^ (9 + 1) := by
    have : x.natAbs ≤ 2147483648 := by omega
    have h10 : (2147483648 : Nat) < 10 ^ (9 + 1) := by decide
    omega
  have := formatNatAux_length (x.natAbs + 1) x.natAbs 9 [] hn
  unfold formatInt formatNat
  split_ifs
  · simp only [List.length_cons, List.length_nil] at this ⊢
    omega
  · simp only [List.length_nil] at this
    omega

theorem oneBased_length (p : Nat) : (formatInt (oneBased p)).length ≤ 11 :=
  formatInt_length _ (wrapInt_range _).1 (wrapInt_range _).2

theorem oneBased_small (p : Nat) (h : p < 2147483647) : oneBased p = ((p + 1 : Nat) : Int) := by
  unfold oneBased wrapInt
  omega

theorem formatInt_natCast (n : Nat) : formatInt (n : Int) = (Nat.repr n).toList := by
  unfold formatInt
  have : ¬ ((n : Int) < 0) := by omega
  rw [if_neg this, Int.natAbs_ofNat, formatNat_eq_repr]

/-! ### Rendering of diagnostics -/

theorem syntaxErrorLine_eq (error : ParseError) :
    syntaxErrorLine error = (syntaxErrorText error).take 255 := rfl

theorem compileErrorLine_eq (e : CompileError) :
    compileErrorLine e = (compileErrorText e).take 255 := rfl

theorem syntaxErrorText_length (error : ParseError) :
    (syntaxErrorText error).length ≤ 54 + error.message.length := by
  have h1 := oneBased_length error.location.begin.line
  have h2 := oneBased_length error.location.begin.column
  have e1 : "SyntaxError at line ".toList.length = 20 := by decide
  have e2 : ", column ".toList.length = 9 := by decide
  have e3 : ": ".toList.length = 2 := by decide
  have e4 : "\n".toList.length = 1 := by decide
  simp only [syntaxErrorText, List.length_append, e1, e2, e3, e4]
  omega

theorem compileErrorText_length (e : CompileError) :
    (compileErrorText e).length ≤ 55 + e.message.length := by
  have h1 := oneBased_length e.location.begin.line
  have h2 := oneBased_length e.location.begin.column
  have e1 : "CompileError at line ".toList.length = 21 := by decide
  have e2 : ", column ".toList.length = 9 := by decide
  have e3 : ": ".toList.length = 2 := by decide
  have e4 : "\n".toList.length = 1 := by decide
  simp only [compileErrorText, List.length_append, e1, e2, e3, e4]
  omega

theorem syntaxErrorLine_short (error : ParseError) (h : error.message.length ≤ 201) :
    syntaxErrorLine error = syntaxErrorText error := by
  rw [syntaxErrorLine_eq]
  exact List.take_of_length_le (by have := syntaxErrorText_length error; omega)

theorem syntaxErrorText_count_newline (error : ParseError) (h : '\n' ∉ error.message) :
    (syntaxErrorText error).count '\n' = 1 := by
  have c1 : "SyntaxError at line ".toList.count '\n' = 0 := by decide
  have c2 : ", column ".toList.count '\n' = 0 := by decide
  have c3 : ": ".toList.count '\n' = 0 := by decide
  have c4 : "\n".toList.count '\n' = 1 := by decide
  have c5 := List.count_eq_zero_of_not_mem (formatInt_no_newline (oneBased error.location.begin.line))
  have c6 := List.count_eq_zero_of_not_mem
    (formatInt_no_newline (oneBased error.location.begin.column))
  have c7 := List.count_eq_zero_of_not_mem h
  simp only [syntaxErrorText, List.count_append, c1, c2, c3, c4, c5, c6, c7]

theorem sum_map_const_one {α : Type} (f : α → Nat) (es : List α) (h : ∀ e ∈ es, f e = 1) :
    (es.map f).sum = es.length := by
  induction es with
  | nil => rfl
  | cons e es ih =>
    simp only [List.map_cons, List.sum_cons, List.length_cons]
    rw [h e (List.mem_cons_self _ _), ih (fun x hx => h x (List.mem_cons_of_mem _ hx))]
    omega

/-- C11, as stated, fails: the parser returns one syntax error whose message,
300 characters without a newline, is longer than the buffer of the rendering;
the string returned is the first 255 characters of the line, it holds no
newline at all (no complete line, where the claim has exactly one), and the
compiler is not called. -/
theorem long_syntax_error_is_cut :
    '\n' ∉ List.replicate 300 'x' ∧
      (compileWebMain
          (syntaxErrorLuau [{ location := { begin := { line := 0, column := 0 } }
                              message := List.replicate 300 'x' }])
          {} ["luau-compile".toList] []).output =
        "SyntaxError at line 1, column 1: ".toList ++ List.replicate 222 'x' ∧
      (compileWebMain
          (syntaxErrorLuau [{ location := { begin := { line := 0, column := 0 } }
                              message := List.replicate 300 'x' }])
          {} ["luau-compile".toList] []).output.length = 255 ∧
      (compileWebMain
          (syntaxErrorLuau [{ location := { begin := { line := 0, column := 0 } }
                              message := List.replicate 300 'x' }])
          {} ["luau-compile".toList] []).output.count '\n' = 0 ∧
      (compileWebMain
          (syntaxErrorLuau [{ location := { begin := { line := 0, column := 0 } }
                              message := List.replicate 300 'x' }])
          {} ["luau-compile".toList] []).calls = [Call.parse []] := by
  have hout : (compileWebMain
      (syntaxErrorLuau [{ location := { begin := { line := 0, column := 0 } }
                          message := List.replicate 300 'x' }])
      {} ["luau-compile".toList] []).output =
      ("SyntaxError at line 1, column 1: ".toList ++
        (List.replicate 300 'x' ++ "\n".toList)).take 255 := rfl
  have hcut : ("SyntaxError at line 1, column 1: ".toList ++
      (List.replicate 300 'x' ++ "\n".toList)).take 255 =
      "SyntaxError at line 1, column 1: ".toList ++ List.replicate 222 'x' := by
    have hlen : "SyntaxError at line 1, column 1: ".toList.length = 33 := by decide
    rw [List.take_append_eq_append_take, List.take_append_eq_append_take, hlen,
      List.take_replicate, List.length_replicate,
      List.take_of_length_le (by rw [hlen]; decide)]
    simp
  rw [hout, hcut]
  refine ⟨fun h => absurd (List.eq_of_mem_replicate h) (by decide), rfl, ?_, ?_, rfl⟩
  · have hlen : "SyntaxError at line 1, column 1: ".toList.length = 33 := by decide
    rw [List.length_append, hlen, List.length_replicate]
  · have hc : "SyntaxError at line 1, column 1: ".toList.count '\n' = 0 := by decide
    rw [List.count_append, hc, List.count_replicate]
    simp

/-- C11 (amended): for every non-empty list of syntax errors returned by the
parser, the string `compileWebMain` returns is the concatenation, in parser
order, of one piece per error, the rendering of that error cut to the 255
characters that fit its buffer, and the compiler is never invoked; when every
message has at most 201 characters and contains no newline, each piece is the
full newline-terminated line of its error and the string contains exactly as
many lines as there are errors. -/
theorem syntax_errors_in_order {Ast Bcb : Type} (luau : Luau Ast Bcb) (g : GlobalOptions)
    (prog : CStr) (toks : List CStr) (sourceCode : CStr) (st : OptionState)
    (hscan : optionLoop toks { globalOptions := g } = (st, none))
    (hinv : ¬ (st.bytecodeSummary = true ∧ st.recordStats ≠ RecordStats.Function))
    (hne : (luau.parse sourceCode).errors ≠ []) :
    (compileWebMain luau g (prog :: toks) sourceCode).output =
        ((luau.parse sourceCode).errors.map
          (fun error => (syntaxErrorText error).take 255)).flatten ∧
      (compileWebMain luau g (prog :: toks) sourceCode).calls = [Call.parse sourceCode] ∧
      ((∀ error ∈ (luau.parse sourceCode).errors,
          error.message.length ≤ 201 ∧ '\n' ∉ error.message) →
        (compileWebMain luau g (prog :: toks) sourceCode).output =
            ((luau.parse sourceCode).errors.map syntaxErrorText).flatten ∧
          (compileWebMain luau g (prog :: toks) sourceCode).output.count '\n' =
            (luau.parse sourceCode).errors.length) := by
  rw [compileWebMain_scanned luau g prog toks st sourceCode hscan,
    compileWithOptions_syntax_errors luau st sourceCode hinv hne]
  refine ⟨rfl, rfl, fun hshort => ?_⟩
  have hmap : (luau.parse sourceCode).errors.map syntaxErrorLine =
      (luau.parse sourceCode).errors.map syntaxErrorText :=
    List.map_congr_left (fun error he => syntaxErrorLine_short error (hshort error he).1)
  show ((luau.parse sourceCode).errors.map syntaxErrorLine).flatten = _ ∧
    (((luau.parse sourceCode).errors.map syntaxErrorLine).flatten).count '\n' = _
  rw [hmap]
  refine ⟨rfl, ?_⟩
  rw [List.count_flatten, List.map_map]
  have hone : ∀ error ∈ (luau.parse sourceCode).errors,
      (List.count '\n' ∘ syntaxErrorText) error = 1 := by
    intro error he
    rw [Function.comp_apply]
    exact syntaxErrorText_count_newline error (hshort error he).2
  exact sum_map_const_one (List.count '\n' ∘ syntaxErrorText) _ hone

theorem syntax_errors_in_order_witness :
    (compileWebMain
          (syntaxErrorLuau
            [{ location := { begin := { line := 0, column := 4 } }, message := "a".toList },
              { location := { begin := { line := 2, column := 0 } }, message := "b".toList }])
          {} ("luau-compile".toList :: ["--binary".toList]) []).output.count '\n' = 2 :=
  ((syntax_errors_in_order
      (syntaxErrorLuau
        [{ location := { begin := { line := 0, column := 4 } }, message := "a".toList },
          { location := { begin := { line := 2, column := 0 } }, message := "b".toList }])
      {} "luau-compile".toList ["--binary".toList] []
      { globalOptions := {}, compileFormat := CompileFormat.Binary } (by rfl) (by decide)
      (by decide)).2.2 (by decide)).2

theorem oneBased_repr (p : Nat) (h : p < 2147483647) :
    formatInt (oneBased p) = (Nat.repr (p + 1)).toList := by
  rw [oneBased_small p h, formatInt_natCast]

theorem repr_length_small (p : Nat) (h : p < 2147483647) :
    (Nat.repr (p + 1)).toList.length ≤ 11 := by
  rw [← oneBased_repr p h]
  exact oneBased_length p

theorem prefix_take_append (header rest : List Char) (n : Nat) (h : header.length ≤ n) :
    header <+: (header ++ rest).take n := by
  rw [List.take_append_eq_append_take, List.take_of_length_le h]
  exact List.prefix_append _ _

theorem syntaxErrorLine_repr (l c : Nat) (hl : l < 2147483647) (hc : c < 2147483647)
    (message : CStr) :
    syntaxErrorLine { location := { begin := { line := l, column := c } }, message := message } =
      ("SyntaxError at line ".toList ++ (Nat.repr (l + 1)).toList ++ ", column ".toList ++
        (Nat.repr (c + 1)).toList ++ ": ".toList ++ message ++ "\n".toList).take 255 := by
  rw [syntaxErrorLine_eq]
  simp only [syntaxErrorText, oneBased_repr l hl, oneBased_repr c hc]

theorem compileErrorLine_repr (l c : Nat) (hl : l < 2147483647) (hc : c < 2147483647)
    (message : CStr) :
    compileErrorLine { location := { begin := { line := l, column := c } }, message := message } =
      ("CompileError at line ".toList ++ (Nat.repr (l + 1)).toList ++ ", column ".toList ++
        (Nat.repr (c + 1)).toList ++ ": ".toList ++ message ++ "\n".toList).take 255 := by
  rw [compileErrorLine_eq]
  simp only [compileErrorText, oneBased_repr l hl, oneBased_repr c hc]

/-- C12: source positions are incremented exactly once at render time. For a
diagnostic stored at the 0-based position `(l, c)` with `l, c < 2^31 - 1`, the
text of `report`, the piece that `compileWebMain` renders for a syntax error
and the string it returns for a compile error carry the decimal numerals of
`l + 1` and `c + 1` as line and column, and the cut to the buffer never reaches
them: the head of the rendering up to the message is always whole. -/
theorem positions_rendered_one_based (l c : Nat) (hl : l < 2147483647)
    (hc : c < 2147483647) (message : CStr) :
    (∀ name type : CStr,
      report name { begin := { line := l, column := c } } type message =
        name ++ "(".toList ++ (Nat.repr (l + 1)).toList ++ ",".toList ++
          (Nat.repr (c + 1)).toList ++ "): ".toList ++ type ++ ": ".toList ++ message ++
          "\n".toList) ∧
    (syntaxErrorLine
        { location := { begin := { line := l, column := c } }, message := message } =
      ("SyntaxError at line ".toList ++ (Nat.repr (l + 1)).toList ++ ", column ".toList ++
        (Nat.repr (c + 1)).toList ++ ": ".toList ++ message ++ "\n".toList).take 255) ∧
    ("SyntaxError at line ".toList ++ (Nat.repr (l + 1)).toList ++ ", column ".toList ++
        (Nat.repr (c + 1)).toList ++ ": ".toList <+:
      syntaxErrorLine
        { location := { begin := { line := l, column := c } }, message := message }) ∧
    (∀ {Ast Bcb : Type} (luau : Luau Ast Bcb) (g : GlobalOptions) (prog : CStr)
        (toks : List CStr) (sourceCode : CStr) (st : OptionState),
      optionLoop toks { globalOptions := g } = (st, none) →
      ¬ (st.bytecodeSummary = true ∧ st.recordStats ≠ RecordStats.Function) →
      (luau.parse sourceCode).errors = [] →
      luau.compileOrThrow (configureBuilder luau st.compileFormat sourceCode)
          (luau.parse sourceCode) (copts st.globalOptions) =
        Except.error
          { location := { begin := { line := l, column := c } }, message := message } →
      (compileWebMain luau g (prog :: toks) sourceCode).output =
          ("CompileError at line ".toList ++ (Nat.repr (l + 1)).toList ++
            ", column ".toList ++ (Nat.repr (c + 1)).toList ++ ": ".toList ++ message ++
            "\n".toList).take 255 ∧
        ("CompileError at line ".toList ++ (Nat.repr (l + 1)).toList ++ ", column ".toList ++
            (Nat.repr (c + 1)).toList ++ ": ".toList <+:
          (compileWebMain luau g (prog :: toks) sourceCode).output)) ∧
    (∀ {Ast Bcb : Type} (luau : Luau Ast Bcb) (g : GlobalOptions) (prog : CStr)
        (toks : List CStr) (sourceCode : CStr) (st : OptionState) (before after : List ParseError),
      optionLoop toks { globalOptions := g } = (st, none) →
      ¬ (st.bytecodeSummary = true ∧ st.recordStats ≠ RecordStats.Function) →
      (luau.parse sourceCode).errors =
        before ++
          { location := { begin := { line := l, column := c } }, message := message } ::
            after →
      (compileWebMain luau g (prog :: toks) sourceCode).output =
        (before.map syntaxErrorLine).flatten ++
          ("SyntaxError at line ".toList ++ (Nat.repr (l + 1)).toList ++ ", column ".toList ++
            (Nat.repr (c + 1)).toList ++ ": ".toList ++ message ++ "\n".toList).take 255 ++
          (after.map syntaxErrorLine).flatten) := by
  have hl11 := repr_length_small l hl
  have hc11 := repr_length_small c hc
  have k1 : "SyntaxError at line ".toList.length = 20 := by decide
  have k1c : "CompileError at line ".toList.length = 21 := by decide
  have k2 : ", column ".toList.length = 9 := by decide
  have k3 : ": ".toList.length = 2 := by decide
  have hsyn := syntaxErrorLine_repr l c hl hc message
  have hcmp := compileErrorLine_repr l c hl hc message
  refine ⟨?_, hsyn, ?_, ?_, ?_⟩
  · intro name type
    simp only [report, oneBased_repr l hl, oneBased_repr c hc]
  · rw [hsyn]
    have hassoc : "SyntaxError at line ".toList ++ (Nat.repr (l + 1)).toList ++
        ", column ".toList ++ (Nat.repr (c + 1)).toList ++ ": ".toList ++ message ++
        "\n".toList =
        ("SyntaxError at line ".toList ++ (Nat.repr (l + 1)).toList ++ ", column ".toList ++
          (Nat.repr (c + 1)).toList ++ ": ".toList) ++ (message ++ "\n".toList) := by
      simp only [List.append_assoc]
    rw [hassoc]
    apply prefix_take_append
    simp only [List.length_append, k1, k2, k3]
    omega
  · intro Ast Bcb luau g prog toks sourceCode st hscan hinv herr hthrow
    rw [compileWebMain_scanned luau g prog toks st sourceCode hscan,
      compileWithOptions_compile_error luau st sourceCode _ hinv herr hthrow]
    refine ⟨hcmp, ?_⟩
    show _ <+: compileErrorLine _
    rw [hcmp]
    have hassoc : "CompileError at line ".toList ++ (Nat.repr (l + 1)).toList ++
        ", column ".toList ++ (Nat.repr (c + 1)).toList ++ ": ".toList ++ message ++
        "\n".toList =
        ("CompileError at line ".toList ++ (Nat.repr (l + 1)).toList ++ ", column ".toList ++
          (Nat.repr (c + 1)).toList ++ ": ".toList) ++ (message ++ "\n".toList) := by
      simp only [List.append_assoc]
    rw [hassoc]
    apply prefix_take_append
    simp only [List.length_append, k1c, k2, k3]
    omega
  · intro Ast Bcb luau g prog toks sourceCode st before after hscan hinv herr
    have hne : (luau.parse sourceCode).errors ≠ [] := by
      rw [herr]
      simp
    rw [compileWebMain_scanned luau g prog toks st sourceCode hscan,
      compileWithOptions_syntax_errors luau st sourceCode hinv hne]
    show ((luau.parse sourceCode).errors.map syntaxErrorLine).flatten = _
    rw [herr, List.map_append, List.map_cons, List.flatten_append, List.flatten_cons, hsyn]
    simp only [List.append_assoc]

theorem positions_rendered_one_based_witness :
    syntaxErrorLine
        { location := { begin := { line := 0, column := 4 } }, message := "oops".toList } =
      ("SyntaxError at line ".toList ++ (Nat.repr (0 + 1)).toList ++ ", column ".toList ++
        (Nat.repr (4 + 1)).toList ++ ": ".toList ++ "oops".toList ++ "\n".toList).take 255 :=
  (positions_rendered_one_based 0 4 (by decide) (by decide) "oops".toList).2.1

theorem compileErrorLine_short (e : CompileError) (h : e.message.length ≤ 200) :
    compileErrorLine e = compileErrorText e := by
  rw [compileErrorLine_eq]
  exact List.take_of_length_le (by have := compileErrorText_length e; omega)

/-- C13, as stated, fails: for a compile error at position `(0, 0)` with the
message `x`, `compileWebMain` returns `CompileError at line 1, column 1: x`
and a newline, which for no unit name is the text
`<unit-name>(1,1): CompileError: x` of `report`; likewise a syntax error is
returned as `SyntaxError at line 1, column 1: x`. -/
theorem driver_form_differs_from_report :
    (compileWebMain
        (compileErrorLuau { location := { begin := { line := 0, column := 0 } }
                            message := "x".toList })
        {} ["luau-compile".toList] []).output =
        "CompileError at line 1, column 1: x\n".toList ∧
      (∀ name : CStr,
        (compileWebMain
          (compileErrorLuau { location := { begin := { line := 0, column := 0 } }
                              message := "x".toList })
          {} ["luau-compile".toList] []).output ≠
          reportError.ofCompileError name
            { location := { begin := { line := 0, column := 0 } }, message := "x".toList }) ∧
      reportError.ofCompileError "webinput".toList
          { location := { begin := { line := 0, column := 0 } }, message := "x".toList } =
        "webinput(1,1): CompileError: x\n".toList ∧
      (compileWebMain
        (syntaxErrorLuau [{ location := { begin := { line := 0, column := 0 } }
                            message := "x".toList }])
        {} ["luau-compile".toList] []).output =
        "SyntaxError at line 1, column 1: x\n".toList := by
  refine ⟨by rfl, ?_, by rfl, by rfl⟩
  intro name heq
  have hout : (compileWebMain
      (compileErrorLuau { location := { begin := { line := 0, column := 0 } }
                          message := "x".toList })
      {} ["luau-compile".toList] []).output =
      "CompileError at line 1, column 1: x\n".toList := by rfl
  rw [hout] at heq
  have hmem : '(' ∈ reportError.ofCompileError name
      { location := { begin := { line := 0, column := 0 } }, message := "x".toList } := by
    simp [reportError.ofCompileError, report]
  rw [← heq] at hmem
  revert hmem
  decide

/-- C13 (amended): every diagnostic that `compileWebMain` returns is rendered
in the form of the driver itself, without a unit name: a compile error makes
it return `CompileError at line <line>, column <column>: <message>` and a
newline, and each syntax error is rendered as
`SyntaxError at line <line>, column <column>: <message>` and a newline, each
cut to the 255 characters of its buffer (a compile-error message of at most
200 characters is returned whole). The form
`<unit-name>(<line>,<column>): <Kind>: <message>` is the text of `report`,
which `compileWebMain` does not produce. -/
theorem diagnostics_in_driver_form {Ast Bcb : Type} (luau : Luau Ast Bcb) (g : GlobalOptions)
    (prog : CStr) (toks : List CStr) (sourceCode : CStr) (st : OptionState)
    (hscan : optionLoop toks { globalOptions := g } = (st, none))
    (hinv : ¬ (st.bytecodeSummary = true ∧ st.recordStats ≠ RecordStats.Function)) :
    (∀ e : CompileError,
      (luau.parse sourceCode).errors = [] →
      luau.compileOrThrow (configureBuilder luau st.compileFormat sourceCode)
          (luau.parse sourceCode) (copts st.globalOptions) = Except.error e →
      (compileWebMain luau g (prog :: toks) sourceCode).output =
          ("CompileError at line ".toList ++ formatInt (oneBased e.location.begin.line) ++
            ", column ".toList ++ formatInt (oneBased e.location.begin.column) ++
            ": ".toList ++ e.message ++ "\n".toList).take 255 ∧
        (e.message.length ≤ 200 →
          (compileWebMain luau g (prog :: toks) sourceCode).output =
            "CompileError at line ".toList ++ formatInt (oneBased e.location.begin.line) ++
              ", column ".toList ++ formatInt (oneBased e.location.begin.column) ++
              ": ".toList ++ e.message ++ "\n".toList)) ∧
    ((luau.parse sourceCode).errors ≠ [] →
      (compileWebMain luau g (prog :: toks) sourceCode).output =
        ((luau.parse sourceCode).errors.map (fun error =>
          ("SyntaxError at line ".toList ++ formatInt (oneBased error.location.begin.line) ++
            ", column ".toList ++ formatInt (oneBased error.location.begin.column) ++
            ": ".toList ++ error.message ++ "\n".toList).take 255)).flatten) ∧
    (∀ (name : CStr) (e : CompileError),
      reportError.ofCompileError name e =
        name ++ "(".toList ++ formatInt (oneBased e.location.begin.line) ++ ",".toList ++
          formatInt (oneBased e.location.begin.column) ++ "): ".toList ++
          "CompileError".toList ++ ": ".toList ++ e.message ++ "\n".toList) ∧
    (∀ (name : CStr) (error : ParseError),
      reportError.ofParseError name error =
        name ++ "(".toList ++ formatInt (oneBased error.location.begin.line) ++ ",".toList ++
          formatInt (oneBased error.location.begin.column) ++ "): ".toList ++
          "SyntaxError".toList ++ ": ".toList ++ error.message ++ "\n".toList) := by
  refine ⟨?_, ?_, fun _ _ => rfl, fun _ _ => rfl⟩
  · intro e herr hthrow
    rw [compileWebMain_scanned luau g prog toks st sourceCode hscan,
      compileWithOptions_compile_error luau st sourceCode e hinv herr hthrow]
    exact ⟨rfl, fun hshort => compileErrorLine_short e hshort⟩
  · intro hne
    rw [compileWebMain_scanned luau g prog toks st sourceCode hscan,
      compileWithOptions_syntax_errors luau st sourceCode hinv hne]
    rfl

theorem diagnostics_in_driver_form_witness :
    (compileWebMain
        (compileErrorLuau { location := { begin := { line := 6, column := 2 } }
                            message := "bad".toList })
        {} ("luau-compile".toList :: []) []).output =
      "CompileError at line ".toList ++ formatInt (oneBased 6) ++ ", column ".toList ++
        formatInt (oneBased 2) ++ ": ".toList ++ "bad".toList ++ "\n".toList :=
  ((diagnostics_in_driver_form
      (compileErrorLuau { location := { begin := { line := 6, column := 2 } }
                          message := "bad".toList })
      {} "luau-compile".toList [] [] { globalOptions := {} } (by rfl) (by decide)).1
    { location := { begin := { line := 6, column := 2 } }, message := "bad".toList }
    (by rfl) (by rfl)).2 (by decide)

theorem sizeAdd_zero (n : Nat) (h : n < 2 ^ sizeBits) : sizeAdd 0 n = n := by
  unfold sizeAdd
  rw [Nat.zero_add, Nat.mod_eq_of_lt h]

/-- C14: for a source that the parser accepts and the compiler compiles,
`compileWebMain` with format `binary` returns exactly the bytes of the
bytecode (so the length of the result is the size of the bytecode), with
format `null` it returns the empty string, and in both cases (in fact for every
format) the accumulated stats have the line count of the parser and the size of
the bytecode. The line count and the size are `size_t` values. -/
theorem binary_and_null_output {Ast Bcb : Type} (luau : Luau Ast Bcb) (g : GlobalOptions)
    (prog : CStr) (toks : List CStr) (sourceCode : CStr) (st : OptionState) (bcb1 : Bcb)
    (hscan : optionLoop toks { globalOptions := g } = (st, none))
    (hinv : ¬ (st.bytecodeSummary = true ∧ st.recordStats ≠ RecordStats.Function))
    (herr : (luau.parse sourceCode).errors = [])
    (hc : luau.compileOrThrow (configureBuilder luau st.compileFormat sourceCode)
      (luau.parse sourceCode) (copts st.globalOptions) = Except.ok bcb1)
    (hlines : (luau.parse sourceCode).lines < 2 ^ sizeBits)
    (hsize : (luau.getBytecode bcb1).length < 2 ^ sizeBits) :
    (st.compileFormat = CompileFormat.Binary →
      (compileWebMain luau g (prog :: toks) sourceCode).output = luau.getBytecode bcb1 ∧
        (compileWebMain luau g (prog :: toks) sourceCode).output.length =
          (luau.getBytecode bcb1).length) ∧
    (st.compileFormat = CompileFormat.Null →
      (compileWebMain luau g (prog :: toks) sourceCode).output = []) ∧
    (compileWebMain luau g (prog :: toks) sourceCode).stats.lines =
      (luau.parse sourceCode).lines ∧
    (compileWebMain luau g (prog :: toks) sourceCode).stats.bytecode =
      (luau.getBytecode bcb1).length := by
  rw [compileWebMain_scanned luau g prog toks st sourceCode hscan,
    compileWithOptions_compiled luau st sourceCode bcb1 hinv herr hc]
  refine ⟨fun hf => ?_, fun hf => ?_, sizeAdd_zero _ hlines, sizeAdd_zero _ hsize⟩
  · simp only [hf, formatOutput, and_self]
  · simp only [hf, formatOutput]

theorem binary_and_null_output_witness :
    (compileWebMain (bytecodeLuau ['\x06', '\x03', '\x00', '\x01']) {}
        ("luau-compile".toList :: ["--binary".toList]) []).stats.bytecode =
      ((bytecodeLuau ['\x06', '\x03', '\x00', '\x01']).getBytecode ()).length :=
  (binary_and_null_output (bytecodeLuau ['\x06', '\x03', '\x00', '\x01']) {}
    "luau-compile".toList ["--binary".toList] []
    { globalOptions := {}, compileFormat := CompileFormat.Binary } () (by rfl) (by decide)
    (by rfl) (by rfl) (by decide) (by decide)).2.2.2

/-- C19, as stated, fails: with `--codegennull` a source that parses and
compiles gives the empty string, not the string `Codegen not implemented`. -/
theorem codegennull_output_is_empty :
    (compileWebMain trivialLuau {} ["luau-compile".toList, "--codegennull".toList] []).output =
        [] ∧
      (compileWebMain trivialLuau {} ["luau-compile".toList, "--codegennull".toList] []).calls =
        [Call.parse [], Call.compileOrThrow (copts {})] ∧
      ([] : List Char) ≠ "Codegen not implemented".toList := by
  refine ⟨by rfl, by rfl, by decide⟩

/-- C19 (amended): the native-codegen path is a stub. For every source that
parses and compiles, the output of `compileWebMain` is the string
`Codegen not implemented` for each of the four formats Codegen, CodegenAsm,
CodegenIr and CodegenVerbose, and the empty string for CodegenNull; for all
five no codegen size is folded into the stats (the `codegen` counter stays
`0`). -/
theorem codegen_formats_are_stubs {Ast Bcb : Type} (luau : Luau Ast Bcb) (g : GlobalOptions)
    (prog : CStr) (toks : List CStr) (sourceCode : CStr) (st : OptionState) (bcb1 : Bcb)
    (hscan : optionLoop toks { globalOptions := g } = (st, none))
    (hinv : ¬ (st.bytecodeSummary = true ∧ st.recordStats ≠ RecordStats.Function))
    (herr : (luau.parse sourceCode).errors = [])
    (hc : luau.compileOrThrow (configureBuilder luau st.compileFormat sourceCode)
      (luau.parse sourceCode) (copts st.globalOptions) = Except.ok bcb1) :
    ((st.compileFormat = CompileFormat.Codegen ∨ st.compileFormat = CompileFormat.CodegenAsm ∨
        st.compileFormat = CompileFormat.CodegenIr ∨
        st.compileFormat = CompileFormat.CodegenVerbose) →
      (compileWebMain luau g (prog :: toks) sourceCode).output =
        "Codegen not implemented".toList) ∧
    (st.compileFormat = CompileFormat.CodegenNull →
      (compileWebMain luau g (prog :: toks) sourceCode).output = []) ∧
    (compileWebMain luau g (prog :: toks) sourceCode).stats.codegen = 0 := by
  rw [compileWebMain_scanned luau g prog toks st sourceCode hscan,
    compileWithOptions_compiled luau st sourceCode bcb1 hinv herr hc]
  refine ⟨fun hf => ?_, fun hf => ?_, rfl⟩
  · rcases hf with hf | hf | hf | hf <;> simp only [hf, formatOutput]
  · simp only [hf, formatOutput]

theorem codegen_formats_are_stubs_witness :
    (compileWebMain trivialLuau {} ("luau-compile".toList :: ["--codegenir".toList])
        []).output = "Codegen not implemented".toList :=
  (codegen_formats_are_stubs trivialLuau {} "luau-compile".toList ["--codegenir".toList] []
    { globalOptions := {}, compileFormat := CompileFormat.CodegenIr } () (by rfl) (by decide)
    (by rfl) (by rfl)).1 (by decide)

/-! ### `splitArgs` on arbitrary input -/

theorem span_spaces (l : List Char) :
    ∃ sp r, l = sp ++ r ∧ (∀ c ∈ sp, c = ' ') ∧ (∀ c ∈ r.head?, c ≠ ' ') := by
  induction l with
  | nil => exact ⟨[], [], rfl, by simp, by simp⟩
  | cons a l ih =>
    by_cases ha : a = ' '
    · obtain ⟨sp, r, hl, hsp, hr⟩ := ih
      refine ⟨a :: sp, r, by rw [hl]; rfl, ?_, hr⟩
      intro c hc
      rcases List.mem_cons.mp hc with rfl | hc
      · exact ha
      · exact hsp c hc
    · exact ⟨[], a :: l, rfl, by simp, by simpa using ha⟩

theorem span_token (l : List Char) :
    ∃ t r, l = t ++ r ∧ ' ' ∉ t ∧ (∀ c ∈ r.head?, c = ' ') := by
  induction l with
  | nil => exact ⟨[], [], rfl, by simp, by simp⟩
  | cons a l ih =>
    by_cases ha : a = ' '
    · exact ⟨[], a :: l, rfl, by simp, by simpa using ha⟩
    · obtain ⟨t, r, hl, ht, hr⟩ := ih
      refine ⟨a :: t, r, by rw [hl]; rfl, ?_, hr⟩
      intro hm
      rcases List.mem_cons.mp hm with h | h
      · exact ha h.symm
      · exact ht h

theorem runs_exist (n : Nat) :
    ∀ input : List Char, input.length ≤ n →
      ∃ toks, IsRunsOf input toks ∧ toks.length ≤ input.length := by
  induction n with
  | zero =>
    intro input h
    have : input = [] := List.length_eq_zero.mp (by omega)
    subst this
    exact ⟨[], by simp [IsRunsOf], by simp⟩
  | succ n ih =>
    intro input h
    obtain ⟨sp, r, hin, hsp, hr⟩ := span_spaces input
    cases r with
    | nil =>
      refine ⟨[], ?_, by simp⟩
      rw [hin, List.append_nil]
      exact hsp
    | cons a r1 =>
      have ha : a ≠ ' ' := hr a (by simp)
      obtain ⟨t1, rest, hr1, ht1, hrest⟩ := span_token r1
      have hlen : rest.length ≤ n := by
        have : input.length = sp.length + (1 + (t1.length + rest.length)) := by
          rw [hin, hr1]
          simp only [List.length_append, List.length_cons]
          omega
        omega
      obtain ⟨ts, hts, htl⟩ := ih rest hlen
      refine ⟨(a :: t1) :: ts, ⟨sp, rest, ?_, hsp, by simp, ?_, hrest, hts⟩, ?_⟩
      · rw [hin, hr1]
        simp
      · intro hm
        rcases List.mem_cons.mp hm with h | h
        · exact ha h.symm
        · exact ht1 h
      · rw [hin, hr1]
        simp only [List.length_append, List.length_cons]
        omega

theorem splitLoop_runs (toks : List CStr) :
    ∀ rest : List Char, IsRunsOf rest toks →
      ∀ (pre : List Char) (args : List CStr) (fuel : Nat), toks.length < fuel →
        splitLoop (pre ++ rest) fuel pre.length pre.length args = some (args ++ toks) := by
  induction toks with
  | nil =>
    intro rest hruns pre args fuel hfuel
    have hsp : ∀ c ∈ rest, c = ' ' := hruns
    cases fuel with
    | zero => omega
    | succ f =>
      have hskip := skipSpaces_spec rest pre [] ((pre ++ rest ++ []).length + 1) hsp (by simp)
        (by simp only [List.length_append, List.length_nil]; omega)
      simp only [List.append_nil] at hskip
      simp only [splitLoop, hskip]
      by_cases hlt : pre.length < (pre ++ rest).length
      · simp [hlt]
      · simp [hlt]
  | cons t ts ih =>
    intro rest0 hruns pre args fuel hfuel
    obtain ⟨sp, rest, hrest0, hsp, htne, htsp, hrest_head, hts⟩ := hruns
    cases fuel with
    | zero => omega
    | succ f =>
      obtain ⟨a, t1, rfl⟩ := List.exists_cons_of_ne_nil htne
      have ha : a ≠ ' ' := fun e => htsp (by simp [e])
      have hshape0 : pre ++ rest0 = pre ++ sp ++ (a :: t1 ++ rest) := by
        rw [hrest0]
        simp
      rw [hshape0]
      have hinput : pre ++ sp ++ (a :: t1 ++ rest) = (pre ++ sp) ++ (a :: t1) ++ rest := by
        simp
      have hskip := skipSpaces_spec sp pre (a :: t1 ++ rest)
        ((pre ++ sp ++ (a :: t1 ++ rest)).length + 1) hsp (by simpa using ha)
        (by simp only [List.length_append, List.length_cons]; omega)
      have hscan : scanToken (pre ++ sp ++ (a :: t1 ++ rest))
          ((pre ++ sp ++ (a :: t1 ++ rest)).length + 1) (pre.length + sp.length) =
          some (pre.length + sp.length + (a :: t1).length) := by
        have := scanToken_spec (a :: t1) (pre ++ sp) rest
          ((pre ++ sp ++ (a :: t1 ++ rest)).length + 1) htsp hrest_head
          (by simp only [List.length_append, List.length_cons]; omega)
        rw [← hinput] at this
        simpa only [List.length_append] using this
      have hsub := substr_middle (pre ++ sp) (a :: t1) rest
      rw [← hinput] at hsub
      have hlt : pre.length < (pre ++ sp ++ (a :: t1 ++ rest)).length := by
        simp only [List.length_append, List.length_cons]
        omega
      have hlt2 : ¬ (pre.length + sp.length ≥ (pre ++ sp ++ (a :: t1 ++ rest)).length) := by
        simp only [List.length_append, List.length_cons]
        omega
      simp only [List.length_append] at hsub
      simp only [splitLoop, hlt, if_true, hskip, hlt2, if_false, hscan, hsub]
      have hnext := ih rest hts (pre ++ sp ++ (a :: t1)) (args ++ [a :: t1]) f
        (by simp at hfuel; omega)
      rw [← hinput] at hnext
      simp only [List.length_append] at hnext
      rw [hnext]
      simp

theorem runs_properties (toks : List CStr) :
    ∀ input : List Char, IsRunsOf input toks →
      (∀ t ∈ toks, t ≠ [] ∧ ' ' ∉ t) ∧
        toks.flatten = input.filter (fun c => decide (c ≠ ' ')) := by
  induction toks with
  | nil =>
    intro input hruns
    have hsp : ∀ c ∈ input, c = ' ' := hruns
    refine ⟨by simp, ?_⟩
    symm
    simp only [List.flatten_nil, List.filter_eq_nil_iff]
    intro c hc
    simp [hsp c hc]
  | cons t ts ih =>
    intro input hruns
    obtain ⟨sp, rest, hin, hsp, htne, htsp, _, hts⟩ := hruns
    obtain ⟨h1, h2⟩ := ih rest hts
    constructor
    · intro u hu
      rcases List.mem_cons.mp hu with rfl | hu
      · exact ⟨htne, htsp⟩
      · exact h1 u hu
    · have hfsp : sp.filter (fun c => decide (c ≠ ' ')) = [] := by
        simp only [List.filter_eq_nil_iff]
        intro c hc
        simp [hsp c hc]
      have hft : t.filter (fun c => decide (c ≠ ' ')) = t := by
        simp only [List.filter_eq_self]
        intro c hc
        have : c ≠ ' ' := fun e => htsp (e ▸ hc)
        simpa using this
      rw [hin, List.filter_append, List.filter_append, hfsp, hft, List.flatten_cons, h2]
      rfl

theorem splitArgs_runs (input : List Char) :
    ∃ toks, splitArgs input = some toks ∧ IsRunsOf input toks := by
  obtain ⟨toks, hruns, hlen⟩ := runs_exist input.length input (le_refl _)
  refine ⟨toks, ?_, hruns⟩
  have := splitLoop_runs toks input hruns [] [] (input.length + 1) (by omega)
  simpa [splitArgs] using this

/-- C20: for every input string `splitArgs` comes to an end and returns, in
order of occurrence, exactly the maximal runs of non-space characters of the
input: every returned token is non-empty and contains no space, the
concatenation of the tokens is the input with all spaces removed, and an input
of spaces only (the empty string included) gives the empty list. -/
theorem splitArgs_maximal_runs (input : List Char) :
    ∃ toks, splitArgs input = some toks ∧ IsRunsOf input toks ∧
      (∀ t ∈ toks, t ≠ [] ∧ ' ' ∉ t) ∧
      toks.flatten = input.filter (fun c => decide (c ≠ ' ')) ∧
      ((∀ c ∈ input, c = ' ') → toks = []) := by
  obtain ⟨toks, hsplit, hruns⟩ := splitArgs_runs input
  obtain ⟨h1, h2⟩ := runs_properties toks input hruns
  refine ⟨toks, hsplit, hruns, h1, h2, fun hsp => ?_⟩
  cases toks with
  | nil => rfl
  | cons t ts =>
    exfalso
    obtain ⟨hne, hnsp⟩ := h1 t (List.mem_cons_self _ _)
    obtain ⟨a, t1, rfl⟩ := List.exists_cons_of_ne_nil hne
    have hmem : a ∈ input.filter (fun c => decide (c ≠ ' ')) := by
      rw [← h2]
      simp
    have ha := hsp a (List.mem_of_mem_filter hmem)
    exact hnsp (by simp [ha])

/-! ### Aggregation of `CompileStats` -/

theorem sizeAdd_comm (a b : Nat) : sizeAdd a b = sizeAdd b a := by
  unfold sizeAdd
  rw [Nat.add_comm]

theorem sizeAdd_assoc (a b c : Nat) : sizeAdd (sizeAdd a b) c = sizeAdd a (sizeAdd b c) := by
  unfold sizeAdd
  rw [Nat.mod_add_mod, Nat.add_mod_mod, Nat.add_assoc]

theorem Double.add_comm (x y : Double) : Double.add x y = Double.add y x := by
  cases x with
  | nan => cases y <;> rfl
  | inf s =>
    cases y with
    | nan => rfl
    | inf t =>
      by_cases h : s = t
      · subst h; rfl
      · have h2 : ¬ t = s := fun e => h e.symm
        simp only [Double.add, h, h2, if_false]
    | finite s2 m2 e2 => rfl
  | finite s1 m1 e1 =>
    cases y with
    | nan => rfl
    | inf t => rfl
    | finite s2 m2 e2 =>
      simp only [Double.add]
      rw [min_comm e2 e1, Bool.and_comm s2 s1,
        Int.add_comm
          (if s2 = true then -((m2 * 2 ^ (e2 - min e1 e2).toNat : Nat) : Int)
            else ((m2 * 2 ^ (e2 - min e1 e2).toNat : Nat) : Int))
          (if s1 = true then -((m1 * 2 ^ (e1 - min e1 e2).toNat : Nat) : Int)
            else ((m1 * 2 ^ (e1 - min e1 e2).toNat : Nat) : Int))]

set_option maxRecDepth 4000 in
/-- C16: `CompileStats` aggregation is the field-wise sum and is commutative.
`operator+` is `operator+=` on a copy of its left operand; for all records `a`
and `b` every field of `a + b` is the sum of that field of `a` and of `b`, the
four counters as `size_t` sums (modulo `2^sizeBits`) and the five durations as
`double` sums, and the records `a + b` and `b + a` are equal, field by field.
At the pair with counters `100, 10, 20, 30`, times `1.5, 0, 0, 0, 0` and
counters `2, 5, 6, 7`, times `2.25, 0, 0, 0, 0` the sum has counters
`102, 15, 26, 37` and read time `3.75`, in both orders. -/
theorem CompileStats_add_comm (a b : CompileStats) :
    CompileStats.add a b = CompileStats.addAssign a b ∧
      ((CompileStats.add a b).lines = (a.lines + b.lines) % 2 ^ sizeBits ∧
        (CompileStats.add a b).bytecode = (a.bytecode + b.bytecode) % 2 ^ sizeBits ∧
        (CompileStats.add a b).bytecodeInstructionCount =
          (a.bytecodeInstructionCount + b.bytecodeInstructionCount) % 2 ^ sizeBits ∧
        (CompileStats.add a b).codegen = (a.codegen + b.codegen) % 2 ^ sizeBits ∧
        (CompileStats.add a b).readTime = Double.add a.readTime b.readTime ∧
        (CompileStats.add a b).miscTime = Double.add a.miscTime b.miscTime ∧
        (CompileStats.add a b).parseTime = Double.add a.parseTime b.parseTime ∧
        (CompileStats.add a b).compileTime = Double.add a.compileTime b.compileTime ∧
        (CompileStats.add a b).codegenTime = Double.add a.codegenTime b.codegenTime) ∧
      CompileStats.add a b = CompileStats.add b a ∧
      ((CompileStats.add a b).lines = (CompileStats.add b a).lines ∧
        (CompileStats.add a b).bytecode = (CompileStats.add b a).bytecode ∧
        (CompileStats.add a b).bytecodeInstructionCount =
          (CompileStats.add b a).bytecodeInstructionCount ∧
        (CompileStats.add a b).codegen = (CompileStats.add b a).codegen ∧
        (CompileStats.add a b).readTime = (CompileStats.add b a).readTime ∧
        (CompileStats.add a b).miscTime = (CompileStats.add b a).miscTime ∧
        (CompileStats.add a b).parseTime = (CompileStats.add b a).parseTime ∧
        (CompileStats.add a b).compileTime = (CompileStats.add b a).compileTime ∧
        (CompileStats.add a b).codegenTime = (CompileStats.add b a).codegenTime) ∧
      (CompileStats.add
          { lines := 100, bytecode := 10, bytecodeInstructionCount := 20, codegen := 30,
            readTime := Double.finite false 6755399441055744 (-52) }
          { lines := 2, bytecode := 5, bytecodeInstructionCount := 6, codegen := 7,
            readTime := Double.finite false 5066549580791808 (-51) } =
          { lines := 102, bytecode := 15, bytecodeInstructionCount := 26, codegen := 37,
            readTime := Double.finite false 8444249301319680 (-51) } ∧
        CompileStats.add
          { lines := 2, bytecode := 5, bytecodeInstructionCount := 6, codegen := 7,
            readTime := Double.finite false 5066549580791808 (-51) }
          { lines := 100, bytecode := 10, bytecodeInstructionCount := 20, codegen := 30,
            readTime := Double.finite false 6755399441055744 (-52) } =
          { lines := 102, bytecode := 15, bytecodeInstructionCount := 26, codegen := 37,
            readTime := Double.finite false 8444249301319680 (-51) }) := by
  have hcomm : CompileStats.add a b = CompileStats.add b a := by
    simp only [CompileStats.add, CompileStats.addAssign]
    rw [sizeAdd_comm a.lines, sizeAdd_comm a.bytecode, sizeAdd_comm a.bytecodeInstructionCount,
      sizeAdd_comm a.codegen, Double.add_comm a.readTime, Double.add_comm a.miscTime,
      Double.add_comm a.parseTime, Double.add_comm a.compileTime,
      Double.add_comm a.codegenTime]
  refine ⟨rfl, ⟨rfl, rfl, rfl, rfl, rfl, rfl, rfl, rfl, rfl⟩, hcomm, ?_, by decide, by decide⟩
  refine ⟨?_, ?_, ?_, ?_, ?_, ?_, ?_, ?_, ?_⟩ <;> rw [hcomm]

set_option maxRecDepth 4000 in
/-- C17, as stated, fails in the duration fields, which are `double`s. With
read times `2^53`, `1` and `1` the sum `(a + b) + c` is `2^53` (each `+ 1` is
rounded away) and `a + (b + c)` is `2^53 + 2`; with the doubles nearest to
`0.1`, `0.2` and `0.3` the two groupings give the doubles nearest to
`0.6000000000000001` and `0.6`. -/
theorem duration_sum_depends_on_grouping :
    (CompileStats.add
        (CompileStats.add { readTime := Double.finite false 4503599627370496 1 }
          { readTime := Double.finite false 4503599627370496 (-52) })
        { readTime := Double.finite false 4503599627370496 (-52) }).readTime =
        Double.finite false 4503599627370496 1 ∧
      (CompileStats.add { readTime := Double.finite false 4503599627370496 1 }
        (CompileStats.add { readTime := Double.finite false 4503599627370496 (-52) }
          { readTime := Double.finite false 4503599627370496 (-52) })).readTime =
        Double.finite false 4503599627370497 1 ∧
      (CompileStats.add
        (CompileStats.add { readTime := Double.finite false 7205759403792794 (-56) }
          { readTime := Double.finite false 7205759403792794 (-55) })
        { readTime := Double.finite false 5404319552844595 (-54) }).readTime =
        Double.finite false 5404319552844596 (-53) ∧
      (CompileStats.add { readTime := Double.finite false 7205759403792794 (-56) }
        (CompileStats.add { readTime := Double.finite false 7205759403792794 (-55) }
          { readTime := Double.finite false 5404319552844595 (-54) })).readTime =
        Double.finite false 5404319552844595 (-53) := by
  refine ⟨by decide, by decide, by decide, by decide⟩

/-- C17 (amended): `CompileStats` aggregation is associative in the four
counters: for all records `a`, `b` and `c`, the records `(a + b) + c` and
`a + (b + c)` have the same `lines`, `bytecode`, `bytecodeInstructionCount` and
`codegen`, so the counters of a total over many files do not depend on how the
records are grouped. -/
theorem CompileStats_counters_assoc (a b c : CompileStats) :
    (CompileStats.add (CompileStats.add a b) c).lines =
        (CompileStats.add a (CompileStats.add b c)).lines ∧
      (CompileStats.add (CompileStats.add a b) c).bytecode =
        (CompileStats.add a (CompileStats.add b c)).bytecode ∧
      (CompileStats.add (CompileStats.add a b) c).bytecodeInstructionCount =
        (CompileStats.add a (CompileStats.add b c)).bytecodeInstructionCount ∧
      (CompileStats.add (CompileStats.add a b) c).codegen =
        (CompileStats.add a (CompileStats.add b c)).codegen := by
  simp only [CompileStats.add, CompileStats.addAssign]
  exact ⟨sizeAdd_assoc _ _ _, sizeAdd_assoc _ _ _, sizeAdd_assoc _ _ _, sizeAdd_assoc _ _ _⟩

/-! ### The result buffer -/

/-- C15: `exportCompile` copies the result with `strdup`, which stops at the
first zero byte. With a compiler whose bytecode is the bytes `06 03 00 01`,
`compileWebMain` with `--binary` returns these four bytes, and the buffer that
`exportCompile` returns for the argument string `luau-compile --binary` holds
only the two bytes before the zero byte, where the claim has the complete
bytecode. -/
theorem exportCompile_cuts_at_zero_byte :
    (compileWebMain (bytecodeLuau ['\x06', '\x03', '\x00', '\x01']) {}
        ["luau-compile".toList, "--binary".toList] []).output =
        ['\x06', '\x03', '\x00', '\x01'] ∧
      (exportCompile (bytecodeLuau ['\x06', '\x03', '\x00', '\x01']) {}
        "luau-compile --binary".toList []).map (fun outcome => outcome.output) =
        some ['\x06', '\x03'] := by
  refine ⟨by rfl, by rfl⟩

/-! ### The result buffer on the heap -/
theorem Heap.le_top (blocks : List (Nat × Block)) :
    ∀ b ∈ blocks, b.1 ≤ Heap.top blocks := by
  induction blocks with
  | nil => intro b hb; cases hb
  | cons a bs ih =>
    intro b hb
    rcases List.mem_cons.mp hb with rfl | hb
    · exact le_max_left _ _
    · exact le_trans (ih b hb) (le_max_right _ _)

theorem Heap.top_append (xs ys : List (Nat × Block)) :
    Heap.top ys ≤ Heap.top (xs ++ ys) := by
  induction xs with
  | nil => exact le_refl _
  | cons a xs ih => exact le_trans ih (le_max_right _ _)

theorem Heap.free_zero (heap : Heap) : heap.free 0 = heap := by
  simp [Heap.free]

theorem Heap.Framed.refl (heap : Heap) : Heap.Framed heap.blocks heap [] :=
  ⟨[], rfl, List.Perm.refl _, List.nodup_nil, fun _ hb => by cases hb⟩

theorem Heap.Framed.perm {base : List (Nat × Block)} {heap : Heap}
    {owned owned1 : List (Nat × Block)} (h : Heap.Framed base heap owned)
    (hp : owned.Perm owned1) : Heap.Framed base heap owned1 := by
  obtain ⟨fresh, h1, h2, h3, h4⟩ := h
  exact ⟨fresh, h1, h2.trans hp, h3, h4⟩

theorem Heap.Framed.above {base : List (Nat × Block)} {heap : Heap}
    {owned : List (Nat × Block)} (h : Heap.Framed base heap owned) :
    ∀ b ∈ owned, Heap.top base < b.1 := by
  obtain ⟨fresh, _, h2, _, h4⟩ := h
  intro b hb
  exact h4 b (h2.mem_iff.mpr hb)

theorem Heap.Framed.malloc {base : List (Nat × Block)} {heap : Heap}
    {owned : List (Nat × Block)} (h : Heap.Framed base heap owned) (rt : Runtime)
    (block : Block) :
    ((heap.malloc rt block).1 = 0 ∧ Heap.Framed base (heap.malloc rt block).2 owned) ∨
      ((heap.malloc rt block).1 ≠ 0 ∧
        Heap.Framed base (heap.malloc rt block).2 (((heap.malloc rt block).1, block) :: owned)) := by
  obtain ⟨fresh, h1, h2, h3, h4⟩ := h
  unfold Heap.malloc
  by_cases hg : rt.grants heap.mallocs = true
  · right
    simp only [hg, if_true]
    refine ⟨Nat.succ_ne_zero _, (Heap.top heap.blocks + 1, block) :: fresh, ?_, ?_, ?_, ?_⟩
    · simp [h1]
    · exact List.Perm.cons _ h2
    · rw [List.map_cons, List.nodup_cons]
      refine ⟨?_, h3⟩
      intro hmem
      obtain ⟨b, hb, hbe⟩ := List.mem_map.mp hmem
      have hle := Heap.le_top heap.blocks b (by rw [h1]; exact List.mem_append_left _ hb)
      simp only at hbe
      omega
    · intro b hb
      rcases List.mem_cons.mp hb with rfl | hb
      · have := Heap.top_append fresh base
        rw [← h1] at this
        simp only
        omega
      · exact h4 b hb
  · left
    simp only [hg, Bool.false_eq_true, if_false]
    exact ⟨trivial, fresh, h1, h2, h3, h4⟩

theorem Heap.Framed.allocate {base : List (Nat × Block)} {heap heap1 : Heap}
    {owned : List (Nat × Block)} (h : Heap.Framed base heap owned) (rt : Runtime)
    (block : Block) (ptr : Nat) (ha : heap.allocate rt block = some (ptr, heap1)) :
    ptr ≠ 0 ∧ Heap.Framed base heap1 ((ptr, block) :: owned) := by
  unfold Heap.allocate at ha
  by_cases h0 : (heap.malloc rt block).1 = 0
  · simp [h0] at ha
  · simp only [h0, if_false, Option.some.injEq] at ha
    rcases h.malloc rt block with ⟨hz, _⟩ | ⟨hnz, hf⟩
    · exact absurd hz h0
    · rw [ha] at hnz hf
      exact ⟨hnz, hf⟩

theorem Heap.Framed.free {base : List (Nat × Block)} {heap : Heap}
    {owned : List (Nat × Block)} {ptr : Nat} {block : Block}
    (h : Heap.Framed base heap ((ptr, block) :: owned)) :
    Heap.Framed base (heap.free ptr) owned := by
  have habove := h.above (ptr, block) (List.mem_cons_self _ _)
  obtain ⟨fresh, h1, h2, h3, h4⟩ := h
  have hne : ptr ≠ 0 := by simp only at habove; omega
  have hnd : (((ptr, block) :: owned).map Prod.fst).Nodup :=
    (List.Perm.map Prod.fst h2).nodup_iff.mp h3
  rw [List.map_cons, List.nodup_cons] at hnd
  have hbase : base.filter (fun b => decide (b.1 ≠ ptr)) = base := by
    rw [List.filter_eq_self]
    intro b hb
    have := Heap.le_top base b hb
    simp only at habove
    simp only [decide_eq_true_eq]
    omega
  have howned : owned.filter (fun b => decide (b.1 ≠ ptr)) = owned := by
    rw [List.filter_eq_self]
    intro b hb
    simp only [decide_eq_true_eq]
    intro hbe
    exact hnd.1 (List.mem_map.mpr ⟨b, hb, hbe⟩)
  refine ⟨fresh.filter (fun b => decide (b.1 ≠ ptr)), ?_, ?_, ?_, ?_⟩
  · simp only [Heap.free, hne, if_false, h1, List.filter_append, hbase]
  · have hp := List.Perm.filter (fun b : Nat × Block => decide (b.1 ≠ ptr)) h2
    rw [List.filter_cons] at hp
    simp only [ne_eq, not_true_eq_false, decide_False, Bool.false_eq_true, if_false] at hp
    simp only [ne_eq] at howned
    rw [howned] at hp
    exact hp
  · exact List.Nodup.sublist (List.Sublist.map _ (List.filter_sublist _)) h3
  · intro b hb
    exact h4 b (List.mem_of_mem_filter hb)

theorem Heap.Framed.blocks_nil {base : List (Nat × Block)} {heap : Heap}
    (h : Heap.Framed base heap []) : heap.blocks = base := by
  obtain ⟨fresh, h1, h2, _, _⟩ := h
  rw [h1, List.Perm.eq_nil h2, List.nil_append]

theorem Heap.Framed.blocks_one {base : List (Nat × Block)} {heap : Heap} {b : Nat × Block}
    (h : Heap.Framed base heap [b]) : heap.blocks = b :: base := by
  obtain ⟨fresh, h1, h2, _, _⟩ := h
  rw [h1, List.perm_singleton.mp h2]
  rfl

/-! ### The owners of heap storage -/

theorem StdString.assign_framed {base : List (Nat × Block)} {heap heap1 : Heap}
    {owned : List (Nat × Block)} (rt : Runtime) (s s1 : StdString) (text : List Char)
    (h : Heap.Framed base heap (s.owned ++ owned))
    (ha : s.assign rt text heap = some (s1, heap1)) :
    Heap.Framed base heap1 (s1.owned ++ owned) ∧ s1.text = text := by
  unfold StdString.assign at ha
  by_cases hfit : text.length ≤ s.capacity
  · simp only [hfit, if_true, Option.some.injEq, Prod.mk.injEq] at ha
    obtain ⟨rfl, rfl⟩ := ha
    exact ⟨h, rfl⟩
  · simp only [hfit, if_false] at ha
    cases hal : heap.allocate rt
        (Block.buffer (max text.length (rt.stringGrowth s.capacity text.length))) with
    | none => simp [hal] at ha
    | some r =>
      obtain ⟨buffer, heap2⟩ := r
      simp only [hal, Option.some.injEq, Prod.mk.injEq] at ha
      obtain ⟨rfl, rfl⟩ := ha
      obtain ⟨hne, hf⟩ := h.allocate rt _ buffer hal
      refine ⟨?_, rfl⟩
      have hs1 : StdString.owned
          { text := text,
            capacity := max text.length (rt.stringGrowth s.capacity text.length),
            buffer := buffer } =
          [(buffer, Block.buffer (max text.length (rt.stringGrowth s.capacity text.length)))] := by
        simp [StdString.owned, hne]
      rw [hs1]
      by_cases hb : s.buffer = 0
      · rw [hb, Heap.free_zero]
        have hs : s.owned = [] := by simp [StdString.owned, hb]
        rw [hs] at hf
        exact hf
      · have hs : s.owned = [(s.buffer, Block.buffer s.capacity)] := by
          simp [StdString.owned, hb]
        rw [hs] at hf
        exact (hf.perm (List.Perm.swap _ _ _)).free

theorem StdString.make_framed {base : List (Nat × Block)} {heap heap1 : Heap}
    {owned : List (Nat × Block)} (rt : Runtime) (s : StdString) (text : List Char)
    (h : Heap.Framed base heap owned) (hm : StdString.make rt text heap = some (s, heap1)) :
    Heap.Framed base heap1 (s.owned ++ owned) ∧ s.text = text := by
  unfold StdString.make at hm
  by_cases hfit : text.length ≤ rt.ssoCapacity
  · simp only [hfit, if_true, Option.some.injEq, Prod.mk.injEq] at hm
    obtain ⟨rfl, rfl⟩ := hm
    exact ⟨h, rfl⟩
  · simp only [hfit, if_false] at hm
    cases hal : heap.allocate rt
        (Block.buffer (max text.length (rt.stringGrowth 0 text.length))) with
    | none => simp [hal] at hm
    | some r =>
      obtain ⟨buffer, heap2⟩ := r
      simp only [hal, Option.some.injEq, Prod.mk.injEq] at hm
      obtain ⟨rfl, rfl⟩ := hm
      obtain ⟨hne, hf⟩ := h.allocate rt _ buffer hal
      refine ⟨?_, rfl⟩
      simpa [StdString.owned, hne] using hf

theorem StdString.append_framed {base : List (Nat × Block)} {heap heap1 : Heap}
    {owned : List (Nat × Block)} (rt : Runtime) (s s1 : StdString) (more : List Char)
    (h : Heap.Framed base heap (s.owned ++ owned))
    (ha : s.append rt more heap = some (s1, heap1)) :
    Heap.Framed base heap1 (s1.owned ++ owned) ∧ s1.text = s.text ++ more :=
  StdString.assign_framed rt s s1 _ h ha

theorem StdString.destroy_framed {base : List (Nat × Block)} {heap : Heap}
    {owned : List (Nat × Block)} (s : StdString)
    (h : Heap.Framed base heap (s.owned ++ owned)) :
    Heap.Framed base (s.destroy heap) owned := by
  unfold StdString.destroy
  by_cases hb : s.buffer = 0
  · rw [hb, Heap.free_zero]
    simpa [StdString.owned, hb] using h
  · have hs : s.owned = [(s.buffer, Block.buffer s.capacity)] := by
      simp [StdString.owned, hb]
    rw [hs] at h
    exact h.free

theorem StdString.empty_owned (rt : Runtime) : (StdString.empty rt).owned = [] := rfl

theorem StdVector.push_back_framed {α : Type} {base : List (Nat × Block)} {heap heap1 : Heap}
    {owned : List (Nat × Block)} (rt : Runtime) (v v1 : StdVector α) (x : α)
    (h : Heap.Framed base heap (v.ownedBuffer ++ owned))
    (hp : v.push_back rt x heap = some (v1, heap1)) :
    Heap.Framed base heap1 (v1.ownedBuffer ++ owned) ∧ v1.items = v.items ++ [x] := by
  unfold StdVector.push_back at hp
  by_cases hfit : v.items.length < v.capacity
  · simp only [hfit, if_true, Option.some.injEq, Prod.mk.injEq] at hp
    obtain ⟨rfl, rfl⟩ := hp
    exact ⟨h, rfl⟩
  · simp only [hfit, if_false] at hp
    cases hal : heap.allocate rt
        (Block.array (max (v.capacity + 1) (rt.vectorGrowth v.capacity))) with
    | none => simp [hal] at hp
    | some r =>
      obtain ⟨buffer, heap2⟩ := r
      simp only [hal, Option.some.injEq, Prod.mk.injEq] at hp
      obtain ⟨rfl, rfl⟩ := hp
      obtain ⟨hne, hf⟩ := h.allocate rt _ buffer hal
      refine ⟨?_, rfl⟩
      have hv1 : StdVector.ownedBuffer
          ({ items := v.items ++ [x],
             capacity := max (v.capacity + 1) (rt.vectorGrowth v.capacity),
             buffer := buffer } : StdVector α) =
          [(buffer, Block.array (max (v.capacity + 1) (rt.vectorGrowth v.capacity)))] := by
        simp [StdVector.ownedBuffer, hne]
      rw [hv1]
      by_cases hb : v.buffer = 0
      · rw [hb, Heap.free_zero]
        have hs : v.ownedBuffer = [] := by simp [StdVector.ownedBuffer, hb]
        rw [hs] at hf
        exact hf
      · have hs : v.ownedBuffer = [(v.buffer, Block.array v.capacity)] := by
          simp [StdVector.ownedBuffer, hb]
        rw [hs] at hf
        exact (hf.perm (List.Perm.swap _ _ _)).free

theorem ownedByStrings_append (xs ys : List StdString) :
    ownedByStrings (xs ++ ys) = ownedByStrings xs ++ ownedByStrings ys := by
  induction xs with
  | nil => rfl
  | cons a xs ih => simp [ownedByStrings, ih]

theorem destroyStrings_framed {base : List (Nat × Block)} (items : List StdString) :
    ∀ {heap : Heap} {owned : List (Nat × Block)},
      Heap.Framed base heap (ownedByStrings items ++ owned) →
      Heap.Framed base (destroyStrings items heap) owned := by
  induction items with
  | nil => intro heap owned h; exact h
  | cons s rest ih =>
    intro heap owned h
    simp only [ownedByStrings, List.append_assoc] at h
    exact ih (StdString.destroy_framed s h)

theorem StdVector.destroyStrings_released {base : List (Nat × Block)} {heap : Heap}
    {owned : List (Nat × Block)} (v : StdVector StdString)
    (h : Heap.Framed base heap (v.ownedBuffer ++ ownedByStrings v.items ++ owned)) :
    Heap.Framed base (v.destroyStrings heap) owned := by
  unfold StdVector.destroyStrings
  have h1 : Heap.Framed base heap (ownedByStrings v.items ++ (v.ownedBuffer ++ owned)) :=
    h.perm (by
      rw [List.append_assoc]
      exact (List.perm_append_comm_assoc _ _ _))
  have h2 := CompileWeb.destroyStrings_framed v.items h1
  by_cases hb : v.buffer = 0
  · rw [hb, Heap.free_zero]
    simpa [StdVector.ownedBuffer, hb] using h2
  · have hs : v.ownedBuffer = [(v.buffer, Block.array v.capacity)] := by
      simp [StdVector.ownedBuffer, hb]
    rw [hs] at h2
    exact h2.free

theorem StdVector.destroyPointers_framed {base : List (Nat × Block)} {heap : Heap}
    {owned : List (Nat × Block)} (v : StdVector CStr)
    (h : Heap.Framed base heap (v.ownedBuffer ++ owned)) :
    Heap.Framed base (v.destroyPointers heap) owned := by
  unfold StdVector.destroyPointers
  by_cases hb : v.buffer = 0
  · rw [hb, Heap.free_zero]
    simpa [StdVector.ownedBuffer, hb] using h
  · have hs : v.ownedBuffer = [(v.buffer, Block.array v.capacity)] := by
      simp [StdVector.ownedBuffer, hb]
    rw [hs] at h
    exact h.free

theorem pushTokens_framed {base : List (Nat × Block)} (rt : Runtime) (tokens : List CStr) :
    ∀ {heap heap1 : Heap} {owned : List (Nat × Block)} (args args1 : StdVector StdString),
      Heap.Framed base heap (args.ownedBuffer ++ ownedByStrings args.items ++ owned) →
      pushTokens rt tokens args heap = some (args1, heap1) →
      Heap.Framed base heap1 (args1.ownedBuffer ++ ownedByStrings args1.items ++ owned) ∧
        args1.items.map StdString.text = args.items.map StdString.text ++ tokens := by
  induction tokens with
  | nil =>
    intro heap heap1 owned args args1 h hp
    simp only [pushTokens, Option.some.injEq, Prod.mk.injEq] at hp
    obtain ⟨rfl, rfl⟩ := hp
    exact ⟨h, by simp⟩
  | cons token rest ih =>
    intro heap heap1 owned args args1 h hp
    simp only [pushTokens] at hp
    cases hm : StdString.make rt token heap with
    | none => simp [hm] at hp
    | some r =>
      obtain ⟨temp, heap2⟩ := r
      simp only [hm] at hp
      cases hpb : args.push_back rt temp heap2 with
      | none => simp [hpb] at hp
      | some r2 =>
        obtain ⟨args2, heap3⟩ := r2
        simp only [hpb] at hp
        obtain ⟨hf1, ht⟩ := StdString.make_framed rt temp token h hm
        have hf2 : Heap.Framed base heap2
            (args.ownedBuffer ++ (ownedByStrings args.items ++ temp.owned ++ owned)) :=
          hf1.perm (by
            simp only [List.append_assoc]
            refine (List.perm_append_comm_assoc _ _ _).trans ?_
            exact List.Perm.append_left _ (List.perm_append_comm_assoc _ _ _))
        obtain ⟨hf3, hitems⟩ := StdVector.push_back_framed rt args args2 temp hf2 hpb
        have hf4 : Heap.Framed base heap3
            (args2.ownedBuffer ++ ownedByStrings args2.items ++ owned) := by
          rw [hitems, ownedByStrings_append]
          simpa [ownedByStrings, List.append_assoc] using hf3
        obtain ⟨hf5, hmap⟩ := ih args2 args1 hf4 hp
        refine ⟨hf5, ?_⟩
        rw [hmap, hitems]
        simp [ht]

theorem pushPointers_framed {base : List (Nat × Block)} (rt : Runtime)
    (strings : List StdString) :
    ∀ {heap heap1 : Heap} {owned : List (Nat × Block)} (argv argv1 : StdVector CStr),
      Heap.Framed base heap (argv.ownedBuffer ++ owned) →
      pushPointers rt strings argv heap = some (argv1, heap1) →
      Heap.Framed base heap1 (argv1.ownedBuffer ++ owned) ∧
        argv1.items = argv.items ++ strings.map StdString.text := by
  induction strings with
  | nil =>
    intro heap heap1 owned argv argv1 h hp
    simp only [pushPointers, Option.some.injEq, Prod.mk.injEq] at hp
    obtain ⟨rfl, rfl⟩ := hp
    exact ⟨h, by simp⟩
  | cons s rest ih =>
    intro heap heap1 owned argv argv1 h hp
    simp only [pushPointers] at hp
    cases hpb : argv.push_back rt s.text heap with
    | none => simp [hpb] at hp
    | some r =>
      obtain ⟨argv2, heap2⟩ := r
      simp only [hpb] at hp
      obtain ⟨hf, hitems⟩ := StdVector.push_back_framed rt argv argv2 s.text h hpb
      obtain ⟨hf2, hi2⟩ := ih argv2 argv1 hf hp
      refine ⟨hf2, ?_⟩
      rw [hi2, hitems]
      simp

/-! ### The driver on the heap -/

theorem returnedMessage_framed {base : List (Nat × Block)} {heap heap1 : Heap}
    {owned : List (Nat × Block)} (rt : Runtime) (arg message : List Char) (result : StdString)
    (h : Heap.Framed base heap owned)
    (hr : returnedMessage rt arg message heap = some (result, heap1)) :
    Heap.Framed base heap1 (result.owned ++ owned) ∧ result.text = message := by
  rw [returnedMessage] at hr
  by_cases hm : message = "Error: Unrecognized option '".toList ++ arg ++ "'.".toList
  · rw [if_pos hm] at hr
    cases h1 : StdString.make rt "Error: Unrecognized option '".toList heap with
    | none => rw [h1] at hr; cases hr
    | some r =>
      obtain ⟨temp, heap2⟩ := r
      rw [h1] at hr
      cases h2 : temp.append rt arg heap2 with
      | none => simp only [h2] at hr; cases hr
      | some r2 =>
        obtain ⟨temp1, heap3⟩ := r2
        simp only [h2] at hr
        obtain ⟨f1, t1⟩ := StdString.make_framed rt temp _ h h1
        obtain ⟨f2, t2⟩ := StdString.append_framed rt temp temp1 arg f1 h2
        obtain ⟨f3, t3⟩ := StdString.append_framed rt temp1 result _ f2 hr
        refine ⟨f3, ?_⟩
        rw [t3, t2, t1, hm]
  · rw [if_neg hm] at hr
    exact StdString.make_framed rt result message h hr

theorem optionLoopOn_framed {base : List (Nat × Block)} (rt : Runtime) (toks : List CStr) :
    ∀ {heap heap1 : Heap} {owned : List (Nat × Block)} (st st1 : OptionState)
      (statsFile statsFile1 : StdString) (returned : Option StdString),
      Heap.Framed base heap (statsFile.owned ++ owned) →
      optionLoopOn rt toks st statsFile heap = some (st1, returned, statsFile1, heap1) →
      Heap.Framed base heap1
          (ownedByStrings returned.toList ++ (statsFile1.owned ++ owned)) ∧
        optionLoop toks st = (st1, returned.map StdString.text) := by
  induction toks with
  | nil =>
    intro heap heap1 owned st st1 statsFile statsFile1 returned h hl
    simp only [optionLoopOn, Option.some.injEq, Prod.mk.injEq] at hl
    obtain ⟨rfl, rfl, rfl, rfl⟩ := hl
    exact ⟨h, rfl⟩
  | cons arg rest ih =>
    intro heap heap1 owned st st1 statsFile statsFile1 returned h hl
    simp only [optionLoopOn] at hl
    cases hstep : optionStep st arg with
    | error message =>
      simp only [hstep] at hl
      cases hr : returnedMessage rt arg message heap with
      | none => simp [hr] at hl
      | some r =>
        obtain ⟨result, heap2⟩ := r
        simp only [hr, Option.some.injEq, Prod.mk.injEq] at hl
        obtain ⟨rfl, rfl, rfl, rfl⟩ := hl
        obtain ⟨f, t⟩ := returnedMessage_framed rt arg message result h hr
        refine ⟨?_, ?_⟩
        · simpa [ownedByStrings] using f
        · simp [optionLoop, hstep, t]
    | ok st2 =>
      simp only [hstep] at hl
      cases ha : statsFile.assign rt st2.statsFile heap with
      | none => simp [ha] at hl
      | some r =>
        obtain ⟨statsFile2, heap2⟩ := r
        simp only [ha] at hl
        obtain ⟨f, _⟩ := StdString.assign_framed rt statsFile statsFile2 _ h ha
        obtain ⟨f2, hp⟩ := ih st2 st1 statsFile2 statsFile1 returned f hl
        exact ⟨f2, by simp only [optionLoop, hstep]; exact hp⟩

theorem appendLines_framed {base : List (Nat × Block)} (rt : Runtime)
    (lines : List (List Char)) :
    ∀ {heap heap1 : Heap} {owned : List (Nat × Block)} (err err1 : StdString),
      Heap.Framed base heap (err.owned ++ owned) →
      appendLines rt lines err heap = some (err1, heap1) →
      Heap.Framed base heap1 (err1.owned ++ owned) ∧
        err1.text = lines.foldl (fun text line => text ++ line) err.text := by
  induction lines with
  | nil =>
    intro heap heap1 owned err err1 h ha
    simp only [appendLines, Option.some.injEq, Prod.mk.injEq] at ha
    obtain ⟨rfl, rfl⟩ := ha
    exact ⟨h, rfl⟩
  | cons line rest ih =>
    intro heap heap1 owned err err1 h ha
    simp only [appendLines] at ha
    cases hap : err.append rt line heap with
    | none => simp [hap] at ha
    | some r =>
      obtain ⟨err2, heap2⟩ := r
      simp only [hap] at ha
      obtain ⟨f, t⟩ := StdString.append_framed rt err err2 line h hap
      obtain ⟨f2, t2⟩ := ih err2 err1 f ha
      exact ⟨f2, by rw [t2, t]; rfl⟩

theorem foldl_map_lines {α : Type} (f : α → List Char) (es : List α) :
    ∀ init : List Char,
      (es.map f).foldl (fun text line => text ++ line) init =
        es.foldl (fun err error => err ++ f error) init := by
  induction es with
  | nil => intro init; rfl
  | cons e es ih => intro init; simp only [List.map_cons, List.foldl_cons]; exact ih _

theorem formatOutputOn_framed {Ast Bcb : Type} {base : List (Nat × Block)} {heap heap1 : Heap}
    {owned : List (Nat × Block)} (rt : Runtime) (luau : Luau Ast Bcb)
    (compileFormat : CompileFormat) (bcb : Bcb) (output1 : StdString)
    (h : Heap.Framed base heap owned)
    (hf : formatOutputOn rt luau compileFormat bcb (StdString.empty rt) heap =
      some (output1, heap1)) :
    Heap.Framed base heap1 (output1.owned ++ owned) ∧
      output1.text = formatOutput luau compileFormat bcb := by
  have hempty : Heap.Framed base heap ((StdString.empty rt).owned ++ owned) := by
    rw [StdString.empty_owned]; exact h
  have hmove : ∀ text : List Char,
      (match StdString.make rt text heap with
        | none => none
        | some (temp, heap2) => some (temp, (StdString.empty rt).destroy heap2)) =
        some (output1, heap1) →
      Heap.Framed base heap1 (output1.owned ++ owned) ∧ output1.text = text := by
    intro text hm
    cases hmk : StdString.make rt text heap with
    | none => simp [hmk] at hm
    | some r =>
      obtain ⟨temp, heap2⟩ := r
      simp only [hmk, Option.some.injEq, Prod.mk.injEq] at hm
      obtain ⟨rfl, rfl⟩ := hm
      obtain ⟨f, t⟩ := StdString.make_framed rt temp text h hmk
      refine ⟨?_, t⟩
      have : (StdString.empty rt).destroy heap2 = heap2 := by
        simp [StdString.destroy, StdString.empty, Heap.free_zero]
      rw [this]
      exact f
  cases compileFormat with
  | Text => exact hmove _ hf
  | Remarks => exact hmove _ hf
  | Binary => exact StdString.assign_framed rt _ output1 _ hempty hf
  | Codegen => exact StdString.assign_framed rt _ output1 _ hempty hf
  | CodegenAsm => exact StdString.assign_framed rt _ output1 _ hempty hf
  | CodegenIr => exact StdString.assign_framed rt _ output1 _ hempty hf
  | CodegenVerbose => exact StdString.assign_framed rt _ output1 _ hempty hf
  | CodegenNull =>
    simp only [formatOutputOn, Option.some.injEq, Prod.mk.injEq] at hf
    obtain ⟨rfl, rfl⟩ := hf
    exact ⟨hempty, rfl⟩
  | Null =>
    simp only [formatOutputOn, Option.some.injEq, Prod.mk.injEq] at hf
    obtain ⟨rfl, rfl⟩ := hf
    exact ⟨hempty, rfl⟩

theorem compileWithOptionsOn_framed {Ast Bcb : Type} {base : List (Nat × Block)}
    {heap heap1 : Heap} {owned : List (Nat × Block)} (rt : Runtime) (luau : Luau Ast Bcb)
    (st : OptionState) (sourceCode : CStr) (result : StdString) (outcome : Outcome)
    (h : Heap.Framed base heap owned)
    (hc : compileWithOptionsOn rt luau st sourceCode heap = some (result, heap1, outcome)) :
    Heap.Framed base heap1 (result.owned ++ owned) ∧
      outcome = compileWithOptions luau st sourceCode ∧ result.text = outcome.output := by
  have hdestroy : ∀ heap2 : Heap, (StdString.empty rt).destroy heap2 = heap2 := by
    intro heap2
    simp [StdString.destroy, StdString.empty, Heap.free_zero]
  rw [compileWithOptionsOn] at hc
  by_cases hinv : st.bytecodeSummary = true ∧ st.recordStats ≠ RecordStats.Function
  · rw [if_pos hinv] at hc
    cases hm : StdString.make rt
        "'Error: Required '--record-stats=function' for '--bytecode-summary'.".toList heap with
    | none => rw [hm] at hc; cases hc
    | some r =>
      obtain ⟨message, heap2⟩ := r
      rw [hm] at hc
      simp only [Option.some.injEq, Prod.mk.injEq] at hc
      obtain ⟨rfl, rfl, rfl⟩ := hc
      obtain ⟨f, t⟩ := StdString.make_framed rt message _ h hm
      refine ⟨f, rfl, ?_⟩
      rw [t, compileWithOptions, if_pos hinv]
  · rw [if_neg hinv] at hc
    simp only at hc
    by_cases herr : ¬ (luau.parse sourceCode).errors.isEmpty = true
    · rw [if_pos herr] at hc
      cases ha : appendLines rt ((luau.parse sourceCode).errors.map syntaxErrorLine)
          (StdString.empty rt) heap with
      | none => simp [ha] at hc
      | some r =>
        obtain ⟨err, heap2⟩ := r
        simp only [ha, Option.some.injEq, Prod.mk.injEq] at hc
        obtain ⟨rfl, rfl, rfl⟩ := hc
        obtain ⟨f, t⟩ := appendLines_framed rt _ (StdString.empty rt) err
          (by rw [StdString.empty_owned]; exact h) ha
        rw [hdestroy]
        refine ⟨f, rfl, ?_⟩
        rw [t, foldl_map_lines, compileWithOptions, if_neg hinv]
        simp only
        rw [if_pos herr]
        rfl
    · rw [if_neg herr] at hc
      cases hco : luau.compileOrThrow (configureBuilder luau st.compileFormat sourceCode)
          (luau.parse sourceCode) (copts st.globalOptions) with
      | error e =>
        simp only [hco] at hc
        cases hm : StdString.make rt (compileErrorLine e) heap with
        | none => simp [hm] at hc
        | some r =>
          obtain ⟨message, heap2⟩ := r
          simp only [hm, Option.some.injEq, Prod.mk.injEq] at hc
          obtain ⟨rfl, rfl, rfl⟩ := hc
          obtain ⟨f, t⟩ := StdString.make_framed rt message _ h hm
          rw [hdestroy]
          refine ⟨f, rfl, ?_⟩
          rw [t, compileWithOptions, if_neg hinv]
          simp only
          rw [if_neg herr]
          simp only [hco]
      | ok bcb1 =>
        simp only [hco] at hc
        cases hfo : formatOutputOn rt luau st.compileFormat bcb1 (StdString.empty rt) heap with
        | none => simp [hfo] at hc
        | some r =>
          obtain ⟨output1, heap2⟩ := r
          simp only [hfo, Option.some.injEq, Prod.mk.injEq] at hc
          obtain ⟨rfl, rfl, rfl⟩ := hc
          obtain ⟨f, t⟩ := formatOutputOn_framed rt luau st.compileFormat bcb1 output1 h hfo
          refine ⟨f, rfl, ?_⟩
          rw [t, compileWithOptions, if_neg hinv]
          simp only
          rw [if_neg herr]
          simp only [hco]

theorem compileWebMainOn_framed {Ast Bcb : Type} {base : List (Nat × Block)}
    {heap heap1 : Heap} {owned : List (Nat × Block)} (rt : Runtime) (luau : Luau Ast Bcb)
    (g : GlobalOptions) (argv : List CStr) (sourceCode : CStr) (result : StdString)
    (outcome : Outcome) (h : Heap.Framed base heap owned)
    (hc : compileWebMainOn rt luau g argv sourceCode heap = some (result, heap1, outcome)) :
    Heap.Framed base heap1 (result.owned ++ owned) ∧
      outcome = compileWebMain luau g argv sourceCode ∧ result.text = outcome.output := by
  rw [compileWebMainOn] at hc
  cases hm : StdString.make rt "stats.json".toList heap with
  | none => rw [hm] at hc; cases hc
  | some r =>
    obtain ⟨statsFile, heap2⟩ := r
    rw [hm] at hc
    obtain ⟨f1, _⟩ := StdString.make_framed rt statsFile _ h hm
    cases hl : optionLoopOn rt (argv.drop 1) { globalOptions := g } statsFile heap2 with
    | none =>
      have hc2 : (none : Option (StdString × Heap × Outcome)) = some (result, heap1, outcome) := by
        rw [← hc]
        show none = (match optionLoopOn rt (argv.drop 1) { globalOptions := g } statsFile heap2
          with
          | none => none
          | some (st, some result, statsFile1, heap2) =>
            some (result, statsFile1.destroy heap2,
              { output := result.text, globalOptions := st.globalOptions })
          | some (st, none, statsFile1, heap2) =>
            match compileWithOptionsOn rt luau st sourceCode heap2 with
            | none => none
            | some (result, heap3, outcome) => some (result, statsFile1.destroy heap3, outcome))
        rw [hl]
      cases hc2
    | some r2 =>
      obtain ⟨st, returned, statsFile1, heap3⟩ := r2
      obtain ⟨f2, hpure⟩ := optionLoopOn_framed rt (argv.drop 1) _ st statsFile statsFile1
        returned f1 hl
      have hc2 : (match (some (st, returned, statsFile1, heap3) :
            Option (OptionState × Option StdString × StdString × Heap)) with
          | none => none
          | some (st, some result, statsFile1, heap2) =>
            some (result, statsFile1.destroy heap2,
              ({ output := result.text, globalOptions := st.globalOptions } : Outcome))
          | some (st, none, statsFile1, heap2) =>
            match compileWithOptionsOn rt luau st sourceCode heap2 with
            | none => none
            | some (result, heap3, outcome) => some (result, statsFile1.destroy heap3, outcome)) =
          some (result, heap1, outcome) := by
        rw [← hl]
        exact hc
      cases returned with
      | some message =>
        simp only [Option.some.injEq, Prod.mk.injEq] at hc2
        obtain ⟨rfl, rfl, rfl⟩ := hc2
        have f3 : Heap.Framed base heap3 (statsFile1.owned ++ (message.owned ++ owned)) :=
          f2.perm (by
            simp only [Option.toList, ownedByStrings, List.append_nil]
            exact List.perm_append_comm_assoc _ _ _)
        refine ⟨StdString.destroy_framed statsFile1 f3, ?_, rfl⟩
        simp only [compileWebMain, hpure, Option.map_some']
      | none =>
        simp only at hc2
        cases hw : compileWithOptionsOn rt luau st sourceCode heap3 with
        | none => simp [hw] at hc2
        | some r3 =>
          obtain ⟨result1, heap4, outcome1⟩ := r3
          simp only [hw, Option.some.injEq, Prod.mk.injEq] at hc2
          obtain ⟨rfl, rfl, rfl⟩ := hc2
          have f3 : Heap.Framed base heap3 (statsFile1.owned ++ owned) := by
            simpa [Option.toList, ownedByStrings] using f2
          obtain ⟨f4, ho, ht⟩ := compileWithOptionsOn_framed rt luau st sourceCode result1
            outcome1 f3 hw
          have f5 : Heap.Framed base heap4 (statsFile1.owned ++ (result1.owned ++ owned)) :=
            f4.perm (List.perm_append_comm_assoc _ _ _)
          refine ⟨StdString.destroy_framed statsFile1 f5, ?_, ht⟩
          rw [ho]
          simp only [compileWebMain, hpure, Option.map_none']

theorem exportCompileOn_framed {Ast Bcb : Type} (rt : Runtime) (luau : Luau Ast Bcb)
    (g : GlobalOptions) (heap heap1 : Heap) (input sourceCode : CStr) (ptr : Nat)
    (outcome : Outcome)
    (h : exportCompileOn rt luau g heap input sourceCode = some (ptr, heap1, outcome)) :
    exportCompile luau g input sourceCode = some outcome ∧
      ((ptr = 0 ∧ Heap.Framed heap.blocks heap1 []) ∨
        (ptr ≠ 0 ∧ Heap.Framed heap.blocks heap1 [(ptr, Block.cstr outcome.output)])) := by
  rw [exportCompileOn] at h
  cases hm : StdString.make rt input heap with
  | none => simp [hm] at h
  | some r =>
    obtain ⟨temp, heapA⟩ := r
    simp only [hm] at h
    obtain ⟨f1, t1⟩ := StdString.make_framed rt temp input (Heap.Framed.refl heap) hm
    cases hs : splitArgsOn rt temp.text heapA with
    | none => simp [hs] at h
    | some r2 =>
      obtain ⟨args, heapB⟩ := r2
      simp only [hs] at h
      rw [splitArgsOn, t1] at hs
      cases hsp : splitArgs input with
      | none => simp [hsp] at hs
      | some tokens =>
        simp only [hsp] at hs
        obtain ⟨f2, ht⟩ := @pushTokens_framed heap.blocks rt tokens heapA heapB
          (temp.owned ++ []) ({} : StdVector StdString) args
          (by simpa [StdVector.ownedBuffer, ownedByStrings] using f1) hs
        have f3 : Heap.Framed heap.blocks (temp.destroy heapB)
            (args.ownedBuffer ++ ownedByStrings args.items) :=
          StdString.destroy_framed temp (f2.perm (by
            simp only [List.append_nil]
            exact List.perm_append_comm))
        cases hp : pushPointers rt args.items {} (temp.destroy heapB) with
        | none => simp [hp] at h
        | some r3 =>
          obtain ⟨argv, heapC⟩ := r3
          simp only [hp] at h
          obtain ⟨f4, hargv⟩ := @pushPointers_framed heap.blocks rt args.items
            (temp.destroy heapB) heapC (args.ownedBuffer ++ ownedByStrings args.items)
            ({} : StdVector CStr) argv (by simpa [StdVector.ownedBuffer] using f3) hp
          cases hc : compileWebMainOn rt luau g argv.items sourceCode heapC with
          | none => simp [hc] at h
          | some r4 =>
            obtain ⟨result, heapD, outcome1⟩ := r4
            simp only [hc, Option.some.injEq, Prod.mk.injEq] at h
            obtain ⟨hptr, hheap, hout⟩ := h
            obtain ⟨f5, ho, htext⟩ := compileWebMainOn_framed rt luau g argv.items sourceCode
              result outcome1 f4 hc
            have hitems : argv.items = tokens := by
              rw [hargv]
              simpa using ht
            have hpure : exportCompile luau g input sourceCode = some outcome := by
              rw [exportCompile, hsp, ← hout, ho, hitems]
            refine ⟨hpure, ?_⟩
            have hcontent : Block.cstr (strdup result.text) = Block.cstr outcome.output := by
              rw [← hout, htext]
            have hrest : ∀ {heapE : Heap} {owned : List (Nat × Block)},
                Heap.Framed heap.blocks heapE
                  (result.owned ++ (argv.ownedBuffer ++
                    (args.ownedBuffer ++ ownedByStrings args.items ++ owned))) →
                Heap.Framed heap.blocks
                  (args.destroyStrings (argv.destroyPointers (result.destroy heapE))) owned := by
              intro heapE owned hE
              exact StdVector.destroyStrings_released args
                (StdVector.destroyPointers_framed argv (StdString.destroy_framed result hE))
            rcases f5.malloc rt (Block.cstr (strdup result.text)) with ⟨hz, f6⟩ | ⟨hnz, f6⟩
            · left
              refine ⟨by rw [← hptr]; exact hz, ?_⟩
              rw [← hheap]
              refine hrest (f6.perm ?_)
              simp only [List.append_assoc, List.append_nil]
              exact List.Perm.refl _
            · right
              refine ⟨by rw [← hptr]; exact hnz, ?_⟩
              rw [← hheap, ← hcontent, ← hptr]
              refine hrest (f6.perm ?_)
              have e : result.owned ++ (argv.ownedBuffer ++
                  (args.ownedBuffer ++ ownedByStrings args.items ++
                    [((heapD.strdup rt result.text).1, Block.cstr (strdup result.text))])) =
                  (result.owned ++ (argv.ownedBuffer ++
                    (args.ownedBuffer ++ ownedByStrings args.items))) ++
                    [((heapD.strdup rt result.text).1, Block.cstr (strdup result.text))] := by
                simp only [List.append_assoc]
              rw [e]
              exact (List.perm_append_singleton _ _).symm

/-! ### A machine that grants every request -/

theorem Heap.allocate_granted (rt : Runtime) (hg : ∀ n, rt.grants n = true) (heap : Heap)
    (block : Block) : ∃ r, heap.allocate rt block = some r := by
  simp [Heap.allocate, Heap.malloc, hg]

theorem StdString.assign_granted (rt : Runtime) (hg : ∀ n, rt.grants n = true) (s : StdString)
    (text : List Char) (heap : Heap) : ∃ r, s.assign rt text heap = some r := by
  rw [StdString.assign]
  by_cases hfit : text.length ≤ s.capacity
  · exact ⟨_, if_pos hfit⟩
  · rw [if_neg hfit]
    obtain ⟨r, hr⟩ := Heap.allocate_granted rt hg heap
      (Block.buffer (max text.length (rt.stringGrowth s.capacity text.length)))
    simp only [hr]
    exact ⟨_, rfl⟩

theorem StdString.make_granted (rt : Runtime) (hg : ∀ n, rt.grants n = true)
    (text : List Char) (heap : Heap) : ∃ r, StdString.make rt text heap = some r := by
  rw [StdString.make]
  by_cases hfit : text.length ≤ rt.ssoCapacity
  · exact ⟨_, if_pos hfit⟩
  · rw [if_neg hfit]
    obtain ⟨r, hr⟩ := Heap.allocate_granted rt hg heap
      (Block.buffer (max text.length (rt.stringGrowth 0 text.length)))
    simp only [hr]
    exact ⟨_, rfl⟩

theorem StdVector.push_back_granted {α : Type} (rt : Runtime) (hg : ∀ n, rt.grants n = true)
    (v : StdVector α) (x : α) (heap : Heap) : ∃ r, v.push_back rt x heap = some r := by
  rw [StdVector.push_back]
  by_cases hfit : v.items.length < v.capacity
  · exact ⟨_, if_pos hfit⟩
  · rw [if_neg hfit]
    obtain ⟨r, hr⟩ := Heap.allocate_granted rt hg heap
      (Block.array (max (v.capacity + 1) (rt.vectorGrowth v.capacity)))
    simp only [hr]
    exact ⟨_, rfl⟩

theorem pushTokens_granted (rt : Runtime) (hg : ∀ n, rt.grants n = true) (tokens : List CStr) :
    ∀ (args : StdVector StdString) (heap : Heap), ∃ r, pushTokens rt tokens args heap = some r := by
  induction tokens with
  | nil => intro args heap; exact ⟨_, rfl⟩
  | cons token rest ih =>
    intro args heap
    obtain ⟨⟨temp, heap1⟩, h1⟩ := StdString.make_granted rt hg token heap
    obtain ⟨⟨args1, heap2⟩, h2⟩ := StdVector.push_back_granted rt hg args temp heap1
    simp only [pushTokens, h1, h2]
    exact ih args1 heap2

theorem pushPointers_granted (rt : Runtime) (hg : ∀ n, rt.grants n = true)
    (strings : List StdString) :
    ∀ (argv : StdVector CStr) (heap : Heap), ∃ r, pushPointers rt strings argv heap = some r := by
  induction strings with
  | nil => intro argv heap; exact ⟨_, rfl⟩
  | cons s rest ih =>
    intro argv heap
    obtain ⟨⟨argv1, heap1⟩, h1⟩ := StdVector.push_back_granted rt hg argv s.text heap
    simp only [pushPointers, h1]
    exact ih argv1 heap1

theorem returnedMessage_granted (rt : Runtime) (hg : ∀ n, rt.grants n = true)
    (arg message : List Char) (heap : Heap) :
    ∃ r, returnedMessage rt arg message heap = some r := by
  rw [returnedMessage]
  by_cases hm : message = "Error: Unrecognized option '".toList ++ arg ++ "'.".toList
  · rw [if_pos hm]
    obtain ⟨⟨temp, heap1⟩, h1⟩ :=
      StdString.make_granted rt hg "Error: Unrecognized option '".toList heap
    obtain ⟨⟨temp1, heap2⟩, h2⟩ := StdString.assign_granted rt hg temp (temp.text ++ arg) heap1
    rw [h1]
    simp only [StdString.append, h2]
    exact StdString.assign_granted rt hg temp1 _ heap2
  · rw [if_neg hm]
    exact StdString.make_granted rt hg message heap

theorem optionLoopOn_granted (rt : Runtime) (hg : ∀ n, rt.grants n = true) (toks : List CStr) :
    ∀ (st : OptionState) (statsFile : StdString) (heap : Heap),
      ∃ r, optionLoopOn rt toks st statsFile heap = some r := by
  induction toks with
  | nil => intro st statsFile heap; exact ⟨_, rfl⟩
  | cons arg rest ih =>
    intro st statsFile heap
    cases hstep : optionStep st arg with
    | error message =>
      obtain ⟨⟨result, heap1⟩, h1⟩ := returnedMessage_granted rt hg arg message heap
      simp only [optionLoopOn, hstep, h1]
      exact ⟨_, rfl⟩
    | ok st1 =>
      obtain ⟨⟨statsFile1, heap1⟩, h1⟩ :=
        StdString.assign_granted rt hg statsFile st1.statsFile heap
      simp only [optionLoopOn, hstep, h1]
      exact ih st1 statsFile1 heap1

theorem appendLines_granted (rt : Runtime) (hg : ∀ n, rt.grants n = true)
    (lines : List (List Char)) :
    ∀ (err : StdString) (heap : Heap), ∃ r, appendLines rt lines err heap = some r := by
  induction lines with
  | nil => intro err heap; exact ⟨_, rfl⟩
  | cons line rest ih =>
    intro err heap
    obtain ⟨⟨err1, heap1⟩, h1⟩ := StdString.assign_granted rt hg err (err.text ++ line) heap
    simp only [appendLines, StdString.append, h1]
    exact ih err1 heap1

theorem formatOutputOn_granted {Ast Bcb : Type} (rt : Runtime) (hg : ∀ n, rt.grants n = true)
    (luau : Luau Ast Bcb) (compileFormat : CompileFormat) (bcb : Bcb) (output : StdString)
    (heap : Heap) : ∃ r, formatOutputOn rt luau compileFormat bcb output heap = some r := by
  cases compileFormat with
  | Text =>
    obtain ⟨⟨temp, heap1⟩, h1⟩ := StdString.make_granted rt hg (luau.dumpEverything bcb) heap
    simp only [formatOutputOn, h1]
    exact ⟨_, rfl⟩
  | Remarks =>
    obtain ⟨⟨temp, heap1⟩, h1⟩ :=
      StdString.make_granted rt hg (luau.dumpSourceRemarks bcb) heap
    simp only [formatOutputOn, h1]
    exact ⟨_, rfl⟩
  | Binary => exact StdString.assign_granted rt hg output _ heap
  | Codegen => exact StdString.assign_granted rt hg output _ heap
  | CodegenAsm => exact StdString.assign_granted rt hg output _ heap
  | CodegenIr => exact StdString.assign_granted rt hg output _ heap
  | CodegenVerbose => exact StdString.assign_granted rt hg output _ heap
  | CodegenNull => exact ⟨_, rfl⟩
  | Null => exact ⟨_, rfl⟩

theorem compileWithOptionsOn_granted {Ast Bcb : Type} (rt : Runtime)
    (hg : ∀ n, rt.grants n = true) (luau : Luau Ast Bcb) (st : OptionState)
    (sourceCode : CStr) (heap : Heap) :
    ∃ r, compileWithOptionsOn rt luau st sourceCode heap = some r := by
  rw [compileWithOptionsOn]
  by_cases hinv : st.bytecodeSummary = true ∧ st.recordStats ≠ RecordStats.Function
  · rw [if_pos hinv]
    obtain ⟨⟨message, heap1⟩, h1⟩ := StdString.make_granted rt hg
      "'Error: Required '--record-stats=function' for '--bytecode-summary'.".toList heap
    rw [h1]
    exact ⟨_, rfl⟩
  · rw [if_neg hinv]
    by_cases herr : ¬ (luau.parse sourceCode).errors.isEmpty = true
    · obtain ⟨⟨err, heap1⟩, h1⟩ := appendLines_granted rt hg
        ((luau.parse sourceCode).errors.map syntaxErrorLine) (StdString.empty rt) heap
      simp only [if_pos herr, h1]
      exact ⟨_, rfl⟩
    · cases hco : luau.compileOrThrow (configureBuilder luau st.compileFormat sourceCode)
          (luau.parse sourceCode) (copts st.globalOptions) with
      | error e =>
        obtain ⟨⟨message, heap1⟩, h1⟩ := StdString.make_granted rt hg (compileErrorLine e) heap
        simp only [if_neg herr, hco, h1]
        exact ⟨_, rfl⟩
      | ok bcb1 =>
        obtain ⟨⟨output1, heap1⟩, h1⟩ := formatOutputOn_granted rt hg luau st.compileFormat bcb1
          (StdString.empty rt) heap
        simp only [if_neg herr, hco, h1]
        exact ⟨_, rfl⟩

theorem compileWebMainOn_granted {Ast Bcb : Type} (rt : Runtime)
    (hg : ∀ n, rt.grants n = true) (luau : Luau Ast Bcb) (g : GlobalOptions)
    (argv : List CStr) (sourceCode : CStr) (heap : Heap) :
    ∃ r, compileWebMainOn rt luau g argv sourceCode heap = some r := by
  rw [compileWebMainOn]
  obtain ⟨⟨statsFile, heap1⟩, h1⟩ := StdString.make_granted rt hg "stats.json".toList heap
  rw [h1]
  obtain ⟨⟨st, returned, statsFile1, heap2⟩, h2⟩ :=
    optionLoopOn_granted rt hg (argv.drop 1) { globalOptions := g } statsFile heap1
  cases returned with
  | some message =>
    refine ⟨(message, statsFile1.destroy heap2,
      { output := message.text, globalOptions := st.globalOptions }), ?_⟩
    show (match optionLoopOn rt (argv.drop 1) { globalOptions := g } statsFile heap1 with
      | none => none
      | some (st, some result, statsFile1, heap2) =>
        some (result, statsFile1.destroy heap2,
          ({ output := result.text, globalOptions := st.globalOptions } : Outcome))
      | some (st, none, statsFile1, heap2) =>
        match compileWithOptionsOn rt luau st sourceCode heap2 with
        | none => none
        | some (result, heap3, outcome) => some (result, statsFile1.destroy heap3, outcome)) = _
    rw [h2]
  | none =>
    obtain ⟨⟨result, heap3, outcome⟩, h3⟩ :=
      compileWithOptionsOn_granted rt hg luau st sourceCode heap2
    refine ⟨(result, statsFile1.destroy heap3, outcome), ?_⟩
    show (match optionLoopOn rt (argv.drop 1) { globalOptions := g } statsFile heap1 with
      | none => none
      | some (st, some result, statsFile1, heap2) =>
        some (result, statsFile1.destroy heap2,
          ({ output := result.text, globalOptions := st.globalOptions } : Outcome))
      | some (st, none, statsFile1, heap2) =>
        match compileWithOptionsOn rt luau st sourceCode heap2 with
        | none => none
        | some (result, heap3, outcome) => some (result, statsFile1.destroy heap3, outcome)) = _
    rw [h2]
    simp only [h3]

theorem exportCompileOn_granted {Ast Bcb : Type} (rt : Runtime)
    (hg : ∀ n, rt.grants n = true) (luau : Luau Ast Bcb) (g : GlobalOptions) (heap : Heap)
    (input sourceCode : CStr) :
    ∃ ptr heap1 outcome,
      exportCompileOn rt luau g heap input sourceCode = some (ptr, heap1, outcome) ∧ ptr ≠ 0 := by
  obtain ⟨⟨temp, heapA⟩, h1⟩ := StdString.make_granted rt hg input heap
  obtain ⟨tokens, hsp, _⟩ := splitArgs_runs temp.text
  obtain ⟨⟨args, heapB⟩, h2⟩ := pushTokens_granted rt hg tokens {} heapA
  obtain ⟨⟨argv, heapC⟩, h3⟩ := pushPointers_granted rt hg args.items {} (temp.destroy heapB)
  obtain ⟨⟨result, heapD, outcome⟩, h4⟩ :=
    compileWebMainOn_granted rt hg luau g argv.items sourceCode heapC
  have hs : splitArgsOn rt temp.text heapA = some (args, heapB) := by
    rw [splitArgsOn, hsp]
    exact h2
  have hrun : exportCompileOn rt luau g heap input sourceCode =
      some ((heapD.strdup rt result.text).1,
        args.destroyStrings
          (argv.destroyPointers (result.destroy (heapD.strdup rt result.text).2)),
        { outcome with
          output := strdup outcome.output
          globalOptions := outcome.globalOptions.afterArgs argv.items }) := by
    rw [exportCompileOn]
    simp only [h1, hs, h3, h4]
  exact ⟨_, _, _, hrun, by simp [Heap.strdup, Heap.malloc, hg]⟩

/-- C18, as stated, fails: on the argument string `luau-compile` (source
`return 1`, empty heap, the library parameters of `roomyRuntime`) the call of
`exportCompile` makes three calls of `malloc`, not one: the element buffers of
`args` and of `argv` and the block of `strdup`. The first two are freed before
the return (two calls of `free`); the block at the returned address `3` is the
only one left. -/
theorem exportCompile_allocates_three_times :
    (exportCompileOn roomyRuntime trivialLuau {} {} "luau-compile".toList
        "return 1".toList).map (fun r => (r.1, r.2.1)) =
      some (3, { blocks := [(3, Block.cstr [])], mallocs := 3, frees := 2 }) ∧
      (3 : Nat) ≠ 1 := by
  refine ⟨by rfl, by decide⟩

/-- C18 (amended): every call of `exportCompile` that returns leaves at most
one allocation outstanding, the one behind the returned handle: the buffers it
allocates for `args`, `argv` and the strings are freed before the return. When
the handle is not null the heap after the call is the heap before it with one
more block, at the handle, an address no earlier block has, holding the
returned string; when `strdup` fails the handle is null and the heap holds the
blocks it held. In both cases `freeCompileResult` applied once to the handle
leaves exactly the blocks that were outstanding before the call. This holds
for every argument string, source, parser and compiler, hence on every path
(success, configuration error, syntax error, compile error), and for every
library and machine; on a machine that grants every request the call returns
and the handle is not null. -/
theorem result_buffer_released {Ast Bcb : Type} (rt : Runtime) (luau : Luau Ast Bcb)
    (g : GlobalOptions) (heap : Heap) (input : CStr) (sourceCode : CStr) :
    (∀ (ptr : Nat) (heap1 : Heap) (outcome : Outcome),
      exportCompileOn rt luau g heap input sourceCode = some (ptr, heap1, outcome) →
        exportCompile luau g input sourceCode = some outcome ∧
          ((ptr = 0 ∧ heap1.blocks = heap.blocks) ∨
            (ptr ≠ 0 ∧ (∀ b ∈ heap.blocks, b.1 ≠ ptr) ∧
              heap1.blocks = (ptr, Block.cstr outcome.output) :: heap.blocks)) ∧
          (freeCompileResult heap1 ptr).blocks = heap.blocks) ∧
      ((∀ n, rt.grants n = true) →
        ∃ (ptr : Nat) (heap1 : Heap) (outcome : Outcome),
          exportCompileOn rt luau g heap input sourceCode = some (ptr, heap1, outcome) ∧
            ptr ≠ 0) := by
  refine ⟨?_, fun hg => exportCompileOn_granted rt hg luau g heap input sourceCode⟩
  intro ptr heap1 outcome h
  obtain ⟨hpure, hframe⟩ := exportCompileOn_framed rt luau g heap heap1 input sourceCode ptr
    outcome h
  refine ⟨hpure, ?_, ?_⟩
  · rcases hframe with ⟨hz, hf⟩ | ⟨hnz, hf⟩
    · exact Or.inl ⟨hz, hf.blocks_nil⟩
    · refine Or.inr ⟨hnz, ?_, hf.blocks_one⟩
      intro b hb
      have habove := hf.above _ (List.mem_singleton_self _)
      have hle := Heap.le_top heap.blocks b hb
      simp only at habove
      omega
  · rcases hframe with ⟨hz, hf⟩ | ⟨hnz, hf⟩
    · rw [hz, freeCompileResult, Heap.free_zero]
      exact hf.blocks_nil
    · exact (Heap.Framed.free hf).blocks_nil

theorem result_buffer_released_witness :
    (freeCompileResult
          { blocks := [(14, Block.cstr "Error: Unrecognized option '--frobnicate'.".toList),
              (1, Block.array 4)], mallocs := 13, frees := 12 } 14).blocks =
        [(1, Block.array 4)] ∧
      ∃ (ptr : Nat) (heap1 : Heap) (outcome : Outcome),
        exportCompileOn roomyRuntime (syntaxErrorLuau [{ location := { begin := { line := 0, column := 0 } }, message := "bad".toList }])
            {} {} "luau-compile --null".toList "return".toList = some (ptr, heap1, outcome) ∧
          ptr ≠ 0 :=
  ⟨((result_buffer_released roomyRuntime trivialLuau {}
        { blocks := [(1, Block.array 4)], mallocs := 0, frees := 0 }
        "luau-compile --binary -O2 --record-stats=function --frobnicate".toList
        "return 1".toList).1 14
      { blocks := [(14, Block.cstr "Error: Unrecognized option '--frobnicate'.".toList),
          (1, Block.array 4)], mallocs := 13, frees := 12 }
      { output := "Error: Unrecognized option '--frobnicate'.".toList
        globalOptions := { optimizationLevel := 2 } } (by rfl)).2.2,
    (result_buffer_released roomyRuntime
      (syntaxErrorLuau [{ location := { begin := { line := 0, column := 0 } }, message := "bad".toList }]) {} {}
      "luau-compile --null".toList "return".toList).2 (fun _ => rfl)⟩

theorem dropWhile_isspace_append (ws x : List Char) (h : ∀ c ∈ ws, isspace c = true) :
    (ws ++ x).dropWhile isspace = x.dropWhile isspace := by
  induction ws with
  | nil => rfl
  | cons a ws ih =>
    rw [List.cons_append, List.dropWhile_cons_of_pos (h a (List.mem_cons_self a ws))]
    exact ih (fun c hc => h c (List.mem_cons_of_mem a hc))

theorem dropWhile_isspace_head (r : List Char) :
    ∀ c t, r.dropWhile isspace = c :: t → isspace c = false := by
  induction r with
  | nil => intro c t h; simp at h
  | cons a r ih =>
    intro c t h
    by_cases ha : isspace a = true
    · rw [List.dropWhile_cons_of_pos ha] at h
      exact ih c t h
    · rw [List.dropWhile_cons_of_neg ha] at h
      injection h with h1 _
      rw [← h1]
      simpa using ha

/-- The test `numberStart` decides the literal reading `BeginsWithNumber`. -/
theorem numberStart_iff (r : CStr) : numberStart r = true ↔ BeginsWithNumber r := by
  constructor
  · intro h
    have hsplit : r = r.takeWhile isspace ++ r.dropWhile isspace :=
      (List.takeWhile_append_dropWhile isspace r).symm
    have hws : ∀ c ∈ r.takeWhile isspace, isspace c = true :=
      fun c hc => List.mem_takeWhile_imp hc
    unfold numberStart at h
    match hd : r.dropWhile isspace, h with
    | [], h => simp at h
    | [c], h =>
      refine ⟨r.takeWhile isspace, [], c, [], ?_, hws, Or.inl rfl, by simpa using h⟩
      rw [List.append_nil, ← hd]
      exact hsplit
    | c :: d :: t, h =>
      simp only [Bool.or_eq_true, Bool.and_eq_true, decide_eq_true_eq] at h
      rcases h with h | ⟨h1, h2⟩
      · refine ⟨r.takeWhile isspace, [], c, d :: t, ?_, hws, Or.inl rfl, h⟩
        rw [List.append_nil, ← hd]
        exact hsplit
      · rcases h1 with h1 | h1
        · refine ⟨r.takeWhile isspace, ['-'], d, t, ?_, hws, Or.inr (Or.inl rfl), h2⟩
          rw [List.append_assoc, List.singleton_append, ← h1, ← hd]
          exact hsplit
        · refine ⟨r.takeWhile isspace, ['+'], d, t, ?_, hws, Or.inr (Or.inr rfl), h2⟩
          rw [List.append_assoc, List.singleton_append, ← h1, ← hd]
          exact hsplit
  · rintro ⟨ws, sign, d, rest, hr, hws, hsign, hd⟩
    obtain ⟨hs, hm, hp⟩ := isdigit_not_special d hd
    have hdrop : r.dropWhile isspace = sign ++ d :: rest := by
      rw [hr, List.append_assoc, dropWhile_isspace_append ws _ hws]
      rcases hsign with rfl | rfl | rfl
      · rw [List.nil_append, List.dropWhile_cons_of_neg (by simp [hs])]
      · rw [List.singleton_append, List.dropWhile_cons_of_neg (by decide)]
      · rw [List.singleton_append, List.dropWhile_cons_of_neg (by decide)]
    unfold numberStart
    rw [hdrop]
    rcases hsign with rfl | rfl | rfl
    · cases rest with
      | nil => simpa using hd
      | cons a t => simp [hd]
    · simp [hd]
    · simp [hd]

theorem atoiDigits_nondigit (c : Char) (t : List Char) (acc : Int) (h : isdigit c = false) :
    atoiDigits (c :: t) acc = acc := by
  simp [atoiDigits, h]

/-- A string that does not begin with white space, a sign and a digit has
`atoi` value `0`. -/
theorem atoi_eq_zero (r : CStr) (h : ¬ BeginsWithNumber r) : atoi r = 0 := by
  have hn : numberStart r = false := by
    cases hb : numberStart r with
    | false => rfl
    | true => exact absurd ((numberStart_iff r).mp hb) h
  unfold numberStart at hn
  unfold atoi
  match hd : r.dropWhile isspace, hn with
  | [], _ => rfl
  | [c], hn =>
    have hc : isdigit c = false := by simpa using hn
    split
    · rename_i r1 heq
      injection heq with _ h2
      rw [← h2]; rfl
    · rename_i r1 heq
      injection heq with _ h2
      rw [← h2]; rfl
    · rw [atoiDigits_nondigit c [] 0 hc]; rfl
  | c :: d :: t, hn =>
    simp only [Bool.or_eq_false_iff, Bool.and_eq_false_imp, Bool.or_eq_true,
      decide_eq_true_eq] at hn
    obtain ⟨hc, hcd⟩ := hn
    split
    · rename_i r1 heq
      injection heq with h1 h2
      rw [← h2, atoiDigits_nondigit d t 0 (hcd (Or.inl h1))]; rfl
    · rename_i r1 heq
      injection heq with h1 h2
      rw [← h2, atoiDigits_nondigit d t 0 (hcd (Or.inr h1))]; rfl
    · rw [atoiDigits_nondigit c (d :: t) 0 hc]; rfl

/-- A digit followed by a non-digit, or by the end of the string, has the
value of the digit. -/
theorem atoi_single_digit (d : Nat) (rest : CStr) (hd : d ≤ 2)
    (hrest : ∀ c ∈ rest.head?, isdigit c = false) :
    atoi (digitChar d :: rest) = (d : Int) := by
  obtain ⟨h1, h2⟩ := digitChar_spec d (by omega)
  rw [atoi_digit_head _ _ h1]
  have hv : atoiDigits (digitChar d :: rest) 0 = (d : Int) := by
    simp only [atoiDigits, h1, if_true, h2]
    cases rest with
    | nil => simp [atoiDigits]
    | cons c t =>
      rw [atoiDigits_nondigit c t _ (hrest c (by simp))]
      simp
  rw [hv]
  unfold wrapInt
  omega

theorem optionStep_t (st : OptionState) (r : CStr) :
    optionStep st ("-t".toList ++ r) =
      if atoi r < 0 ∨ atoi r > 1 then
        Except.error "Error: Type info level must be between 0 and 1 inclusive.".toList
      else
        Except.ok { st with globalOptions := { st.globalOptions with typeInfoLevel := atoi r } } := by
  simp [optionStep, strcmp, strncmp]

/-- C21: the level flags are matched by their two-character prefix and read
with `atoi`. For every remainder `r` that does not begin with optional white
space, an optional sign and a decimal digit, the tokens `-O` + `r`, `-g` + `r`
and `-t` + `r` are accepted in every state and set the optimization, debug and
type-info level to `0`; with such a token last, `compileWebMain` leaves that
level `0` in the global options and every compiler call receives it. For every
digit `d` from `0` to `2` followed by a non-digit character or by the end of the
token, `-O` + `d`... and `-g` + `d`... are accepted with level `d`, and so is
`-t` + `d`... when `d` is `0` or `1`. -/
theorem level_flags_lenient :
    (∀ r : CStr, ¬ BeginsWithNumber r →
      (∀ st : OptionState,
        optionStep st ("-O".toList ++ r) =
            Except.ok { st with
              globalOptions := { st.globalOptions with optimizationLevel := 0 } } ∧
          optionStep st ("-g".toList ++ r) =
            Except.ok { st with globalOptions := { st.globalOptions with debugLevel := 0 } } ∧
          optionStep st ("-t".toList ++ r) =
            Except.ok { st with
              globalOptions := { st.globalOptions with typeInfoLevel := 0 } }) ∧
      (∀ {Ast Bcb : Type} (luau : Luau Ast Bcb) (g : GlobalOptions) (prog : CStr)
          (p : List CStr) (st1 : OptionState) (sourceCode : CStr),
        optionLoop p { globalOptions := g } = (st1, none) →
          ((compileWebMain luau g (prog :: (p ++ ["-O".toList ++ r]))
                sourceCode).globalOptions.optimizationLevel = 0 ∧
            ∀ o, Call.compileOrThrow o ∈
              (compileWebMain luau g (prog :: (p ++ ["-O".toList ++ r])) sourceCode).calls →
                o.optimizationLevel = 0) ∧
          ((compileWebMain luau g (prog :: (p ++ ["-g".toList ++ r]))
                sourceCode).globalOptions.debugLevel = 0 ∧
            ∀ o, Call.compileOrThrow o ∈
              (compileWebMain luau g (prog :: (p ++ ["-g".toList ++ r])) sourceCode).calls →
                o.debugLevel = 0) ∧
          ((compileWebMain luau g (prog :: (p ++ ["-t".toList ++ r]))
                sourceCode).globalOptions.typeInfoLevel = 0 ∧
            ∀ o, Call.compileOrThrow o ∈
              (compileWebMain luau g (prog :: (p ++ ["-t".toList ++ r])) sourceCode).calls →
                o.typeInfoLevel = 0))) ∧
    (∀ (d : Nat) (rest : CStr), d ≤ 2 → (∀ c ∈ rest.head?, isdigit c = false) →
      ∀ st : OptionState,
        optionStep st ("-O".toList ++ digitChar d :: rest) =
            Except.ok { st with
              globalOptions := { st.globalOptions with optimizationLevel := (d : Int) } } ∧
          optionStep st ("-g".toList ++ digitChar d :: rest) =
            Except.ok { st with
              globalOptions := { st.globalOptions with debugLevel := (d : Int) } } ∧
          (d ≤ 1 →
            optionStep st ("-t".toList ++ digitChar d :: rest) =
              Except.ok { st with
                globalOptions := { st.globalOptions with typeInfoLevel := (d : Int) } })) := by
  constructor
  · intro r hr
    have hat : atoi r = 0 := atoi_eq_zero r hr
    have hO : ∀ st : OptionState, optionStep st ("-O".toList ++ r) =
        Except.ok { st with
          globalOptions := { st.globalOptions with optimizationLevel := 0 } } := by
      intro st; rw [optionStep_O, hat, if_neg (by omega)]
    have hg : ∀ st : OptionState, optionStep st ("-g".toList ++ r) =
        Except.ok { st with globalOptions := { st.globalOptions with debugLevel := 0 } } := by
      intro st; rw [optionStep_g, hat, if_neg (by omega)]
    have ht : ∀ st : OptionState, optionStep st ("-t".toList ++ r) =
        Except.ok { st with globalOptions := { st.globalOptions with typeInfoLevel := 0 } } := by
      intro st; rw [optionStep_t, hat, if_neg (by omega)]
    refine ⟨fun st => ⟨hO st, hg st, ht st⟩, ?_⟩
    intro Ast Bcb luau g prog p st1 sourceCode hp
    refine ⟨⟨?_, ?_⟩, ⟨?_, ?_⟩, ⟨?_, ?_⟩⟩
    · rw [(compileWebMain_reads_loop_state luau g _ sourceCode).1]
      simp only [List.drop_succ_cons, List.drop_zero, optionLoop_append p _ _ st1 hp,
        optionLoop, hO]
    · intro o ho
      have h := (compileWebMain_reads_loop_state luau g _ sourceCode).2 o ho
      simp only [List.drop_succ_cons, List.drop_zero, optionLoop_append p _ _ st1 hp,
        optionLoop, hO] at h
      rw [h]; rfl
    · rw [(compileWebMain_reads_loop_state luau g _ sourceCode).1]
      simp only [List.drop_succ_cons, List.drop_zero, optionLoop_append p _ _ st1 hp,
        optionLoop, hg]
    · intro o ho
      have h := (compileWebMain_reads_loop_state luau g _ sourceCode).2 o ho
      simp only [List.drop_succ_cons, List.drop_zero, optionLoop_append p _ _ st1 hp,
        optionLoop, hg] at h
      rw [h]; rfl
    · rw [(compileWebMain_reads_loop_state luau g _ sourceCode).1]
      simp only [List.drop_succ_cons, List.drop_zero, optionLoop_append p _ _ st1 hp,
        optionLoop, ht]
    · intro o ho
      have h := (compileWebMain_reads_loop_state luau g _ sourceCode).2 o ho
      simp only [List.drop_succ_cons, List.drop_zero, optionLoop_append p _ _ st1 hp,
        optionLoop, ht] at h
      rw [h]; rfl
  · intro d rest hd hrest st
    have hat : atoi (digitChar d :: rest) = (d : Int) := atoi_single_digit d rest hd hrest
    refine ⟨?_, ?_, ?_⟩
    · rw [optionStep_O, hat, if_neg (by omega)]
    · rw [optionStep_g, hat, if_neg (by omega)]
    · intro h1
      rw [optionStep_t, hat, if_neg (by omega)]

theorem level_flags_lenient_witness :
    (optionStep { globalOptions := {} } ("-O".toList ++ []) =
        Except.ok { globalOptions := { optimizationLevel := 0 } } ∧
      optionStep { globalOptions := {} } ("-O".toList ++ "max".toList) =
        Except.ok { globalOptions := { optimizationLevel := 0 } } ∧
      optionStep { globalOptions := {} } ("-g".toList ++ "foo".toList) =
        Except.ok { globalOptions := { debugLevel := 0 } } ∧
      optionStep { globalOptions := { typeInfoLevel := 1 } } ("-t".toList ++ "ext".toList) =
        Except.ok { globalOptions := { typeInfoLevel := 0 } }) ∧
      (compileWebMain trivialLuau {} ("luau-compile".toList :: ([] ++ ["-O".toList ++ "max".toList]))
          []).globalOptions.optimizationLevel = 0 ∧
      optionStep { globalOptions := {} } ("-O".toList ++ digitChar 2 :: "x".toList) =
        Except.ok { globalOptions := { optimizationLevel := 2 } } ∧
      optionStep { globalOptions := {} } ("-t".toList ++ digitChar 1 :: "rue".toList) =
        Except.ok { globalOptions := { typeInfoLevel := 1 } } :=
  ⟨⟨((level_flags_lenient.1 [] (fun h => absurd ((numberStart_iff _).mpr h) (by decide))).1
        { globalOptions := {} }).1,
      ((level_flags_lenient.1 "max".toList
        (fun h => absurd ((numberStart_iff _).mpr h) (by decide))).1 { globalOptions := {} }).1,
      ((level_flags_lenient.1 "foo".toList
        (fun h => absurd ((numberStart_iff _).mpr h) (by decide))).1
          { globalOptions := {} }).2.1,
      ((level_flags_lenient.1 "ext".toList
        (fun h => absurd ((numberStart_iff _).mpr h) (by decide))).1
          { globalOptions := { typeInfoLevel := 1 } }).2.2⟩,
    ((level_flags_lenient.1 "max".toList
        (fun h => absurd ((numberStart_iff _).mpr h) (by decide))).2 trivialLuau {}
      "luau-compile".toList [] { globalOptions := {} } [] rfl).1.1,
    (level_flags_lenient.2 2 "x".toList (by decide) (by decide) { globalOptions := {} }).1,
    (level_flags_lenient.2 1 "rue".toList (by decide) (by decide)
      { globalOptions := {} }).2.2 (by decide)⟩

end CompileWeb
